import Mathlib

/-! College-Event front-end: session store, API gateway, route gating, event status

A shallow embedding of

* `src/services/authService.js` (session persistence, auth service operations),
* `src/services/api.js` (gateway interceptors, event and admin services),
* `src/context/AuthContext.jsx` (`authReducer`, `AuthProvider` operations),
* `src/App.jsx` (`ProtectedRoute`),
* `src/pages/Events.jsx` (`upcomingEvents` / `completedEvents`),

followed by theorems about them.

Modelling conventions.

* JavaScript values that cross the wire or the storage are JSON values (`Json`).
  Numbers are integers.  `undefined` is `none` in an `Option Json`.
* An object is the list of its members; reading a key returns the value of its
  last member with that key (as `JSON.parse` does for a repeated key).  A
  property holding `undefined` reads as `undefined` and is left out by
  `JSON.stringify`, so writing `undefined` to a key is modelled by removing it.
* A text kept in `localStorage` is represented by what `JSON.parse` makes of it
  (`StoredText`): the value it parses to, the empty text, or a non-empty text
  that `JSON.parse` rejects.  `JSON.stringify` of a JSON value is the text that
  parses back to it.
* `Date` parsing belongs to the platform and is a parameter `parse`
  (`none` is an invalid date); the clock is a parameter `now`.
-/

namespace CollegeEvent

/-! ## JavaScript values -/

/-- JSON values. -/
inductive Json where
  | null
  | bool (b : Bool)
  | num (n : Int)
  | str (s : String)
  | arr (items : List Json)
  | obj (members : List (String × Json))
  deriving Repr, Inhabited

/-- Value of key `k` in a member list: the last member with that key wins. -/
def lookup {β : Type} : List (String × β) → String → Option β
  | [], _ => none
  | m :: rest, k =>
    match lookup rest k with
    | some w => some w
    | none => if m.1 = k then some m.2 else none

/-- Whether a member list has key `k`. -/
def hasKey {β : Type} (ms : List (String × β)) (k : String) : Bool :=
  ms.any (fun m => decide (m.1 = k))

/-- Assignment `o[k] = v`: an existing key keeps its place, a new key is appended. -/
def assign {β : Type} (ms : List (String × β)) (k : String) (v : β) : List (String × β) :=
  if hasKey ms k then ms.map (fun m => if m.1 = k then (k, v) else m) else ms ++ [(k, v)]

/-- Removal of key `k`. -/
def remove {β : Type} (ms : List (String × β)) (k : String) : List (String × β) :=
  ms.filter (fun m => !decide (m.1 = k))

/-- Assignment of a possibly `undefined` value: `undefined` leaves the key unreadable. -/
def assignOpt (ms : List (String × Json)) (k : String) : Option Json → List (String × Json)
  | some v => assign ms k v
  | none => remove ms k

/-- Spread `{...target, ...source}` continued: every member of `source`, in order,
is assigned into `target`. -/
def spreadInto (target source : List (String × Json)) : List (String × Json) :=
  source.foldl (fun acc m => assign acc m.1 m.2) target

/-- JavaScript truthiness (`!!v`) of a JSON value. -/
def Json.truthy : Json → Bool
  | .null => false
  | .bool b => b
  | .num n => decide (n ≠ 0)
  | .str s => decide (s ≠ "")
  | .arr _ => true
  | .obj _ => true

/-- Truthiness of a possibly `undefined` value. -/
def truthyOpt : Option Json → Bool
  | none => false
  | some v => v.truthy

/-- Property read `v.k` on a non-null value, for a key that no prototype defines
(`user`, `token`, `role`, `date`, `time`): own members of an object, `undefined`
on anything else. -/
def Json.prop : Json → String → Option Json
  | .obj ms, k => lookup ms k
  | _, _ => none

/-- Own enumerable properties copied by a spread `{...v}`: the members of an
object, the indexed items of an array, the indexed characters of a string (one
per character; JavaScript counts UTF-16 code units), nothing for `null`, booleans
and numbers. -/
def Json.ownFields : Json → List (String × Json)
  | .obj ms => ms
  | .arr items => items.enum.map (fun p => (toString p.1, p.2))
  | .str s => s.toList.enum.map (fun p => (toString p.1, Json.str (String.singleton p.2)))
  | _ => []

/-- Spread of a possibly `undefined` value. -/
def ownFieldsOpt : Option Json → List (String × Json)
  | none => []
  | some v => v.ownFields

mutual
/-- String conversion `String(v)`, as done by a template literal, by `+` with a
string operand and by `new Error(v)`. -/
def Json.toJsString : Json → String
  | .null => "null"
  | .bool true => "true"
  | .bool false => "false"
  | .num n => toString n
  | .str s => s
  | .arr items => Json.joinItems items
  | .obj _ => "[object Object]"
/-- Join of array items with `","`, as `Array.prototype.join` does: `null` items
give the empty string. -/
def Json.joinItems : List Json → String
  | [] => ""
  | [.null] => ""
  | [v] => Json.toJsString v
  | .null :: rest => "," ++ Json.joinItems rest
  | v :: rest => Json.toJsString v ++ "," ++ Json.joinItems rest
end

/-- String conversion of a possibly `undefined` value. -/
def toJsStringOpt : Option Json → String
  | none => "undefined"
  | some v => v.toJsString

/-! ## Browser environment -/

/-- A text held in `localStorage`, represented by what `JSON.parse` makes of it. -/
inductive StoredText where
  /-- a text `JSON.parse` accepts, with the value it yields -/
  | json (v : Json)
  /-- the empty text `""` (falsy; `JSON.parse` rejects it) -/
  | empty
  /-- a non-empty text that `JSON.parse` rejects -/
  | malformed
  deriving Repr, Inhabited

/-- The part of the browser the code touches: the entry of `localStorage` under
`API_CONFIG.TOKEN_KEY` (`none` when `getItem` returns `null`) and
`window.location.href`. -/
structure Env where
  storage : Option StoredText
  href : String
  deriving Repr, Inhabited

/-- Response of the server to a failed call, as seen in `error.response`. -/
structure Response where
  status : Int
  data : Json
  deriving Repr, Inhabited

/-- Errors thrown in the code. -/
inductive JsError where
  /-- transport error raised by the HTTP client; `response` is `undefined` when
  the server never answered -/
  | transport (response : Option Response)
  /-- `SyntaxError` of `JSON.parse` -/
  | syntaxError
  /-- `TypeError` of a property read on `null` -/
  | typeError
  /-- `new Error(message)` -/
  | error (message : String)
  /-- error `RangeError` of `toISOString` on an invalid date -/
  | rangeError
  deriving Repr, Inhabited

/-- Field `error.response`. -/
def JsError.response : JsError → Option Response
  | .transport r => r
  | _ => none

/-- Optional chain `error.response?.status`. -/
def JsError.status (e : JsError) : Option Int := e.response.map (·.status)

/-- Optional chain `error.response?.data`. -/
def JsError.data (e : JsError) : Option Json := e.response.map (·.data)

/-- Property read `v.k` as a statement that can throw: a `TypeError` on `null`. -/
def Json.propE : Json → String → Except JsError (Option Json)
  | .null, _ => .error .typeError
  | v, k => .ok (v.prop k)

/-- What the server does with a request: a successful response with its body, or
a failure (with the failed response, when there is one). -/
inductive Reply where
  | ok (data : Json)
  | fail (response : Option Response)
  deriving Repr, Inhabited

/-- Request configuration handed to the interceptors. -/
structure RequestConfig where
  method : String
  url : String
  data : Option Json
  headers : List (String × String)
  deriving Repr, Inhabited

/-! ## `config/apiConfig.js` -/

namespace API_CONFIG

def TIMEOUT : Nat := 10000
def DEFAULT_HEADERS : List (String × String) := [("Content-Type", "application/json")]
def TOKEN_KEY : String := "user"

namespace ROUTES
namespace AUTH
def LOGIN : String := "/auth/login"
def REGISTER : String := "/auth/register"
def PROFILE : String := "/auth/profile"
def CHANGE_PASSWORD : String := "/auth/change-password"
def LOGOUT : String := "/auth/logout"
def STUDENT_DETAILS : String := "/auth/student-details"
def EVENT_MANAGER_DETAILS : String := "/auth/event-manager-details"
end AUTH
namespace EVENTS
def BASE : String := "/events"
def MY_EVENTS : String := "/events/my-events"
def REGISTERED : String := "/events/registered"
def REGISTER_FOR_EVENT (eventId : Json) : String :=
  "/events/" ++ eventId.toJsString ++ "/register"
end EVENTS
namespace USERS
def BASE : String := "/users"
end USERS
end ROUTES

end API_CONFIG

/-! ## `services/api.js`: the gateway -/

namespace api

/-- Request interceptor (`api.interceptors.request.use`): reads the stored text,
parses it without a guard, destructures `token` and sets the header when the
token is truthy. -/
def requestInterceptor (storage : Option StoredText) (config : RequestConfig) :
    Except JsError RequestConfig :=
  match storage with
  | none => .ok config
  | some .empty => .ok config
  | some .malformed => .error .syntaxError
  | some (.json .null) => .error .typeError
  | some (.json v) =>
    match v.prop "token" with
    | some token =>
      if token.truthy then
        .ok { config with
              headers := assign config.headers "Authorization" ("Bearer " ++ token.toJsString) }
      else .ok config
    | none => .ok config

/-- Response interceptor, failure side: on status `401` the stored session is
removed and the location set to `/login`; the error is rejected again. -/
def responseErrorInterceptor (env : Env) (error : JsError) : Env × Except JsError Json :=
  if error.status = some 401 then
    ({ env with storage := none, href := "/login" }, .error error)
  else
    (env, .error error)

/-- One call through the gateway: request interceptor, the server's reply, response
interceptors.  An error thrown by the request interceptor reaches the failure side
of the response interceptor like any other rejection. -/
def request (env : Env) (config : RequestConfig) (reply : Reply) : Env × Except JsError Json :=
  match requestInterceptor env.storage config with
  | .error e => responseErrorInterceptor env e
  | .ok _ =>
    match reply with
    | .ok data => (env, .ok data)
    | .fail response => responseErrorInterceptor env (.transport response)

/-- The request configuration of `api.get`, `api.post`, `api.put`, `api.delete`. -/
def config (method url : String) (data : Option Json) : RequestConfig :=
  { method := method, url := url, data := data, headers := API_CONFIG.DEFAULT_HEADERS }

end api

/-- Catch clause `if (error.response?.data) throw new Error(error.response.data);
throw new Error(fallback)`. -/
def rethrowWithBody (fallback : String) (error : JsError) : JsError :=
  match error.data with
  | some body => if body.truthy then .error body.toJsString else .error fallback
  | none => .error fallback

/-- Catch clause `throw new Error(fallback)`. -/
def rethrowFixed (fallback : String) (_error : JsError) : JsError :=
  .error fallback

/-- Body shared by the service operations: `try { response = await api.<method>(...);
return response.data } catch (error) { <handler> }`. -/
def callService (handler : JsError → JsError) (env : Env) (config : RequestConfig)
    (reply : Reply) : Env × Except JsError Json :=
  match api.request env config reply with
  | (env', .ok data) => (env', .ok data)
  | (env', .error e) => (env', .error (handler e))

/-! The methods `String.prototype.toUpperCase` and `String.prototype.toLowerCase`
are the platform's and follow the Unicode case mappings; the functions that call
them take them as the parameters `toUpperCase` and `toLowerCase`. -/

/-! ## `services/api.js`: event and admin services -/

namespace eventService

def getAllEvents (env : Env) (reply : Reply) : Env × Except JsError Json :=
  callService (rethrowWithBody "Failed to fetch events") env
    (api.config "get" API_CONFIG.ROUTES.EVENTS.BASE none) reply

def getEventById (env : Env) (eventId : Json) (reply : Reply) : Env × Except JsError Json :=
  callService (rethrowWithBody "Failed to fetch event") env
    (api.config "get" (API_CONFIG.ROUTES.EVENTS.BASE ++ "/" ++ eventId.toJsString) none) reply

def registerForEvent (env : Env) (eventId : Json) (reply : Reply) : Env × Except JsError Json :=
  callService (rethrowWithBody "Failed to register for event") env
    (api.config "post" (API_CONFIG.ROUTES.EVENTS.REGISTER_FOR_EVENT eventId) none) reply

def unregisterFromEvent (env : Env) (eventId : Json) (reply : Reply) :
    Env × Except JsError Json :=
  callService (rethrowWithBody "Failed to unregister from event") env
    (api.config "post"
      (API_CONFIG.ROUTES.EVENTS.BASE ++ "/" ++ eventId.toJsString ++ "/unregister") none) reply

def closeRegistration (env : Env) (eventId : Json) (reply : Reply) : Env × Except JsError Json :=
  callService (rethrowWithBody "Failed to close registration") env
    (api.config "post"
      (API_CONFIG.ROUTES.EVENTS.BASE ++ "/" ++ eventId.toJsString ++ "/close-registration") none)
    reply

def openRegistration (env : Env) (eventId : Json) (reply : Reply) : Env × Except JsError Json :=
  callService (rethrowWithBody "Failed to open registration") env
    (api.config "post"
      (API_CONFIG.ROUTES.EVENTS.BASE ++ "/" ++ eventId.toJsString ++ "/open-registration") none)
    reply

def createEvent (env : Env) (eventData : Json) (reply : Reply) : Env × Except JsError Json :=
  callService (rethrowWithBody "Failed to create event") env
    (api.config "post" API_CONFIG.ROUTES.EVENTS.BASE (some eventData)) reply

def updateEvent (env : Env) (eventId eventData : Json) (reply : Reply) :
    Env × Except JsError Json :=
  callService (rethrowWithBody "Failed to update event") env
    (api.config "put" (API_CONFIG.ROUTES.EVENTS.BASE ++ "/" ++ eventId.toJsString)
      (some eventData)) reply

def deleteEvent (env : Env) (eventId : Json) (reply : Reply) : Env × Except JsError Json :=
  callService (rethrowWithBody "Failed to delete event") env
    (api.config "delete" (API_CONFIG.ROUTES.EVENTS.BASE ++ "/" ++ eventId.toJsString) none) reply

def getEventsByDepartment (env : Env) (department : Json) (reply : Reply) :
    Env × Except JsError Json :=
  callService (rethrowWithBody "Failed to fetch events by department") env
    (api.config "get" (API_CONFIG.ROUTES.EVENTS.BASE ++ "/department/" ++ department.toJsString)
      none) reply

def getUpcomingEvents (env : Env) (reply : Reply) : Env × Except JsError Json :=
  callService (rethrowWithBody "Failed to fetch upcoming events") env
    (api.config "get" (API_CONFIG.ROUTES.EVENTS.BASE ++ "/upcoming") none) reply

/-- The platform's `encodeURIComponent` is the parameter `encode`. -/
def searchEvents (encode : String → String) (env : Env) (searchTerm : String) (reply : Reply) :
    Env × Except JsError Json :=
  callService (rethrowWithBody "Failed to search events") env
    (api.config "get" (API_CONFIG.ROUTES.EVENTS.BASE ++ "/search?q=" ++ encode searchTerm) none)
    reply

def getMyEvents (env : Env) (reply : Reply) : Env × Except JsError Json :=
  callService (rethrowWithBody "Failed to fetch my events") env
    (api.config "get" API_CONFIG.ROUTES.EVENTS.MY_EVENTS none) reply

def getRegisteredEvents (env : Env) (reply : Reply) : Env × Except JsError Json :=
  callService (rethrowWithBody "Failed to fetch registered events") env
    (api.config "get" API_CONFIG.ROUTES.EVENTS.REGISTERED none) reply

end eventService

namespace adminService

def getAllUsers (env : Env) (reply : Reply) : Env × Except JsError Json :=
  callService (rethrowWithBody "Failed to load users") env
    (api.config "get" API_CONFIG.ROUTES.USERS.BASE none) reply

def updateUser (env : Env) (userId payload : Json) (reply : Reply) : Env × Except JsError Json :=
  callService (rethrowWithBody "Failed to update user") env
    (api.config "put" (API_CONFIG.ROUTES.USERS.BASE ++ "/" ++ userId.toJsString) (some payload))
    reply

def deleteUser (env : Env) (userId : Json) (reply : Reply) : Env × Except JsError Json :=
  callService (rethrowWithBody "Failed to delete user") env
    (api.config "delete" (API_CONFIG.ROUTES.USERS.BASE ++ "/" ++ userId.toJsString) none) reply

end adminService

/-! ## `services/authService.js` -/

namespace authService

/-- Login: the role is sent upper-cased, or `null` when it is falsy. -/
def login (toUpperCase : String → String) (env : Env) (email password : String)
    (role : Option String) (reply : Reply) : Env × Except JsError Json :=
  let roleSent : Json :=
    match role with
    | some r => if r ≠ "" then .str (toUpperCase r) else .null
    | none => .null
  callService (rethrowWithBody "Login failed. Please try again.") env
    (api.config "post" API_CONFIG.ROUTES.AUTH.LOGIN
      (some (.obj [("email", .str email), ("password", .str password), ("role", roleSent)])))
    reply

/-- Role sent by `register`: `userData.role.toUpperCase()` when the role is truthy
(a `TypeError` when it is not a string), `'STUDENT'` otherwise. -/
def registerRole (toUpperCase : String → String) : Option Json → Except JsError Json
  | some (.str r) => if r ≠ "" then .ok (.str (toUpperCase r)) else .ok (.str "STUDENT")
  | some v => if v.truthy then .error .typeError else .ok (.str "STUDENT")
  | none => .ok (.str "STUDENT")

/-- Request body of `register`; members that are `undefined` are not serialised. -/
def registerBody (toUpperCase : String → String) (userData : Json) :
    Except JsError Json := do
  let name ← userData.propE "name"
  let role ← registerRole toUpperCase (userData.prop "role")
  let ms := assignOpt [] "name" name
  let ms := assignOpt ms "email" (userData.prop "email")
  let ms := assignOpt ms "password" (userData.prop "password")
  let ms := assignOpt ms "department" (userData.prop "department")
  let ms := assignOpt ms "designation" (userData.prop "designation")
  let ms := assignOpt ms "phoneNumber" (userData.prop "phoneNumber")
  return .obj (assign ms "role" role)

/-- Registration.  The request body is built inside the `try`, so an error thrown
while building it is handled by the same catch clause. -/
def register (toUpperCase : String → String) (env : Env) (userData : Json) (reply : Reply) :
    Env × Except JsError Json :=
  match registerBody toUpperCase userData with
  | .error e => (env, .error (rethrowWithBody "Registration failed. Please try again." e))
  | .ok body =>
    callService (rethrowWithBody "Registration failed. Please try again.") env
      (api.config "post" API_CONFIG.ROUTES.AUTH.REGISTER (some body)) reply

def getProfile (env : Env) (reply : Reply) : Env × Except JsError Json :=
  callService (rethrowFixed "Failed to fetch user profile") env
    (api.config "get" API_CONFIG.ROUTES.AUTH.PROFILE none) reply

def updateProfile (env : Env) (profileData : Json) (reply : Reply) : Env × Except JsError Json :=
  callService (rethrowWithBody "Failed to update profile") env
    (api.config "put" API_CONFIG.ROUTES.AUTH.PROFILE (some profileData)) reply

def changePassword (env : Env) (currentPassword newPassword : String) (reply : Reply) :
    Env × Except JsError Json :=
  callService (rethrowWithBody "Failed to change password") env
    (api.config "post" API_CONFIG.ROUTES.AUTH.CHANGE_PASSWORD
      (some (.obj [("currentPassword", .str currentPassword),
                   ("newPassword", .str newPassword)]))) reply

/-- Client-side logout: `localStorage.removeItem(API_CONFIG.TOKEN_KEY)`. -/
def logout (env : Env) : Env := { env with storage := none }

/-- Check `isAuthenticated()`: the stored text is present and non-empty, parses,
and the parsed value is truthy with a truthy `token`. -/
def isAuthenticated (storage : Option StoredText) : Bool :=
  match storage with
  | none => false
  | some .empty => false
  | some .malformed => false
  | some (.json userData) => userData.truthy && truthyOpt (userData.prop "token")

/-- Read `getStoredUser()`: the parsed stored text, `null` when it is missing, empty
or does not parse. -/
def getStoredUser (storage : Option StoredText) : Json :=
  match storage with
  | none => .null
  | some .empty => .null
  | some .malformed => .null
  | some (.json userData) => userData

/-- Write `storeUser(userData)`: `localStorage.setItem(TOKEN_KEY, JSON.stringify(userData))`. -/
def storeUser (env : Env) (userData : Json) : Env :=
  { env with storage := some (.json userData) }

def getStudentDetails (env : Env) (reply : Reply) : Env × Except JsError Json :=
  callService (rethrowWithBody "Failed to fetch student details") env
    (api.config "get" API_CONFIG.ROUTES.AUTH.STUDENT_DETAILS none) reply

def updateStudentDetails (env : Env) (studentDetails : Json) (reply : Reply) :
    Env × Except JsError Json :=
  callService (rethrowWithBody "Failed to update student details") env
    (api.config "put" API_CONFIG.ROUTES.AUTH.STUDENT_DETAILS (some studentDetails)) reply

def getEventManagerDetails (env : Env) (reply : Reply) : Env × Except JsError Json :=
  callService (rethrowFixed "Failed to fetch event manager details") env
    (api.config "get" API_CONFIG.ROUTES.AUTH.EVENT_MANAGER_DETAILS none) reply

def updateEventManagerDetails (env : Env) (eventManagerDetails : Json) (reply : Reply) :
    Env × Except JsError Json :=
  callService (rethrowWithBody "Failed to update event manager details") env
    (api.config "put" API_CONFIG.ROUTES.AUTH.EVENT_MANAGER_DETAILS (some eventManagerDetails))
    reply

end authService

/-! ## `context/AuthContext.jsx` -/

/-- State of the auth context: `user` is `null` or the session record. -/
structure AuthState where
  user : Json
  isAuthenticated : Bool
  loading : Bool
  deriving Repr, Inhabited

def initialState : AuthState :=
  { user := .null, isAuthenticated := false, loading := true }

/-- Actions dispatched to `authReducer`; `OTHER` is any action type the reducer
does not know. -/
inductive Action where
  | SET_LOADING (payload : Bool)
  | LOGIN_SUCCESS (payload : Json)
  | LOGOUT
  | SET_USER (payload : Json)
  | UPDATE_USER (payload : Json)
  | OTHER
  deriving Repr, Inhabited

def authReducer (state : AuthState) : Action → AuthState
  | .SET_LOADING payload => { state with loading := payload }
  | .LOGIN_SUCCESS payload =>
    { state with user := payload, isAuthenticated := true, loading := false }
  | .LOGOUT => { state with user := .null, isAuthenticated := false, loading := false }
  | .SET_USER payload =>
    { state with user := payload, isAuthenticated := payload.truthy, loading := false }
  | .UPDATE_USER payload =>
    { state with user := .obj (spreadInto (spreadInto [] state.user.ownFields) payload.ownFields) }
  | .OTHER => state

/-- The provider together with the browser: reducer state and environment. -/
structure App where
  env : Env
  auth : AuthState
  deriving Repr, Inhabited

namespace AuthProvider

/-- The mount effect: restore the stored user when there is one and
`isAuthenticated()` holds, else only clear the loading flag. -/
def mountEffect (app : App) : App :=
  let storedUser := authService.getStoredUser app.env.storage
  if storedUser.truthy && authService.isAuthenticated app.env.storage then
    { app with auth := authReducer app.auth (.SET_USER storedUser) }
  else
    { app with auth := authReducer app.auth (.SET_LOADING false) }

/-- Session record built after a successful login or registration:
`{ ...response.user, token: response.token }`; reading `response.user` throws
when the response body is `null`. -/
def sessionOf (response : Json) : Except JsError Json := do
  let user ← response.propE "user"
  let token ← response.propE "token"
  return .obj (assignOpt (spreadInto [] (ownFieldsOpt user)) "token" token)

/-- Continuation of `login` and `register` after the service call. -/
def finishLogin (auth : AuthState) : Env × Except JsError Json → App × Except JsError Json
  | (env, .ok response) =>
    match sessionOf response with
    | .ok userData =>
      ({ env := authService.storeUser env userData,
         auth := authReducer auth (.LOGIN_SUCCESS userData) }, .ok response)
    | .error error =>
      ({ env := env, auth := authReducer auth (.SET_LOADING false) }, .error error)
  | (env, .error error) =>
    ({ env := env, auth := authReducer auth (.SET_LOADING false) }, .error error)

def login (toUpperCase : String → String) (app : App) (email password : String)
    (role : Option String) (reply : Reply) : App × Except JsError Json :=
  let auth := authReducer app.auth (.SET_LOADING true)
  finishLogin auth (authService.login toUpperCase app.env email password role reply)

def register (toUpperCase : String → String) (app : App) (userData : Json) (reply : Reply) :
    App × Except JsError Json :=
  let auth := authReducer app.auth (.SET_LOADING true)
  finishLogin auth (authService.register toUpperCase app.env userData reply)

def logout (app : App) : App :=
  { env := authService.logout app.env, auth := authReducer app.auth .LOGOUT }

/-- Continuation of `updateProfile`, `updateStudentDetails` and
`updateEventManagerDetails` after the service call: merge the response into the
stored user, store it, dispatch `UPDATE_USER`. -/
def finishUpdate (auth : AuthState) : Env × Except JsError Json → App × Except JsError Json
  | (env, .ok updatedUser) =>
    let currentUser := authService.getStoredUser env.storage
    let updatedUserData := Json.obj (spreadInto (spreadInto [] currentUser.ownFields)
      updatedUser.ownFields)
    ({ env := authService.storeUser env updatedUserData,
       auth := authReducer auth (.UPDATE_USER updatedUser) }, .ok updatedUser)
  | (env, .error error) => ({ env := env, auth := auth }, .error error)

def updateProfile (app : App) (profileData : Json) (reply : Reply) : App × Except JsError Json :=
  finishUpdate app.auth (authService.updateProfile app.env profileData reply)

def changePassword (app : App) (currentPassword newPassword : String) (reply : Reply) :
    App × Except JsError Json :=
  match authService.changePassword app.env currentPassword newPassword reply with
  | (env, result) => ({ app with env := env }, result)

def getStudentDetails (app : App) (reply : Reply) : App × Except JsError Json :=
  match authService.getStudentDetails app.env reply with
  | (env, result) => ({ app with env := env }, result)

def updateStudentDetails (app : App) (studentDetails : Json) (reply : Reply) :
    App × Except JsError Json :=
  finishUpdate app.auth (authService.updateStudentDetails app.env studentDetails reply)

def getEventManagerDetails (app : App) (reply : Reply) : App × Except JsError Json :=
  match authService.getEventManagerDetails app.env reply with
  | (env, result) => ({ app with env := env }, result)

def updateEventManagerDetails (app : App) (eventManagerDetails : Json) (reply : Reply) :
    App × Except JsError Json :=
  finishUpdate app.auth (authService.updateEventManagerDetails app.env eventManagerDetails reply)

/-- Refresh: merges the fetched profile when a stored user exists; a failure is
only logged. -/
def refreshUser (app : App) (reply : Reply) : App :=
  match authService.getProfile app.env reply with
  | (env, .ok userProfile) =>
    let currentUser := authService.getStoredUser env.storage
    if currentUser.truthy then
      let updatedUserData := Json.obj (spreadInto (spreadInto [] currentUser.ownFields)
        userProfile.ownFields)
      { env := authService.storeUser env updatedUserData,
        auth := authReducer app.auth (.UPDATE_USER userProfile) }
    else { env := env, auth := app.auth }
  | (env, .error _) => { env := env, auth := app.auth }

end AuthProvider

/-- Operations a client of `AuthProvider` can perform, with the server's reply to
the call each one makes; `external` is any other change of the browser
environment (another gateway call being answered `401`, another tab). -/
inductive Op where
  | mount
  | login (email password : String) (role : Option String) (reply : Reply)
  | register (userData : Json) (reply : Reply)
  | logout
  | updateProfile (profileData : Json) (reply : Reply)
  | updateStudentDetails (studentDetails : Json) (reply : Reply)
  | updateEventManagerDetails (eventManagerDetails : Json) (reply : Reply)
  | refreshUser (reply : Reply)
  | external (env : Env)
  deriving Repr, Inhabited

/-- Effect of one operation on the provider and the browser. -/
def Op.run (toUpperCase : String → String) (app : App) : Op → App
  | .mount => AuthProvider.mountEffect app
  | .login email password role reply =>
    (AuthProvider.login toUpperCase app email password role reply).1
  | .register userData reply => (AuthProvider.register toUpperCase app userData reply).1
  | .logout => AuthProvider.logout app
  | .updateProfile profileData reply => (AuthProvider.updateProfile app profileData reply).1
  | .updateStudentDetails d reply => (AuthProvider.updateStudentDetails app d reply).1
  | .updateEventManagerDetails d reply => (AuthProvider.updateEventManagerDetails app d reply).1
  | .refreshUser reply => AuthProvider.refreshUser app reply
  | .external env => { app with env := env }

/-- Effect of a sequence of operations, in order. -/
def runAll (toUpperCase : String → String) (app : App) (ops : List Op) : App :=
  ops.foldl (Op.run toUpperCase) app

/-! ## `App.jsx`: route gating -/

/-- Pages of the application. -/
inductive Page where
  | Login | Register | Home | Events | AdminDashboard | StudentDashboard | Profile
  deriving Repr, DecidableEq, Inhabited

/-- What a route component renders: the loading spinner, a redirect
(`<Navigate to=... replace />`), or its children. -/
inductive Rendered where
  | spinner
  | navigate (target : String)
  | children (page : Page)
  deriving Repr, DecidableEq, Inhabited

/-- Call `roles.includes(user.role)` for a list of role names. -/
def rolesInclude (roles : List String) : Option Json → Bool
  | some (.str role) => roles.contains role
  | _ => false

def ProtectedRoute (auth : AuthState) (roles : Option (List String)) (children : Page) :
    Rendered :=
  if auth.loading then .spinner
  else if !auth.isAuthenticated then .navigate "/login"
  else
    match roles with
    | some allowed =>
      if auth.user.truthy && !rolesInclude allowed (auth.user.prop "role") then
        .navigate "/events"
      else .children children
    | none => .children children

def PublicRoute (auth : AuthState) (children : Page) : Rendered :=
  if auth.loading then .spinner
  else if auth.isAuthenticated && auth.user.truthy then .navigate "/"
  else .children children

/-- The route table of `AppContent`: the element rendered at a location.
`matchPath path pathname` is the router's test of a location against the path of a
route; it ignores the case of letters and trailing slashes, so it is a parameter
and not an equality of texts.  The router tries the routes by rank: the six page
paths, then `/` (of the two routes with that path the first one, the later
`Default redirect` never being reached), then `*`, which matches every location. -/
def AppContent (matchPath : String → String → Bool) (auth : AuthState) (pathname : String) :
    Rendered :=
  if matchPath "/login" pathname then PublicRoute auth .Login
  else if matchPath "/register" pathname then PublicRoute auth .Register
  else if matchPath "/events" pathname then ProtectedRoute auth none .Events
  else if matchPath "/admin-dashboard" pathname then
    ProtectedRoute auth (some ["ADMIN"]) .AdminDashboard
  else if matchPath "/student-dashboard" pathname then
    ProtectedRoute auth (some ["STUDENT"]) .StudentDashboard
  else if matchPath "/profile" pathname then ProtectedRoute auth none .Profile
  else if matchPath "/" pathname then ProtectedRoute auth none .Home
  else .navigate (if auth.isAuthenticated then "/events" else "/login")

/-! ## `pages/Events.jsx`: upcoming and completed events -/

/-- An event record, as the list of its members. -/
abbrev Event := List (String × Json)

/-- The text handed to `new Date(...)`:
`event.date + 'T' + (event.time || '00:00')`. -/
def eventDateTimeString (event : Event) : String :=
  toJsStringOpt (lookup event "date") ++ "T" ++
    (if truthyOpt (lookup event "time") then toJsStringOpt (lookup event "time") else "00:00")

/-- Comparison `eventDate > new Date()`; an invalid date compares false. -/
def dateAfter (eventDate : Option Int) (now : Int) : Bool :=
  match eventDate with
  | some t => decide (t > now)
  | none => false

/-- Comparison `eventDate <= new Date()`; an invalid date compares false. -/
def dateNotAfter (eventDate : Option Int) (now : Int) : Bool :=
  match eventDate with
  | some t => decide (t ≤ now)
  | none => false

def upcomingEvents (parse : String → Option Int) (now : Int) (filteredEvents : List Event) :
    List Event :=
  filteredEvents.filter (fun event => dateAfter (parse (eventDateTimeString event)) now)

def completedEvents (parse : String → Option Int) (now : Int) (filteredEvents : List Event) :
    List Event :=
  filteredEvents.filter (fun event => dateNotAfter (parse (eventDateTimeString event)) now)

/-! ## `pages/Events.jsx`: filter, registered set, register and unregister -/

/-- Method `String.prototype.includes`: `term` occurs in `text` as a contiguous run. -/
def includes (text term : String) : Bool :=
  text.toList.tails.any (fun rest => term.toList.isPrefixOf rest)

/-- Strict equality `a === b` (and the `SameValueZero` of `Set`) on values that may
be `undefined`: primitives are equal when they are the same primitive; arrays and
objects are equal only as references, which values parsed from a response or kept
in different records never are. -/
def strictEq : Option Json → Option Json → Bool
  | none, none => true
  | some .null, some .null => true
  | some (.bool a), some (.bool b) => a == b
  | some (.num a), some (.num b) => a == b
  | some (.str a), some (.str b) => a == b
  | _, _ => false

/-- Test `event.<field>.toLowerCase().includes(searchTerm.toLowerCase())`: a
`TypeError` when the member is not a string. -/
def fieldIncludes (toLowerCase : String → String) (event : Event)
    (field searchTerm : String) : Except JsError Bool :=
  match lookup event field with
  | some (.str text) => .ok (includes (toLowerCase text) (toLowerCase searchTerm))
  | _ => .error .typeError

/-- The search callback of `filterEvents`: title, description, department, joined
with `||` (a later member is read only when the earlier ones do not match). -/
def matchesSearch (toLowerCase : String → String) (searchTerm : String) (event : Event) :
    Except JsError Bool :=
  match fieldIncludes toLowerCase event "title" searchTerm with
  | .error e => .error e
  | .ok true => .ok true
  | .ok false =>
    match fieldIncludes toLowerCase event "description" searchTerm with
    | .error e => .error e
    | .ok true => .ok true
    | .ok false => fieldIncludes toLowerCase event "department" searchTerm

/-- Method `Array.prototype.filter` with a callback that can throw: the first
error ends the call. -/
def filterE {α : Type} (p : α → Except JsError Bool) : List α → Except JsError (List α)
  | [] => .ok []
  | x :: xs =>
    match p x with
    | .error e => .error e
    | .ok keep =>
      match filterE p xs with
      | .error e => .error e
      | .ok rest => .ok (if keep then x :: rest else rest)

/-- Function `filterEvents`: the list it hands to `setFilteredEvents`. -/
def filterEvents (toLowerCase : String → String) (events : List Event)
    (searchTerm selectedDepartment : String) : Except JsError (List Event) :=
  match (if searchTerm ≠ "" then filterE (matchesSearch toLowerCase searchTerm) events
         else .ok events) with
  | .error e => .error e
  | .ok filtered =>
    if selectedDepartment ≠ "All Departments" then
      .ok (filtered.filter
        (fun event => strictEq (lookup event "department") (some (.str selectedDepartment))))
    else .ok filtered

/-- Method `Set.prototype.has`. -/
def setHas (s : List (Option Json)) (x : Option Json) : Bool :=
  s.any (fun y => strictEq y x)

/-- Method `Set.prototype.add`: a value already in the set is not added again. -/
def setAdd (s : List (Option Json)) (x : Option Json) : List (Option Json) :=
  if setHas s x then s else s ++ [x]

/-- Method `Set.prototype.delete`. -/
def setDelete (s : List (Option Json)) (x : Option Json) : List (Option Json) :=
  s.filter (fun y => !strictEq y x)

/-- Constructor `new Set(values)`. -/
def setOf (values : List (Option Json)) : List (Option Json) :=
  values.foldl setAdd []

/-- Numeric value (`ToNumber`) of a value used in arithmetic; `none` is `NaN`.
Numbers, `null`, booleans and strings that spell a decimal integer (or are blank)
are exact; a string spelling another number, an array and an object, which
JavaScript converts further, are read as `NaN`. -/
def toNumber : Option Json → Option Int
  | some (.num n) => some n
  | some .null => some 0
  | some (.bool b) => some (if b then 1 else 0)
  | some (.str s) => if s.trim = "" then some 0 else s.trim.toInt?
  | _ => none

/-- Value of `event.currentParticipants + 1`: addition on numbers, `null` and
booleans, concatenation on strings, arrays and objects, `NaN` (a member that no
longer reads as a number, modelled as absent) on `undefined`. -/
def plusOne : Option Json → Option Json
  | none => none
  | some (.num n) => some (.num (n + 1))
  | some .null => some (.num 1)
  | some (.bool b) => some (.num (if b then 2 else 1))
  | some v => some (.str (v.toJsString ++ "1"))

/-- Value of `Math.max(0, event.currentParticipants - 1)`; `NaN` is modelled as an
absent member. -/
def minusOneClamped (count : Option Json) : Option Json :=
  match toNumber count with
  | some n => some (.num (max 0 (n - 1)))
  | none => none

/-- The state of the Events page that the handlers touch. `actionLoading` is keyed
by the identifier converted to a property key. -/
structure EventsPage where
  events : List Event
  registeredEvents : List (Option Json)
  actionLoading : List (String × Bool)
  deriving Repr, Inhabited

/-- A call of the toast helpers `success(message)` or `error(message)`. -/
inductive Notice where
  | success (message : String)
  | error (message : String)
  deriving Repr, DecidableEq, Inhabited

/-- What a handler leaves behind: the page state, the browser environment and the
notices it raised. -/
structure Handled where
  page : EventsPage
  env : Env
  notices : List Notice
  deriving Repr, Inhabited

/-- Call `event.id.toString()`: a `TypeError` when the event is `null` or the
identifier is `null` or `undefined`. -/
def idString (event : Json) : Except JsError (Option Json) :=
  match event with
  | .null => .error .typeError
  | _ =>
    match event.prop "id" with
    | none => .error .typeError
    | some .null => .error .typeError
    | some id => .ok (some (.str id.toJsString))

/-- Call `data.map(event => event.id.toString())`: a `TypeError` when `data` is
not an array. -/
def registeredIdStrings : Json → Except JsError (List (Option Json))
  | .arr items => items.mapM idString
  | _ => .error .typeError

def fetchRegisteredEvents (page : EventsPage) (env : Env) (reply : Reply) : Handled :=
  match eventService.getRegisteredEvents env reply with
  | (env', .ok data) =>
    match registeredIdStrings data with
    | .ok ids =>
      { page := { page with registeredEvents := setOf ids }, env := env', notices := [] }
    | .error _ =>
      { page := page, env := env',
        notices := [.error "Failed to load registered events. Please try again."] }
  | (env', .error _) =>
    { page := page, env := env',
      notices := [.error "Failed to load registered events. Please try again."] }

/-- The `registered` prop handed to the card of an event. -/
def registeredProp (page : EventsPage) (event : Event) : Bool :=
  setHas page.registeredEvents (lookup event "id")

/-- The `loading` prop handed to the card of an event: `actionLoading[event.id]`,
`false` when it is `undefined`. -/
def loadingProp (page : EventsPage) (event : Event) : Bool :=
  match lookup page.actionLoading (toJsStringOpt (lookup event "id")) with
  | some flag => flag
  | none => false

def handleRegister (page : EventsPage) (env : Env) (eventId : Json) (reply : Reply) : Handled :=
  let loadingKey := eventId.toJsString
  let started := { page with actionLoading := assign page.actionLoading loadingKey true }
  match eventService.registerForEvent env eventId reply with
  | (env', .ok _) =>
    { page :=
        { events := started.events.map (fun event =>
            if strictEq (lookup event "id") (some eventId) then
              assignOpt (spreadInto [] event) "currentParticipants"
                (plusOne (lookup event "currentParticipants"))
            else event),
          registeredEvents := setAdd started.registeredEvents (some eventId),
          actionLoading := assign started.actionLoading loadingKey false },
      env := env',
      notices := [.success "Successfully registered for the event!"] }
  | (env', .error _) =>
    { page := { started with actionLoading := assign started.actionLoading loadingKey false },
      env := env',
      notices := [.error "Failed to register for event. Please try again."] }

def handleUnregister (page : EventsPage) (env : Env) (eventId : Json) (reply : Reply) :
    Handled :=
  let loadingKey := eventId.toJsString
  let started := { page with actionLoading := assign page.actionLoading loadingKey true }
  match eventService.unregisterFromEvent env eventId reply with
  | (env', .ok _) =>
    { page :=
        { events := started.events.map (fun event =>
            if strictEq (lookup event "id") (some eventId) then
              assignOpt (spreadInto [] event) "currentParticipants"
                (minusOneClamped (lookup event "currentParticipants"))
            else event),
          registeredEvents := setDelete started.registeredEvents (some eventId),
          actionLoading := assign started.actionLoading loadingKey false },
      env := env',
      notices := [.success "Successfully unregistered from the event."] }
  | (env', .error _) =>
    { page := { started with actionLoading := assign started.actionLoading loadingKey false },
      env := env',
      notices := [.error "Failed to unregister from event. Please try again."] }

/-! ## `components/EventCard.jsx`: fullness, participation rate, action buttons -/

/-- A JavaScript number as the card computes it: a finite value, an infinity or
`NaN`.  The finite results of arithmetic are binary64 values (`toBinary64`); the
integers of the event records are taken to be Numbers themselves. -/
inductive JsNumber where
  | nan
  | negInf
  | finite (q : ℚ)
  | posInf
  deriving Repr, DecidableEq, Inhabited

/-- Comparison `x > bound` with a finite bound; `NaN` compares false. -/
def JsNumber.gt (x : JsNumber) (bound : ℚ) : Bool :=
  match x with
  | .nan => false
  | .negInf => false
  | .finite q => decide (q > bound)
  | .posInf => true

/-- Function `Math.round`: the nearest integer, halves going up; infinities and
`NaN` are kept. -/
def JsNumber.round : JsNumber → JsNumber
  | .finite q => .finite (Int.floor (q + 1 / 2) : ℤ)
  | x => x

/-- The integer nearest to `x`, a tie going to the even one. -/
def roundTiesToEven (x : ℚ) : Int :=
  if x - ⌊x⌋ < 1 / 2 then ⌊x⌋
  else if 1 / 2 < x - ⌊x⌋ then ⌊x⌋ + 1
  else if ⌊x⌋ % 2 = 0 then ⌊x⌋ else ⌊x⌋ + 1

/-- The spacing of the binary64 values around a positive `q`: a significand of 53
bits, and the smallest exponent for the values below `2 ^ (-1022)`. -/
def quantum (q : ℚ) : ℚ := 2 ^ (max (Int.log 2 q) (-1022) - 52)

/-- The multiple of the spacing nearest to a positive `q` (ties to the even
significand). -/
def nearestBinary64 (q : ℚ) : ℚ :=
  roundTiesToEven (q / quantum q) * quantum q

/-- The Number that an arithmetic operation with the exact result `q` returns: the
nearest binary64 value, an infinity when that is `2 ^ 1024` or more.  The sign of
a zero is not modelled. -/
def toBinary64 (q : ℚ) : JsNumber :=
  if q = 0 then .finite 0
  else if 0 < q then
    (if nearestBinary64 q < 2 ^ (1024 : ℕ) then .finite (nearestBinary64 q) else .posInf)
  else
    (if nearestBinary64 (-q) < 2 ^ (1024 : ℕ) then .finite (-nearestBinary64 (-q))
     else .negInf)

/-- Quotient `a / b` of two Numbers that are integers. -/
def divide (a b : Int) : JsNumber :=
  if b = 0 then (if a > 0 then .posInf else if a < 0 then .negInf else .nan)
  else toBinary64 ((a : ℚ) / (b : ℚ))

/-- Product `x * factor` of a Number and a positive finite factor. -/
def JsNumber.times (x : JsNumber) (factor : ℚ) : JsNumber :=
  match x with
  | .finite q => toBinary64 (q * factor)
  | y => y

/-- Operand of a relational comparison (`ToPrimitive`): an array or object is
compared through its string conversion. -/
def toPrimitive : Option Json → Option Json
  | some (.arr items) => some (.str (Json.arr items).toJsString)
  | some (.obj members) => some (.str (Json.obj members).toJsString)
  | v => v

/-- Comparison `a >= b`: two strings compare as texts, every other pair as
numbers, and a `NaN` operand compares false. -/
def jsGe (a b : Option Json) : Bool :=
  match toPrimitive a, toPrimitive b with
  | some (.str s), some (.str t) => decide (t ≤ s)
  | x, y =>
    match toNumber x, toNumber y with
    | some m, some n => decide (m ≥ n)
    | _, _ => false

/-- Props of `EventCard` that the modelled parts read. -/
structure EventCardProps where
  event : Event
  registered : Bool := false
  adminMode : Bool := false
  canRegister : Bool := false
  currentUser : Json := .null
  loading : Bool := false
  deriving Repr, Inhabited

/-- Function `formatTime` of the card, up to the formatting of the clock time:
`timeString.split(':')` throws a `TypeError` unless the time is a string; the
result holds the hours and minutes the function destructures. -/
def formatTime : Option Json → Except JsError (Option String × Option String)
  | some (.str timeString) =>
    .ok ((timeString.splitOn ":")[0]?, (timeString.splitOn ":")[1]?)
  | _ => .error .typeError

/-- Constant `isEventFull` of the card. -/
def isEventFull (event : Event) : Bool :=
  jsGe (lookup event "currentParticipants") (lookup event "maxParticipants")

/-- Constant `participationRate` of the card:
`(event.currentParticipants / event.maxParticipants) * 100`, each operation
rounding its result to a binary64 value. -/
def participationRate (event : Event) : JsNumber :=
  match toNumber (lookup event "currentParticipants"),
        toNumber (lookup event "maxParticipants") with
  | some c, some m => (divide c m).times 100
  | _, _ => .nan

/-- Constant `isEventCreator` of the card. -/
def isEventCreator (props : EventCardProps) : Bool :=
  props.currentUser.truthy &&
    strictEq (lookup props.event "createdBy") (props.currentUser.prop "email")

mutual
/-- A value that React accepts as a child of an element (`{event.title}`): a
plain object is refused with an error, an array is rendered item by item. -/
def reactChild : Json → Bool
  | .obj _ => false
  | .arr items => reactChildren items
  | _ => true
/-- Every item of an array child is accepted. -/
def reactChildren : List Json → Bool
  | [] => true
  | item :: rest => reactChild item && reactChildren rest
end

/-- A member rendered as a child: `undefined` renders nothing. -/
def reactChildOpt : Option Json → Bool
  | none => true
  | some v => reactChild v

/-- The elements of the action area of the card. -/
inductive Control where
  | editButton (disabled : Bool)
  | viewButton (disabled : Bool)
  | deleteButton (disabled : Bool)
  | cancelButton (disabled : Bool) (label : String)
  | registrationOpensSoon
  | registerButton (disabled : Bool) (label : String)
  | viewEventDetails
  deriving Repr, DecidableEq, Inhabited

/-- What a rendered card shows, as far as modelled: the `Registered` badge, the two
values of the participants line, the percentage above the bar
(`Math.round(participationRate)`), the colour class and the width of the bar (the
number before `%`), and the action area. -/
structure CardView where
  registeredBadge : Bool
  participants : Option Json × Option Json
  percent : JsNumber
  barColor : String
  barWidth : JsNumber
  actions : List Control
  deriving Repr, Inhabited

/-- Component `EventCard`: the card it renders, or the error that ends the render.
Building the element tree calls `formatTime(event.time)`, which throws for an event
whose time is not a string; React then refuses a plain object among the children
`event.department`, `event.title`, `event.description`, `event.location`,
`event.currentParticipants` and `event.maxParticipants` (its message is
abridged). -/
def EventCard (props : EventCardProps) : Except JsError CardView :=
  match formatTime (lookup props.event "time") with
  | .error e => .error e
  | .ok _ =>
    if reactChildOpt (lookup props.event "department") &&
        reactChildOpt (lookup props.event "title") &&
        reactChildOpt (lookup props.event "description") &&
        reactChildOpt (lookup props.event "location") &&
        reactChildOpt (lookup props.event "currentParticipants") &&
        reactChildOpt (lookup props.event "maxParticipants") then
      .ok {
        registeredBadge := props.registered && !props.adminMode
        participants :=
          (lookup props.event "currentParticipants", lookup props.event "maxParticipants")
        percent := (participationRate props.event).round
        barColor :=
          if (participationRate props.event).gt 80 then "bg-red-500"
          else if (participationRate props.event).gt 60 then "bg-amber-500"
          else "bg-green-500"
        barWidth := participationRate props.event
        actions :=
          if props.adminMode then
            (if isEventCreator props then [.editButton props.loading] else []) ++
            [.viewButton props.loading] ++
            (if isEventCreator props then [.deleteButton props.loading] else [])
          else if props.canRegister then
            if props.registered then
              [.cancelButton props.loading
                (if props.loading then "Cancelling..." else "Cancel Registration")]
            else if truthyOpt (lookup props.event "registrationClosed") then
              [.registrationOpensSoon]
            else
              [.registerButton (props.loading || isEventFull props.event)
                (if props.loading then "Registering..."
                 else if isEventFull props.event then "Event Full" else "Register Now")]
          else [.viewEventDetails] }
    else .error (.error "Objects are not valid as a React child")

/-! ## `context/ToastContext.jsx` -/

/-- A toast of the provider's list. -/
structure Toast where
  id : String
  message : String
  type : String
  duration : Int
  deriving Repr, DecidableEq, Inhabited

/-- Function `addToast`; the identifier drawn from `Math.random()` is the parameter
`id`, the timer that removes the toast later is not part of the state. -/
def addToast (toasts : List Toast) (id message type : String) (duration : Option Int) :
    List Toast :=
  toasts ++ [{ id := id, message := message, type := type,
               duration := match duration with
                 | some d => if d ≠ 0 then d else 4000
                 | none => 4000 }]

/-- Function `removeToast`. -/
def removeToast (toasts : List Toast) (id : String) : List Toast :=
  toasts.filter (fun toast => toast.id ≠ id)

/-! ## `utils/validate.js` and `pages/Login.jsx` -/

/-- White space and line terminators of JavaScript (`\s`, `trim`). -/
def isJsWhitespace (c : Char) : Bool :=
  c.val = 0x09 || c.val = 0x0A || c.val = 0x0B || c.val = 0x0C || c.val = 0x0D ||
  c.val = 0x20 || c.val = 0xA0 || c.val = 0x1680 || (0x2000 ≤ c.val && c.val ≤ 0x200A) ||
  c.val = 0x2028 || c.val = 0x2029 || c.val = 0x202F || c.val = 0x205F || c.val = 0x3000 ||
  c.val = 0xFEFF

/-- Method `String.prototype.trim`. -/
def jsTrim (s : String) : String :=
  String.mk ((s.toList.dropWhile isJsWhitespace).reverse.dropWhile isJsWhitespace).reverse

/-- Property `length` of a string: the number of UTF-16 code units. -/
def utf16Length (s : String) : Nat :=
  (s.toList.map (fun c => if c.val ≥ 0x10000 then 2 else 1)).sum

/-- The class `[^\s@]`. -/
def emailChar (c : Char) : Bool :=
  !isJsWhitespace c && c != '@'

/-- A non-empty run of `[^\s@]`, the part `[^\s@]+` of the pattern. -/
def emailRun (cs : List Char) : Bool :=
  !cs.isEmpty && cs.all emailChar

/-- Function `validateEmail`: `/^[^\s@]+@[^\s@]+\.[^\s@]+$/.test(email)`.  The
whole text is a run, `@`, a run, `.`, a run; `i` and `j` are the places of the `@`
and of the `.` that the match uses. -/
def validateEmail (email : String) : Bool :=
  let cs := email.toList
  (List.range cs.length).any (fun i =>
    (List.range cs.length).any (fun j =>
      decide (i < j) && cs.get? i == some '@' && cs.get? j == some '.' &&
      emailRun (cs.take i) && emailRun ((cs.take j).drop (i + 1)) &&
      emailRun (cs.drop (j + 1))))

def validatePassword (password : String) : Bool :=
  decide (utf16Length password ≥ 6)

/-- An entry of a validation result. -/
structure FieldError where
  field : String
  message : String
  deriving Repr, DecidableEq, Inhabited

def validateLoginForm (email password : String) : List FieldError :=
  (if jsTrim email = "" then [{ field := "email", message := "Email is required" }]
   else if !validateEmail email then
     [{ field := "email", message := "Please enter a valid email address" }]
   else []) ++
  (if jsTrim password = "" then [{ field := "password", message := "Password is required" }]
   else if !validatePassword password then
     [{ field := "password", message := "Password must be at least 6 characters long" }]
   else [])

/-- Property `error.message`: the text given to `new Error`; the wording of an
error raised by the engine or the HTTP client is theirs, and a fixed non-empty
text stands for it. -/
def JsError.message : JsError → String
  | .error message => message
  | .transport _ => "Request failed"
  | .syntaxError => "SyntaxError"
  | .typeError => "TypeError"
  | .rangeError => "Invalid time value"

/-- State of the Login page. -/
structure LoginPage where
  email : String
  password : String
  role : String
  errors : List (String × String)
  isLoading : Bool
  deriving Repr, Inhabited

/-- What `handleSubmit` leaves behind: the page state, the provider and browser,
the calls of `login` it made (with their arguments), the toasts it added (message
and type) and the route it navigated to. -/
structure Submitted where
  page : LoginPage
  app : App
  loginCalls : List (String × String × String)
  toasts : List (String × String)
  navigated : Option String
  deriving Repr, Inhabited

/-- Handler `handleSubmit` of the Login page; `reply` is the server's answer to the
login request, used only when `login` is called. -/
def Login.handleSubmit (toUpperCase : String → String) (page : LoginPage) (app : App)
    (reply : Reply) : Submitted :=
  let validationErrors := validateLoginForm page.email page.password
  if validationErrors.length > 0 then
    { page := { page with
                errors := validationErrors.foldl (fun m e => assign m e.field e.message) [] },
      app := app, loginCalls := [], toasts := [], navigated := none }
  else
    match AuthProvider.login toUpperCase app page.email page.password (some page.role)
        reply with
    | (app', .ok _) =>
      { page := { page with errors := [], isLoading := false },
        app := app',
        loginCalls := [(page.email, page.password, page.role)],
        toasts := [("Welcome back! Logged in as " ++ page.role, "success")],
        navigated := some (if page.role = "admin" then "/admin-dashboard" else "/events") }
    | (app', .error error) =>
      { page := { page with errors := [], isLoading := false },
        app := app',
        loginCalls := [(page.email, page.password, page.role)],
        toasts := [(if error.message ≠ "" then error.message
                    else "Invalid credentials. Please try again.", "error")],
        navigated := none }

/-! ## `config/apiConfig.js`: base URL -/

/-- The build environment `import.meta.env`: the variable `VITE_API_BASE_URL` and
the mode `MODE`; `none` is `undefined`. -/
structure BuildEnv where
  VITE_API_BASE_URL : Option String
  MODE : Option String
  deriving Repr, DecidableEq, Inhabited

/-- Expression `value || fallback` on a string that may be `undefined`: the value
when it is a non-empty string, the fallback otherwise. -/
def orString (value : Option String) (fallback : String) : String :=
  match value with
  | some s => if s ≠ "" then s else fallback
  | none => fallback

/-- Constant `API_CONFIG.BASE_URL`. -/
def API_CONFIG.BASE_URL (build : BuildEnv) : String :=
  orString build.VITE_API_BASE_URL "http://localhost:8080/api"

/-- Lookup `ENV_CONFIG[env]?.API_BASE_URL`: the table has the keys `development`,
`production` and `test`; any other key has no `API_BASE_URL`. -/
def ENV_CONFIG (build : BuildEnv) (env : String) : Option String :=
  if env = "development" then some "http://localhost:8080/api"
  else if env = "production" then
    some (orString build.VITE_API_BASE_URL "https://your-production-api.com/api")
  else if env = "test" then some "http://localhost:8080/api"
  else none

def getCurrentEnv (build : BuildEnv) : String :=
  orString build.MODE "development"

def getApiBaseUrl (build : BuildEnv) : String :=
  orString (ENV_CONFIG build (getCurrentEnv build)) (API_CONFIG.BASE_URL build)

/-! ## Request bodies of `authService.login` and `authService.register` -/

/-- The body `authService.login` posts. -/
def authService.loginBody (toUpperCase : String → String) (email password : String)
    (role : Option String) : Json :=
  .obj [("email", .str email), ("password", .str password),
        ("role", match role with
          | some r => if r ≠ "" then .str (toUpperCase r) else .null
          | none => .null)]

/-! ## Dates built from values: `AdminDashboard.jsx`, `EventCard.jsx`, `StudentDashboard.jsx` -/

/-- Largest time value a `Date` can hold, in milliseconds. -/
def maxTimeValue : Int := 8640000000000000

/-- Constructor `new Date(value)` for one argument; `none` is an invalid date.  A
string is parsed, `null`, booleans and numbers are time values, an array or object
is parsed through its string conversion. -/
def newDate (parse : String → Option Int) : Option Json → Option Int
  | none => none
  | some .null => some 0
  | some (.bool b) => some (if b then 1 else 0)
  | some (.num n) => if -maxTimeValue ≤ n ∧ n ≤ maxTimeValue then some n else none
  | some (.str s) => parse s
  | some v => parse v.toJsString

/-- What a status function returns: the status, the colour classes and, on the
student dashboard, an icon. -/
structure StatusBadge where
  status : String
  color : String
  icon : Option String
  deriving Repr, DecidableEq, Inhabited

/-- The date part of the constructed date-time:
`typeof date === 'string' ? date : new Date(date).toISOString().slice(0, 10)`.
The calendar conversion of a valid time value is the parameter `isoDate`;
`toISOString` throws a `RangeError` on an invalid date. -/
def datePartOf (parse : String → Option Int) (isoDate : Int → String) :
    Option Json → Except JsError String
  | some (.str s) => .ok s
  | v =>
    match newDate parse v with
    | some t => .ok (isoDate t)
    | none => .error .rangeError

/-- The time part: `time && typeof time === 'string' ? time : '00:00'`. -/
def timePartOf : Option Json → String
  | some (.str s) => if s ≠ "" then s else "00:00"
  | _ => "00:00"

/-- Function `getEventStatus(dateString, timeString)` of the admin dashboard. -/
def AdminDashboard.getEventStatus (parse : String → Option Int) (isoDate : Int → String)
    (now : Int) (dateString timeString : Option Json) : Except JsError StatusBadge :=
  match datePartOf parse isoDate dateString with
  | .error e => .error e
  | .ok datePart =>
    match parse (datePart ++ "T" ++ timePartOf timeString) with
    | none =>
      .ok { status := "Upcoming",
            color := "bg-green-50 text-green-700 border-green-200 dark:bg-green-900/20 dark:text-green-300 dark:border-green-800",
            icon := none }
    | some t =>
      if t > now then
        .ok { status := "Upcoming",
              color := "bg-green-50 text-green-700 border-green-200 dark:bg-green-900/20 dark:text-green-300 dark:border-green-800",
              icon := none }
      else
        .ok { status := "Completed",
              color := "bg-gray-50 text-gray-700 border-gray-200 dark:bg-gray-800 dark:text-gray-300 dark:border-gray-700",
              icon := none }

/-- Function `hasEventStarted` of the card; every error is caught and gives
`false`. -/
def hasEventStarted (parse : String → Option Int) (isoDate : Int → String) (now : Int)
    (event : Event) : Bool :=
  if !truthyOpt (lookup event "date") then false
  else
    match datePartOf parse isoDate (lookup event "date") with
    | .error _ => false
    | .ok datePart =>
      match parse (datePart ++ "T" ++ timePartOf (lookup event "time")) with
      | none => false
      | some t => decide (now ≥ t)

/-- Function `getEventStatus(dateString)` of the student dashboard. -/
def StudentDashboard.getEventStatus (parse : String → Option Int) (now : Int)
    (dateString : Option Json) : StatusBadge :=
  if dateAfter (newDate parse dateString) now then
    { status := "Upcoming",
      color := "bg-green-50 text-green-700 border-green-200 dark:bg-green-900/20 dark:text-green-300 dark:border-green-800",
      icon := some "🟢" }
  else
    { status := "Completed",
      color := "bg-gray-50 text-gray-700 border-gray-200 dark:bg-gray-800 dark:text-gray-300 dark:border-gray-700",
      icon := some "⚪" }

def StudentDashboard.upcomingEvents (parse : String → Option Int) (now : Int)
    (registeredEvents : List Event) : List Event :=
  registeredEvents.filter (fun event => dateAfter (newDate parse (lookup event "date")) now)

def StudentDashboard.completedEvents (parse : String → Option Int) (now : Int)
    (registeredEvents : List Event) : List Event :=
  registeredEvents.filter (fun event => dateNotAfter (newDate parse (lookup event "date")) now)

/-! ## `utils/validate.js`: `validateEventForm`, and `handleFormSubmit` of the Events page -/

/-- Test `!eventData.<field>?.trim()`: true for a missing or `null` member and for
a string that is blank after trimming; a `TypeError` for a member of another type,
which has no `trim`. -/
def blankField : Option Json → Except JsError Bool
  | none => .ok true
  | some .null => .ok true
  | some (.str s) => .ok (decide (jsTrim s = ""))
  | some _ => .error .typeError

/-- Comparison `value < 1`: numeric, false on `NaN`. -/
def lessThanOne (value : Option Json) : Bool :=
  match toNumber (toPrimitive value) with
  | some n => decide (n < 1)
  | none => false

def validateEventForm (eventData : List (String × Json)) : Except JsError (List FieldError) :=
  match blankField (lookup eventData "title") with
  | .error e => .error e
  | .ok noTitle =>
    match blankField (lookup eventData "description") with
    | .error e => .error e
    | .ok noDescription =>
      match blankField (lookup eventData "department") with
      | .error e => .error e
      | .ok noDepartment =>
        match blankField (lookup eventData "location") with
        | .error e => .error e
        | .ok noLocation =>
          .ok (
            (if noTitle then [{ field := "title", message := "Event title is required" }]
             else []) ++
            (if noDescription then
               [{ field := "description", message := "Event description is required" }]
             else []) ++
            (if !truthyOpt (lookup eventData "date") then
               [{ field := "date", message := "Event date is required" }]
             else []) ++
            (if !truthyOpt (lookup eventData "time") then
               [{ field := "time", message := "Event time is required" }]
             else []) ++
            (if noDepartment then
               [{ field := "department", message := "Department is required" }]
             else []) ++
            (if noLocation then
               [{ field := "location", message := "Event location is required" }]
             else []) ++
            (if !truthyOpt (lookup eventData "maxParticipants") ||
                lessThanOne (lookup eventData "maxParticipants") then
               [{ field := "maxParticipants",
                  message := "Maximum participants must be at least 1" }]
             else []))

/-- State of the event form on the Events page. -/
structure EventForm where
  eventFormData : List (String × Json)
  editingEvent : Option Event
  formErrors : List (String × String)
  showCreateModal : Bool
  events : List Event
  deriving Repr, Inhabited

/-- What `handleFormSubmit` leaves behind: the form and list state, the browser
environment, the records it handed to `eventService.createEvent` or
`eventService.updateEvent`, and the notices raised. -/
structure FormSubmitted where
  form : EventForm
  env : Env
  submitted : List (List (String × Json))
  notices : List Notice
  deriving Repr, Inhabited

/-- An identifier put into a route: `undefined` reads as the text `undefined`. -/
def routeId (id : Option Json) : Json :=
  match id with
  | some v => v
  | none => .str "undefined"

/-- The record a response stands for in the events list: the members of an
object; a response of another kind has no members to read. -/
def responseEvent : Json → Event
  | .obj members => members
  | _ => []

/-- Handler `handleFormSubmit`; validation runs before the `try`, so an error it
throws leaves the handler without any state change. -/
def handleFormSubmit (form : EventForm) (env : Env) (reply : Reply) :
    Except JsError FormSubmitted :=
  match validateEventForm form.eventFormData with
  | .error e => .error e
  | .ok validationErrors =>
    if validationErrors.length > 0 then
      .ok { form := { form with
                      formErrors := validationErrors.foldl
                        (fun m e => assign m e.field e.message) [] },
            env := env, submitted := [], notices := [] }
    else
      match form.editingEvent with
      | some editingEvent =>
        match eventService.updateEvent env (routeId (lookup editingEvent "id"))
            (.obj form.eventFormData) reply with
        | (env', .ok updatedEvent) =>
          .ok { form := { form with
                          formErrors := [],
                          events := form.events.map (fun event =>
                            if strictEq (lookup event "id") (lookup editingEvent "id") then
                              responseEvent updatedEvent
                            else event),
                          showCreateModal := false },
                env := env', submitted := [form.eventFormData],
                notices := [.success "Event updated successfully!"] }
        | (env', .error _) =>
          .ok { form := { form with formErrors := [] },
                env := env', submitted := [form.eventFormData],
                notices := [.error "Failed to update event. Please try again."] }
      | none =>
        match eventService.createEvent env (.obj form.eventFormData) reply with
        | (env', .ok newEvent) =>
          .ok { form := { form with
                          formErrors := [],
                          events := form.events ++ [responseEvent newEvent],
                          showCreateModal := false },
                env := env', submitted := [form.eventFormData],
                notices := [.success "Event created successfully!"] }
        | (env', .error _) =>
          .ok { form := { form with formErrors := [] },
                env := env', submitted := [form.eventFormData],
                notices := [.error "Failed to create event. Please try again."] }

/-! ## Dispatch sequences -/

/-- The state after a sequence of dispatched actions. -/
def dispatchAll (state : AuthState) (actions : List Action) : AuthState :=
  actions.foldl authReducer state

/-! ## Predicates used in the statements -/

/-- The stored text parses to the record `members`, and the record holds a token
that is not empty (truthy: not `""`, `0`, `false` or `null`). -/
def StoresSession (storage : Option StoredText) (members : List (String × Json)) : Prop :=
  ∃ token, storage = some (.json (.obj members)) ∧ lookup members "token" = some token ∧
    token.truthy = true

/-- The stored text parses to a record that, for every key, holds the member of
`r` when `r` has the key and the member of `s` otherwise. -/
def StoresMerge (storage : Option StoredText) (s r : List (String × Json)) : Prop :=
  ∃ merged, storage = some (.json (.obj merged)) ∧
    ∀ k, lookup merged k = match lookup r k with
      | some v => some v
      | none => lookup s k

/-- A reply to a login or registration call that, when successful, carries a
non-empty token. -/
def Reply.carriesToken : Reply → Bool
  | .ok data => truthyOpt (data.prop "token")
  | .fail _ => true

/-- A reply to an update or profile call that, when successful, does not carry an
empty `token` member. -/
def Reply.keepsToken : Reply → Bool
  | .ok data =>
    match lookup data.ownFields "token" with
    | some token => token.truthy
    | none => true
  | .fail _ => true

/-- Operations whose server replies respect the session token: login and
registration replies carry one, update and refresh replies do not blank it. -/
def Op.tokenSafe : Op → Bool
  | .login _ _ _ reply => reply.carriesToken
  | .register _ reply => reply.carriesToken
  | .updateProfile _ reply => reply.keepsToken
  | .updateStudentDetails _ reply => reply.keepsToken
  | .updateEventManagerDetails _ reply => reply.keepsToken
  | .refreshUser reply => reply.keepsToken
  | _ => true

/-- An authenticated state holds a user with a non-empty token. -/
def TokenInvariant (auth : AuthState) : Prop :=
  auth.isAuthenticated = true → truthyOpt (auth.user.prop "token") = true

/-- A date parser used in examples: it knows one date-time text (10:00 on
1 January 2030, in milliseconds since the epoch, UTC) and rejects every other
text. -/
def sampleParse (text : String) : Option Int :=
  if text = "2030-01-01T10:00" then some 1893492000000 else none

/-- The case mapping `toUpperCase` on ASCII text: `a` to `z` become `A` to `Z`,
every other character is kept. -/
def asciiUpperCase (s : String) : String := ⟨s.data.map Char.toUpper⟩

/-- A test of a location against a route path for the examples: the two texts are
equal up to the case of the ASCII letters and to trailing slashes. -/
def sampleMatchPath (path pathname : String) : Bool :=
  ((pathname.data.map Char.toLower).reverse.dropWhile (fun c => c = '/')) ==
    ((path.data.map Char.toLower).reverse.dropWhile (fun c => c = '/'))

/-- The member is a string. -/
def isText : Option Json → Bool
  | some (.str _) => true
  | _ => false

/-- An event that the card can render: its time is a string and none of the members
shown as text is a plain object (or an array holding one). -/
def renderable (event : Event) : Bool :=
  isText (lookup event "time") &&
    reactChildOpt (lookup event "department") && reactChildOpt (lookup event "title") &&
    reactChildOpt (lookup event "description") && reactChildOpt (lookup event "location") &&
    reactChildOpt (lookup event "currentParticipants") &&
    reactChildOpt (lookup event "maxParticipants")

/-- An event whose title, description and department are strings, as the data
model has them. -/
def hasTextFields (event : Event) : Bool :=
  isText (lookup event "title") && isText (lookup event "description") &&
    isText (lookup event "department")

/-- A case mapping `toLowerCase` for the examples: the ASCII letters and `É`. -/
def sampleLowerCase (s : String) : String :=
  ⟨s.data.map (fun c => if c = 'É' then 'é' else Char.toLower c)⟩

/-- The text contains the term, ignoring case. -/
def containsIgnoringCase (toLowerCase : String → String) (text term : String) : Bool :=
  includes (toLowerCase text) (toLowerCase term)

/-- The member is a string that contains the term, ignoring case. -/
def memberContains (toLowerCase : String → String) (member : Option Json) (term : String) :
    Bool :=
  match member with
  | some (.str text) => containsIgnoringCase toLowerCase text term
  | _ => false

/-- The member is the string `text`. -/
def memberIs (member : Option Json) (text : String) : Bool :=
  match member with
  | some (.str s) => decide (s = text)
  | _ => false

/-- The events the filter is to keep: the department is the selected one (any
department under `All Departments`) and, for a non-empty search term, the title,
the description or the department contains the term ignoring case. -/
def selectedBy (toLowerCase : String → String) (searchTerm selectedDepartment : String)
    (event : Event) : Bool :=
  (decide (selectedDepartment = "All Departments") ||
    memberIs (lookup event "department") selectedDepartment) &&
  (decide (searchTerm = "") ||
    memberContains toLowerCase (lookup event "title") searchTerm ||
    memberContains toLowerCase (lookup event "description") searchTerm ||
    memberContains toLowerCase (lookup event "department") searchTerm)

/-- Every member of the event that a search for the term reads is a string: the
title; the description when the title does not contain the term; the department
when neither does.  An event with the three text members of the data model
satisfies it. -/
def searchReadsText (toLowerCase : String → String) (searchTerm : String) (event : Event) :
    Bool :=
  match lookup event "title" with
  | some (.str title) =>
    containsIgnoringCase toLowerCase title searchTerm ||
      (match lookup event "description" with
       | some (.str description) =>
         containsIgnoringCase toLowerCase description searchTerm ||
           isText (lookup event "department")
       | _ => false)
  | _ => false

/-- How `before` and `after` relate when an unregistration for `eventId` has been
applied to an event: an event with that identifier has its numeric count
`c` replaced by `max 0 (c - 1)` and every other member as it was; any other event
is the same record. -/
def UnregisterPatch (eventId : Json) (before after : Event) : Prop :=
  (strictEq (lookup before "id") (some eventId) = true →
    (∀ c : Int, lookup before "currentParticipants" = some (.num c) →
      lookup after "currentParticipants" = some (.num (max 0 (c - 1)))) ∧
    (∀ k, k ≠ "currentParticipants" → lookup after k = lookup before k)) ∧
  (strictEq (lookup before "id") (some eventId) = false → after = before)

/-- The errors of one field, one per message. -/
def fieldErrors (field : String) (messages : List String) : List FieldError :=
  messages.map (fun message => { field := field, message := message })

/-- A date parser used in examples, for a browser in the UTC time zone: it knows
the date `2030-01-01` (midnight) and the date-time `2030-01-01T18:00`, in
milliseconds since the epoch, and rejects every other text. -/
def sampleClock (text : String) : Option Int :=
  if text = "2030-01-01" then some 1893456000000
  else if text = "2030-01-01T18:00" then some 1893520800000
  else none

/-- Actions as `AuthProvider` dispatches them: `SET_USER`, `LOGIN_SUCCESS` and
`UPDATE_USER` carry a record. -/
def Action.fromProvider : Action → Bool
  | .SET_USER (.obj _) => true
  | .SET_USER _ => false
  | .LOGIN_SUCCESS (.obj _) => true
  | .LOGIN_SUCCESS _ => false
  | .UPDATE_USER (.obj _) => true
  | .UPDATE_USER _ => false
  | _ => true

/-- The members of the registration body other than the role, copied from the
caller's record. -/
def registerFields (members : List (String × Json)) : List (String × Json) :=
  assignOpt (assignOpt (assignOpt (assignOpt (assignOpt (assignOpt [] "name"
    (lookup members "name")) "email" (lookup members "email")) "password"
    (lookup members "password")) "department" (lookup members "department")) "designation"
    (lookup members "designation")) "phoneNumber" (lookup members "phoneNumber")

/-- An authenticated state holds a user that is not `null` (a truthy value). -/
def UserPresent (auth : AuthState) : Prop :=
  auth.isAuthenticated = true → auth.user.truthy = true

/-- The shape of an accepted email address, in words: no white space, exactly one
`@`, at least one character before it, and after it a part that contains a `.`
with at least one character before and at least one after it. -/
def EmailShape (cs : List Char) : Prop :=
  (∀ c ∈ cs, isJsWhitespace c = false) ∧ cs.count '@' = 1 ∧
  ∃ front rest, cs = front ++ '@' :: rest ∧ front ≠ [] ∧
    ∃ before after, rest = before ++ '.' :: after ∧ before ≠ [] ∧ after ≠ []

/-- A form member that is a string, or missing (`undefined` or `null`). -/
def textOrMissing : Option Json → Bool
  | none => true
  | some .null => true
  | some (.str _) => true
  | _ => false

/-- A form member that is a number, or missing (`undefined` or `null`). -/
def numberOrMissing : Option Json → Bool
  | none => true
  | some .null => true
  | some (.num _) => true
  | _ => false

/-- An event form record as the form keeps it: the four text members are strings
(or missing) and `maxParticipants` is a number (or missing). -/
def formTyped (eventData : List (String × Json)) : Bool :=
  textOrMissing (lookup eventData "title") && textOrMissing (lookup eventData "description") &&
  textOrMissing (lookup eventData "department") && textOrMissing (lookup eventData "location") &&
  numberOrMissing (lookup eventData "maxParticipants")

/-- The member is a string that is not blank after trimming. -/
def nonBlank : Option Json → Bool
  | some (.str s) => decide (jsTrim s ≠ "")
  | _ => false

/-- The member is a number that is at least 1. -/
def atLeastOne : Option Json → Bool
  | some (.num n) => decide (n ≥ 1)
  | _ => false

/-- Every error `validateEventForm` can report, in the order of its checks. -/
def eventFormErrors : List FieldError :=
  [{ field := "title", message := "Event title is required" },
   { field := "description", message := "Event description is required" },
   { field := "date", message := "Event date is required" },
   { field := "time", message := "Event time is required" },
   { field := "department", message := "Department is required" },
   { field := "location", message := "Event location is required" },
   { field := "maxParticipants", message := "Maximum participants must be at least 1" }]

/-! ## Lemmas on member lists -/

theorem lookup_append {β : Type} (a b : List (String × β)) (k : String) :
    lookup (a ++ b) k = match lookup b k with
      | some w => some w
      | none => lookup a k := by
  induction a with
  | nil =>
    cases h : lookup b k <;> simp [lookup, h]
  | cons m rest ih =>
    have step : lookup (m :: rest ++ b) k =
        match lookup (rest ++ b) k with
        | some w => some w
        | none => if m.1 = k then some m.2 else none := rfl
    have step2 : lookup (m :: rest) k =
        match lookup rest k with
        | some w => some w
        | none => if m.1 = k then some m.2 else none := rfl
    rw [step, ih, step2]
    cases lookup b k <;> rfl

theorem lookup_eq_none_of_hasKey_false {β : Type} (ms : List (String × β)) (k : String)
    (h : hasKey ms k = false) : lookup ms k = none := by
  induction ms with
  | nil => rfl
  | cons m rest ih =>
    simp only [hasKey, List.any_cons, Bool.or_eq_false_iff, decide_eq_false_iff_not] at h
    have h2 : lookup rest k = none := ih (by simpa [hasKey] using h.2)
    simp [lookup, h2, h.1]

theorem lookup_map_assign {β : Type} (ms : List (String × β)) (k : String) (v : β)
    (k' : String) :
    lookup (ms.map (fun m => if m.1 = k then (k, v) else m)) k' =
      if k' = k then (if hasKey ms k then some v else none) else lookup ms k' := by
  induction ms with
  | nil => simp [lookup, hasKey]
  | cons m rest ih =>
    simp only [List.map_cons, lookup, ih, hasKey, List.any_cons]
    by_cases hk : k' = k
    · subst hk
      by_cases h1 : m.1 = k' <;> by_cases h2 : (rest.any fun m => decide (m.1 = k')) = true <;>
        simp [h1, h2]
    · by_cases h1 : m.1 = k
      · have h3 : ¬ m.1 = k' := fun h => hk (h.symm.trans h1)
        have h4 : ¬ k = k' := fun h => hk h.symm
        simp only [hk, if_false, h1, if_true, h3, h4]
      · simp only [hk, if_false, h1]

theorem lookup_assign {β : Type} (ms : List (String × β)) (k : String) (v : β) (k' : String) :
    lookup (assign ms k v) k' = if k' = k then some v else lookup ms k' := by
  unfold assign
  by_cases h : hasKey ms k = true
  · simp only [h, if_true, lookup_map_assign]
  · have h' : hasKey ms k = false := by simpa using h
    simp only [h', Bool.false_eq_true, if_false, lookup_append, lookup]
    by_cases hk : k' = k
    · subst hk; simp
    · have : ¬ k = k' := fun e => hk e.symm
      simp [hk, this]

theorem lookup_remove {β : Type} (ms : List (String × β)) (k k' : String) :
    lookup (remove ms k) k' = if k' = k then none else lookup ms k' := by
  induction ms with
  | nil => simp [remove, lookup]
  | cons m rest ih =>
    unfold remove at ih ⊢
    by_cases h1 : m.1 = k
    · simp only [List.filter_cons, h1, decide_True, Bool.not_true, Bool.false_eq_true, if_false,
        ih, lookup]
      by_cases hk : k' = k
      · simp [hk]
      · have : ¬ k = k' := fun e => hk e.symm
        simp only [hk, if_false, this]
        cases lookup rest k' <;> rfl
    · simp only [List.filter_cons, h1, decide_False, Bool.not_false, if_true, lookup, ih]
      by_cases hk : k' = k
      · subst hk; simp [h1]
      · simp [hk]

theorem lookup_assignOpt (ms : List (String × Json)) (k : String) (v : Option Json)
    (k' : String) :
    lookup (assignOpt ms k v) k' = if k' = k then v else lookup ms k' := by
  cases v with
  | none => simp [assignOpt, lookup_remove]
  | some w => simp [assignOpt, lookup_assign]

theorem lookup_spreadInto (target source : List (String × Json)) (k : String) :
    lookup (spreadInto target source) k = match lookup source k with
      | some w => some w
      | none => lookup target k := by
  unfold spreadInto
  induction source generalizing target with
  | nil => simp [lookup]
  | cons m rest ih =>
    simp only [List.foldl_cons, ih, lookup, lookup_assign]
    cases lookup rest k with
    | some w => rfl
    | none =>
      by_cases h1 : m.1 = k
      · simp [h1]
      · have : ¬ k = m.1 := fun e => h1 e.symm
        simp [h1, this]

/-! ## Lemmas on the gateway and the services -/

theorem responseErrorInterceptor_snd (env : Env) (error : JsError) :
    (api.responseErrorInterceptor env error).2 = .error error := by
  unfold api.responseErrorInterceptor
  split <;> rfl

theorem responseErrorInterceptor_eq (env : Env) (error : JsError) :
    api.responseErrorInterceptor env error =
      ((api.responseErrorInterceptor env error).1, .error error) := by
  unfold api.responseErrorInterceptor
  split <;> rfl

theorem callService_ok_inv (handler : JsError → JsError) (env env' : Env)
    (config : RequestConfig) (reply : Reply) (d : Json)
    (h : callService handler env config reply = (env', .ok d)) :
    env' = env ∧ reply = .ok d := by
  unfold callService api.request at h
  cases hi : api.requestInterceptor env.storage config with
  | error e =>
    rw [hi] at h
    simp only at h
    rw [responseErrorInterceptor_eq] at h
    simp at h
  | ok c =>
    rw [hi] at h
    cases reply with
    | ok data =>
      simp only [Prod.mk.injEq, Except.ok.injEq] at h
      exact ⟨h.1.symm, by rw [h.2]⟩
    | fail response =>
      simp only at h
      rw [responseErrorInterceptor_eq] at h
      simp at h

theorem propE_of_ne_null (v : Json) (k : String) (h : v ≠ .null) :
    v.propE k = .ok (v.prop k) := by
  cases v <;> first | rfl | exact absurd rfl h

theorem sessionOf_of_ne_null (response : Json) (h : response ≠ .null) :
    AuthProvider.sessionOf response =
      .ok (.obj (assignOpt (spreadInto [] (ownFieldsOpt (response.prop "user"))) "token"
        (response.prop "token"))) := by
  unfold AuthProvider.sessionOf
  rw [propE_of_ne_null response "user" h, propE_of_ne_null response "token" h]
  rfl

theorem sessionOf_null : AuthProvider.sessionOf .null = .error .typeError := rfl

theorem truthy_obj (members : List (String × Json)) : (Json.obj members).truthy = true := rfl

theorem lookup_nil {β : Type} (k : String) : lookup ([] : List (String × β)) k = none := rfl

/-! ## Session round trip (C1) -/

/-- C1, counterexample: a login whose response is `{user: {name, token: "u0"}, token: "t1"}`
succeeds, yet the record read back from storage does not contain the field
`token: "u0"` of `response.user`: the response token overrides it. -/
theorem login_user_token_overridden :
    (AuthProvider.login asciiUpperCase ⟨⟨none, "/login"⟩, initialState⟩
        "student@example.com" "password"
        (some "student")
        (.ok (.obj [("user", .obj [("name", .str "S"), ("token", .str "u0")]),
                    ("token", .str "t1")]))).2
      = .ok (.obj [("user", .obj [("name", .str "S"), ("token", .str "u0")]),
                   ("token", .str "t1")])
    ∧ lookup [("name", Json.str "S"), ("token", Json.str "u0")] "token" = some (.str "u0")
    ∧ ¬ ((authService.getStoredUser
        (AuthProvider.login asciiUpperCase ⟨⟨none, "/login"⟩, initialState⟩
            "student@example.com" "password"
          (some "student")
          (.ok (.obj [("user", .obj [("name", .str "S"), ("token", .str "u0")]),
                      ("token", .str "t1")]))).1.env.storage).prop "token" = some (.str "u0")) := by
  refine ⟨rfl, rfl, ?_⟩
  intro h
  have h2 : (authService.getStoredUser
        (AuthProvider.login asciiUpperCase ⟨⟨none, "/login"⟩, initialState⟩
            "student@example.com" "password"
          (some "student")
          (.ok (.obj [("user", .obj [("name", .str "S"), ("token", .str "u0")]),
                      ("token", .str "t1")]))).1.env.storage).prop "token" = some (.str "t1") := rfl
  rw [h2] at h
  simp at h

/-- C1, amended: for every successful login whose response carries a user record
and a token, the record read back with `getStoredUser()` and the in-memory user
are one record that holds `token = response.token` and, for every other key, the
field of `response.user`; the state ends authenticated and not loading. -/
theorem login_success_session (toUpperCase : String → String)
    (app app' : App) (email password : String) (role : Option String)
    (response : Json) (userFields : List (String × Json)) (token : Json)
    (huser : response.prop "user" = some (.obj userFields))
    (htoken : response.prop "token" = some token)
    (hlogin : AuthProvider.login toUpperCase app email password role (.ok response) = (app', .ok response)) :
    ∃ session : List (String × Json),
      authService.getStoredUser app'.env.storage = .obj session ∧
      app'.auth.user = .obj session ∧
      (∀ k, lookup session k = if k = "token" then some token else lookup userFields k) ∧
      app'.auth.isAuthenticated = true ∧ app'.auth.loading = false := by
  have hne : response ≠ .null := by
    intro h0
    rw [h0] at huser
    simp [Json.prop] at huser
  unfold AuthProvider.login at hlogin
  cases hs : authService.login toUpperCase app.env email password role (.ok response) with
  | mk env1 r1 =>
    rw [hs] at hlogin
    cases r1 with
    | error e => simp [AuthProvider.finishLogin] at hlogin
    | ok d =>
      have hd := callService_ok_inv _ _ _ _ _ _ hs
      have hd2 : d = response := by
        have := hd.2
        simp only [Reply.ok.injEq] at this
        exact this.symm
      subst hd2
      simp only [AuthProvider.finishLogin, sessionOf_of_ne_null d hne, huser, htoken,
        Prod.mk.injEq, and_true] at hlogin
      subst hlogin
      refine ⟨_, rfl, rfl, ?_, rfl, rfl⟩
      intro k
      rw [lookup_assignOpt, lookup_spreadInto]
      by_cases hk : k = "token"
      · simp [hk]
      · simp only [hk, if_false, ownFieldsOpt, Json.ownFields, lookup_nil]
        cases lookup userFields k <;> rfl

/-- C1, the scenario of the specification: user `{name: "S", role: "STUDENT"}` and
token `"t1"` give the session `{name: "S", role: "STUDENT", token: "t1"}`. -/
theorem login_success_session_witness :
    ∃ session : List (String × Json),
      authService.getStoredUser
        (AuthProvider.login asciiUpperCase ⟨⟨none, "/login"⟩, initialState⟩
            "student@example.com" "password"
          (some "student")
          (.ok (.obj [("user", .obj [("name", .str "S"), ("role", .str "STUDENT")]),
                      ("token", .str "t1")]))).1.env.storage = .obj session ∧
      (AuthProvider.login asciiUpperCase ⟨⟨none, "/login"⟩, initialState⟩
          "student@example.com" "password"
          (some "student")
          (.ok (.obj [("user", .obj [("name", .str "S"), ("role", .str "STUDENT")]),
                      ("token", .str "t1")]))).1.auth.user = .obj session ∧
      (∀ k, lookup session k = if k = "token" then some (.str "t1")
        else lookup [("name", Json.str "S"), ("role", Json.str "STUDENT")] k) ∧
      (AuthProvider.login asciiUpperCase ⟨⟨none, "/login"⟩, initialState⟩
          "student@example.com" "password"
          (some "student")
          (.ok (.obj [("user", .obj [("name", .str "S"), ("role", .str "STUDENT")]),
                      ("token", .str "t1")]))).1.auth.isAuthenticated = true ∧
      (AuthProvider.login asciiUpperCase ⟨⟨none, "/login"⟩, initialState⟩
          "student@example.com" "password"
          (some "student")
          (.ok (.obj [("user", .obj [("name", .str "S"), ("role", .str "STUDENT")]),
                      ("token", .str "t1")]))).1.auth.loading = false :=
  login_success_session asciiUpperCase ⟨⟨none, "/login"⟩, initialState⟩
    (AuthProvider.login asciiUpperCase ⟨⟨none, "/login"⟩, initialState⟩
        "student@example.com" "password"
      (some "student")
      (.ok (.obj [("user", .obj [("name", .str "S"), ("role", .str "STUDENT")]),
                  ("token", .str "t1")]))).1
    "student@example.com" "password" (some "student")
    (.obj [("user", .obj [("name", .str "S"), ("role", .str "STUDENT")]), ("token", .str "t1")])
    [("name", .str "S"), ("role", .str "STUDENT")] (.str "t1") rfl rfl rfl

/-- The session stored by the scenario of the specification, spelled out. -/
theorem login_scenario_session :
    (AuthProvider.login asciiUpperCase ⟨⟨none, "/login"⟩, initialState⟩
        "student@example.com" "password"
        (some "student")
        (.ok (.obj [("user", .obj [("name", .str "S"), ("role", .str "STUDENT")]),
                    ("token", .str "t1")]))).1
      = ⟨⟨some (.json (.obj [("name", .str "S"), ("role", .str "STUDENT"),
            ("token", .str "t1")])), "/login"⟩,
         ⟨.obj [("name", .str "S"), ("role", .str "STUDENT"), ("token", .str "t1")],
          true, false⟩⟩ := rfl

theorem requestInterceptor_record (members : List (String × Json)) (config : RequestConfig) :
    ∃ c, api.requestInterceptor (some (.json (.obj members))) config = .ok c := by
  unfold api.requestInterceptor
  simp only
  cases (Json.obj members).prop "token" with
  | none => exact ⟨_, rfl⟩
  | some token =>
    simp only
    split <;> exact ⟨_, rfl⟩

theorem callService_ok_of_record (handler : JsError → JsError) (members : List (String × Json))
    (href : String) (config : RequestConfig) (data : Json) :
    callService handler ⟨some (.json (.obj members)), href⟩ config (.ok data) =
      (⟨some (.json (.obj members)), href⟩, .ok data) := by
  obtain ⟨c, hc⟩ := requestInterceptor_record members config
  unfold callService api.request
  simp only [hc]

/-! ## Merge of an update into the stored session (C2) -/

theorem finishUpdate_storesMerge (auth : AuthState) (s r : List (String × Json))
    (href : String) :
    StoresMerge (AuthProvider.finishUpdate auth
      (⟨some (.json (.obj s)), href⟩, .ok (.obj r))).1.env.storage s r := by
  refine ⟨_, rfl, ?_⟩
  intro k
  simp only [authService.getStoredUser, Json.ownFields, lookup_spreadInto, lookup_nil]
  cases lookup r k with
  | some v => rfl
  | none => cases lookup s k <;> rfl

/-- C2: for every persisted session `s` and every successful response `r` to
`updateProfile`, `updateStudentDetails` or `updateEventManagerDetails`, the
persisted session afterwards holds, for every key, the member of `r` when `r` has
the key and the member of `s` otherwise (so every member of `s` that `r` omits,
`token` included, survives). -/
theorem update_merges_into_stored_session (s r : List (String × Json)) (href : String)
    (auth : AuthState) (payload : Json) :
    StoresMerge (AuthProvider.updateProfile ⟨⟨some (.json (.obj s)), href⟩, auth⟩ payload
      (.ok (.obj r))).1.env.storage s r ∧
    StoresMerge (AuthProvider.updateStudentDetails ⟨⟨some (.json (.obj s)), href⟩, auth⟩ payload
      (.ok (.obj r))).1.env.storage s r ∧
    StoresMerge (AuthProvider.updateEventManagerDetails ⟨⟨some (.json (.obj s)), href⟩, auth⟩
      payload (.ok (.obj r))).1.env.storage s r := by
  refine ⟨?_, ?_, ?_⟩
  · unfold AuthProvider.updateProfile authService.updateProfile
    rw [callService_ok_of_record]
    exact finishUpdate_storesMerge auth s r href
  · unfold AuthProvider.updateStudentDetails authService.updateStudentDetails
    rw [callService_ok_of_record]
    exact finishUpdate_storesMerge auth s r href
  · unfold AuthProvider.updateEventManagerDetails authService.updateEventManagerDetails
    rw [callService_ok_of_record]
    exact finishUpdate_storesMerge auth s r href

/-! ## Token invariant of the reachable states (C3) -/

theorem tokenInvariant_of_fields (a b : AuthState) (hu : b.user = a.user)
    (hi : b.isAuthenticated = a.isAuthenticated) (h : TokenInvariant a) : TokenInvariant b := by
  unfold TokenInvariant at *
  rw [hu, hi]
  exact h

theorem tokenInvariant_mountEffect (app : App) (h : TokenInvariant app.auth) :
    TokenInvariant (AuthProvider.mountEffect app).auth := by
  unfold AuthProvider.mountEffect
  simp only
  split
  · rename_i hc
    simp only [Bool.and_eq_true] at hc
    obtain ⟨_, hauth⟩ := hc
    intro _
    cases hs : app.env.storage with
    | none => rw [hs] at hauth; simp [authService.isAuthenticated] at hauth
    | some text =>
      cases text with
      | empty => rw [hs] at hauth; simp [authService.isAuthenticated] at hauth
      | malformed => rw [hs] at hauth; simp [authService.isAuthenticated] at hauth
      | json v =>
        rw [hs] at hauth
        simp only [authService.isAuthenticated, Bool.and_eq_true] at hauth
        simpa [authReducer, authService.getStoredUser] using hauth.2
  · exact tokenInvariant_of_fields app.auth _ rfl rfl h

theorem tokenInvariant_finishLogin (auth : AuthState) (result : Env × Except JsError Json)
    (h : TokenInvariant auth)
    (hreply : ∀ env d, result = (env, .ok d) → truthyOpt (d.prop "token") = true) :
    TokenInvariant (AuthProvider.finishLogin (authReducer auth (.SET_LOADING true)) result).1.auth := by
  obtain ⟨env, r⟩ := result
  cases r with
  | error e => exact tokenInvariant_of_fields auth _ rfl rfl h
  | ok d =>
    have ht := hreply env d rfl
    have hne : d ≠ .null := by
      intro h0
      rw [h0] at ht
      simp [Json.prop, truthyOpt] at ht
    intro _
    simp only [AuthProvider.finishLogin, sessionOf_of_ne_null d hne, authReducer, Json.prop,
      lookup_assignOpt, if_true]
    exact ht

theorem prop_eq_lookup_ownFields (v : Json) (k : String) (h : truthyOpt (v.prop k) = true) :
    lookup v.ownFields k = v.prop k := by
  cases v <;> first | rfl | simp [Json.prop, truthyOpt] at h

theorem tokenInvariant_update (auth : AuthState) (d : Json) (h : TokenInvariant auth)
    (hd : Reply.keepsToken (.ok d) = true) :
    TokenInvariant (authReducer auth (.UPDATE_USER d)) := by
  intro hi
  have hold := h hi
  have hl := prop_eq_lookup_ownFields auth.user "token" hold
  simp only [authReducer, Json.prop, lookup_spreadInto, lookup_nil]
  simp only [Reply.keepsToken] at hd
  cases hk : lookup d.ownFields "token" with
  | some t =>
    rw [hk] at hd
    simpa [truthyOpt] using hd
  | none =>
    simp only [hl]
    cases hp : auth.user.prop "token" with
    | none => rw [hp] at hold; simp [truthyOpt] at hold
    | some t => rw [hp] at hold; simpa using hold

theorem tokenInvariant_finishUpdate (auth : AuthState) (result : Env × Except JsError Json)
    (h : TokenInvariant auth)
    (hreply : ∀ env d, result = (env, .ok d) → Reply.keepsToken (.ok d) = true) :
    TokenInvariant (AuthProvider.finishUpdate auth result).1.auth := by
  obtain ⟨env, r⟩ := result
  cases r with
  | error e => exact h
  | ok d => exact tokenInvariant_update auth d h (hreply env d rfl)

theorem tokenInvariant_run (toUpperCase : String → String)
    (app : App) (op : Op) (h : TokenInvariant app.auth)
    (hop : op.tokenSafe = true) : TokenInvariant (op.run toUpperCase app).auth := by
  cases op with
  | mount => exact tokenInvariant_mountEffect app h
  | login email password role reply =>
    refine tokenInvariant_finishLogin app.auth _ h ?_
    intro env d hres
    have hr := (callService_ok_inv _ _ _ _ _ _ hres).2
    subst hr
    exact hop
  | register userData reply =>
    refine tokenInvariant_finishLogin app.auth _ h ?_
    intro env d hres
    unfold authService.register at hres
    cases hb : authService.registerBody toUpperCase userData with
    | error e => rw [hb] at hres; simp at hres
    | ok body =>
      rw [hb] at hres
      have hr := (callService_ok_inv _ _ _ _ _ _ hres).2
      subst hr
      exact hop
  | logout =>
    intro hi
    simp [Op.run, AuthProvider.logout, authReducer] at hi
  | updateProfile profileData reply =>
    refine tokenInvariant_finishUpdate app.auth _ h ?_
    intro env d hres
    have hr := (callService_ok_inv _ _ _ _ _ _ hres).2
    subst hr
    exact hop
  | updateStudentDetails studentDetails reply =>
    refine tokenInvariant_finishUpdate app.auth _ h ?_
    intro env d hres
    have hr := (callService_ok_inv _ _ _ _ _ _ hres).2
    subst hr
    exact hop
  | updateEventManagerDetails details reply =>
    refine tokenInvariant_finishUpdate app.auth _ h ?_
    intro env d hres
    have hr := (callService_ok_inv _ _ _ _ _ _ hres).2
    subst hr
    exact hop
  | refreshUser reply =>
    simp only [Op.run, AuthProvider.refreshUser]
    cases hg : authService.getProfile app.env reply with
    | mk env r =>
      cases r with
      | error e => exact h
      | ok d =>
        have hr := (callService_ok_inv _ _ _ _ _ _ hg).2
        subst hr
        simp only
        split
        · exact tokenInvariant_update app.auth d h hop
        · exact h
  | external env => exact h

theorem tokenInvariant_runAll (toUpperCase : String → String)
    (ops : List Op) (app : App) (h : TokenInvariant app.auth)
    (hops : ∀ op ∈ ops, op.tokenSafe = true) : TokenInvariant (runAll toUpperCase app ops).auth := by
  induction ops generalizing app with
  | nil => exact h
  | cons op rest ih =>
    simp only [runAll, List.foldl_cons]
    exact ih (op.run toUpperCase app)
      (tokenInvariant_run toUpperCase app op h (hops op (List.mem_cons_self op rest)))
      (fun o ho => hops o (List.mem_cons_of_mem op ho))

/-- C3, counterexample: from the initial state, a login answered successfully
without a token (`{user: {name: "S"}}`) ends authenticated with a user that has no
token; and an update answered `{token: ""}` blanks the token of an authenticated
user. -/
theorem authenticated_without_token :
    ((runAll asciiUpperCase ⟨⟨none, "/login"⟩, initialState⟩
        [.mount,
         .login "student@example.com" "password" (some "student")
           (.ok (.obj [("user", .obj [("name", .str "S")])]))]).auth.isAuthenticated = true ∧
     truthyOpt ((runAll asciiUpperCase ⟨⟨none, "/login"⟩, initialState⟩
        [.mount,
         .login "student@example.com" "password" (some "student")
           (.ok (.obj [("user", .obj [("name", .str "S")])]))]).auth.user.prop "token") = false) ∧
    ((runAll asciiUpperCase ⟨⟨none, "/login"⟩, initialState⟩
        [.mount,
         .login "student@example.com" "password" (some "student")
           (.ok (.obj [("user", .obj [("name", .str "S")]), ("token", .str "t1")])),
         .updateProfile (.obj [("name", .str "T")])
           (.ok (.obj [("name", .str "T"), ("token", .str "")]))]).auth.isAuthenticated = true ∧
     truthyOpt ((runAll asciiUpperCase ⟨⟨none, "/login"⟩, initialState⟩
        [.mount,
         .login "student@example.com" "password" (some "student")
           (.ok (.obj [("user", .obj [("name", .str "S")]), ("token", .str "t1")])),
         .updateProfile (.obj [("name", .str "T")])
           (.ok (.obj [("name", .str "T"), ("token", .str "")]))]).auth.user.prop "token")
       = false) := by
  decide

/-- C3, amended: in every state reached from the initial state through
`AuthProvider`'s operations (and any outside change of the storage), provided every
successful login or registration response carries a non-empty token and no
successful update or profile response carries an empty `token` member, whenever
`isAuthenticated` is true the in-memory user has a non-empty token. -/
theorem authenticated_has_token (toUpperCase : String → String) (env : Env) (ops : List Op)
    (hops : ∀ op ∈ ops, op.tokenSafe = true)
    (hauth : (runAll toUpperCase ⟨env, initialState⟩ ops).auth.isAuthenticated = true) :
    truthyOpt ((runAll toUpperCase ⟨env, initialState⟩ ops).auth.user.prop "token") = true :=
  tokenInvariant_runAll toUpperCase ops ⟨env, initialState⟩
    (fun h => by simp [initialState] at h) hops hauth

/-- C3, a run of the amended statement: restore, login with token `"t1"`, a profile
update that omits the token, a refresh. -/
theorem authenticated_has_token_witness :
    truthyOpt ((runAll asciiUpperCase ⟨⟨none, "/login"⟩, initialState⟩
        [.mount,
         .login "student@example.com" "password" (some "student")
           (.ok (.obj [("user", .obj [("name", .str "S")]), ("token", .str "t1")])),
         .updateProfile (.obj [("name", .str "T")]) (.ok (.obj [("name", .str "T")])),
         .refreshUser (.ok (.obj [("name", .str "T"), ("role", .str "STUDENT")]))]).auth.user.prop
        "token") = true :=
  authenticated_has_token asciiUpperCase ⟨none, "/login"⟩ _ (by decide) (by decide)

/-! ## Start-up restore (C4) -/

theorem isAuthenticated_iff_storesSession (storage : Option StoredText) :
    authService.isAuthenticated storage = true ↔ ∃ members, StoresSession storage members := by
  unfold StoresSession
  constructor
  · intro h
    cases storage with
    | none => simp [authService.isAuthenticated] at h
    | some text =>
      cases text with
      | empty => simp [authService.isAuthenticated] at h
      | malformed => simp [authService.isAuthenticated] at h
      | json v =>
        simp only [authService.isAuthenticated, Bool.and_eq_true] at h
        cases v with
        | obj members =>
          cases ht : lookup members "token" with
          | none => simp [Json.prop, ht, truthyOpt] at h
          | some token =>
            refine ⟨members, token, rfl, ht, ?_⟩
            simpa [Json.prop, ht, truthyOpt] using h.2
        | _ => simp [Json.prop, truthyOpt] at h
  · rintro ⟨members, token, hs, ht, htr⟩
    subst hs
    simp [authService.isAuthenticated, truthy_obj, Json.prop, ht, truthyOpt, htr]

/-- C4: for every content of the session storage key, after the mount effect run
from the initial state, `loading` is false; `isAuthenticated` is true exactly when
the stored text parses to a record with a non-empty token, and then `user` is that
record; otherwise the state is anonymous (`user = null`, `isAuthenticated = false`).
The environment is left as it was. -/
theorem mountEffect_restores_session (env : Env) :
    (AuthProvider.mountEffect ⟨env, initialState⟩).auth.loading = false ∧
    ((AuthProvider.mountEffect ⟨env, initialState⟩).auth.isAuthenticated = true ↔
      ∃ members, StoresSession env.storage members) ∧
    (∀ members, StoresSession env.storage members →
      (AuthProvider.mountEffect ⟨env, initialState⟩).auth = ⟨.obj members, true, false⟩) ∧
    ((¬ ∃ members, StoresSession env.storage members) →
      (AuthProvider.mountEffect ⟨env, initialState⟩).auth = ⟨.null, false, false⟩) ∧
    (AuthProvider.mountEffect ⟨env, initialState⟩).env = env := by
  have hyes : ∀ members, StoresSession env.storage members →
      (AuthProvider.mountEffect ⟨env, initialState⟩).auth = ⟨.obj members, true, false⟩ := by
    rintro members ⟨token, hs, ht, htr⟩
    simp [AuthProvider.mountEffect, hs, authService.getStoredUser, authService.isAuthenticated,
      truthy_obj, Json.prop, ht, truthyOpt, htr, authReducer, initialState]
  have hno : (¬ ∃ members, StoresSession env.storage members) →
      (AuthProvider.mountEffect ⟨env, initialState⟩).auth = ⟨.null, false, false⟩ := by
    intro hn
    have hf : authService.isAuthenticated env.storage = false := by
      cases h : authService.isAuthenticated env.storage with
      | false => rfl
      | true => exact absurd ((isAuthenticated_iff_storesSession _).1 h) hn
    simp [AuthProvider.mountEffect, hf, authReducer, initialState]
  refine ⟨?_, ?_, hyes, hno, ?_⟩
  · unfold AuthProvider.mountEffect
    simp only
    split <;> rfl
  · constructor
    · intro h
      by_contra hn
      rw [hno hn] at h
      simp at h
    · rintro ⟨members, hm⟩
      rw [hyes members hm]
  · unfold AuthProvider.mountEffect
    simp only
    split <;> rfl

/-! ## Response interceptor (C5) -/

/-- C5: for every failed response handed to the response interceptor, the
interceptor rejects with the same error; when the response status is `401` it
removes the persisted session and sets the location to `/login`, and for any other
status, or no response at all, storage and location are unchanged.  The
interceptor does not see which request produced the failure. -/
theorem responseErrorInterceptor_unauthorized (env : Env) (error : JsError) :
    (api.responseErrorInterceptor env error).2 = .error error ∧
    (api.responseErrorInterceptor env error).1 =
      (if error.status = some 401 then ⟨none, "/login"⟩ else env) ∧
    (api.responseErrorInterceptor env (.transport none)).1 = env ∧
    (∀ (config : RequestConfig) (response : Response) (c : RequestConfig),
      api.requestInterceptor env.storage config = .ok c →
      api.request env config (.fail (some response)) =
        ((if response.status = 401 then ⟨none, "/login"⟩ else env),
          .error (.transport (some response)))) := by
  refine ⟨responseErrorInterceptor_snd env error, ?_, rfl, ?_⟩
  · unfold api.responseErrorInterceptor
    split <;> rfl
  · intro config response c hc
    unfold api.request
    simp only [hc, api.responseErrorInterceptor, JsError.status, JsError.response, Option.map_some',
      Option.some.injEq]
    split <;> rfl

/-! ## Request interceptor (C6) -/

/-- C6, the code at the failing inputs: with a stored text that `JSON.parse`
rejects, or the stored text `null`, `authService.isAuthenticated()` is false, yet
the request interceptor does not return the request configuration: it throws. -/
theorem requestInterceptor_throws (config : RequestConfig) :
    authService.isAuthenticated (some .malformed) = false ∧
    api.requestInterceptor (some .malformed) config = .error .syntaxError ∧
    authService.isAuthenticated (some (.json .null)) = false ∧
    api.requestInterceptor (some (.json .null)) config = .error .typeError :=
  ⟨rfl, rfl, rfl, rfl⟩

/-- The part of C6 that holds: when the stored text is missing, empty, or parses to
a value other than `null`, the interceptor returns the configuration, with
`Authorization: Bearer <token>` set when `isAuthenticated()` holds and unchanged
otherwise. -/
theorem requestInterceptor_of_parsed (storage : Option StoredText) (config : RequestConfig)
    (h1 : storage ≠ some .malformed) (h2 : storage ≠ some (.json .null)) :
    api.requestInterceptor storage config =
      if authService.isAuthenticated storage then
        .ok { config with
              headers := (assign config.headers "Authorization"
                ("Bearer " ++ toJsStringOpt ((authService.getStoredUser storage).prop "token"))) }
      else .ok config := by
  cases storage with
  | none => rfl
  | some text =>
    cases text with
    | empty => rfl
    | malformed => exact absurd rfl h1
    | json v =>
      cases v with
      | null => exact absurd rfl h2
      | obj members =>
        simp only [api.requestInterceptor, authService.isAuthenticated, authService.getStoredUser,
          truthy_obj, Bool.true_and]
        cases (Json.obj members).prop "token" with
        | none => simp [truthyOpt]
        | some token =>
          simp only [truthyOpt, toJsStringOpt]
      | bool b => cases b <;> rfl
      | num n => simp [api.requestInterceptor, authService.isAuthenticated, Json.prop, truthyOpt]
      | str s => simp [api.requestInterceptor, authService.isAuthenticated, Json.prop, truthyOpt]
      | arr items =>
        simp [api.requestInterceptor, authService.isAuthenticated, Json.prop, truthyOpt]

/-! ## Upcoming and completed events (C7, C8) -/

/-- C7: for every filtered event whose text `date + 'T' + (time || '00:00')` parses
to an instant `t`, and every current instant `now` (the same for both filters), the
event is listed under Upcoming if and only if `now < t` and under Completed if and
only if `t ≤ now`; so it appears in exactly one of the two sections. -/
theorem event_in_exactly_one_section (parse : String → Option Int) (now t : Int)
    (filteredEvents : List Event) (event : Event)
    (hparse : parse (eventDateTimeString event) = some t) :
    (event ∈ upcomingEvents parse now filteredEvents ↔ event ∈ filteredEvents ∧ now < t) ∧
    (event ∈ completedEvents parse now filteredEvents ↔ event ∈ filteredEvents ∧ t ≤ now) ∧
    (event ∈ filteredEvents →
      (event ∈ upcomingEvents parse now filteredEvents ∧
        event ∉ completedEvents parse now filteredEvents) ∨
      (event ∉ upcomingEvents parse now filteredEvents ∧
        event ∈ completedEvents parse now filteredEvents)) := by
  have hu : event ∈ upcomingEvents parse now filteredEvents ↔
      event ∈ filteredEvents ∧ now < t := by
    simp [upcomingEvents, List.mem_filter, hparse, dateAfter]
  have hc : event ∈ completedEvents parse now filteredEvents ↔
      event ∈ filteredEvents ∧ t ≤ now := by
    simp [completedEvents, List.mem_filter, hparse, dateNotAfter]
  refine ⟨hu, hc, ?_⟩
  intro hmem
  rw [hu, hc]
  by_cases h : now < t
  · exact Or.inl ⟨⟨hmem, h⟩, fun hx => absurd hx.2 (not_le.mpr h)⟩
  · exact Or.inr ⟨fun hx => h hx.2, ⟨hmem, not_lt.mp h⟩⟩

/-- C7 at an event on 1 January 2030, 10:00, seen one millisecond earlier. -/
theorem event_in_exactly_one_section_witness :
    ([("date", Json.str "2030-01-01"), ("time", Json.str "10:00")] ∈
        upcomingEvents sampleParse 1893491999999
          [[("date", Json.str "2030-01-01"), ("time", Json.str "10:00")]] ↔
      [("date", Json.str "2030-01-01"), ("time", Json.str "10:00")] ∈
        [[("date", Json.str "2030-01-01"), ("time", Json.str "10:00")]] ∧
      (1893491999999 : Int) < 1893492000000) ∧
    ([("date", Json.str "2030-01-01"), ("time", Json.str "10:00")] ∈
        completedEvents sampleParse 1893491999999
          [[("date", Json.str "2030-01-01"), ("time", Json.str "10:00")]] ↔
      [("date", Json.str "2030-01-01"), ("time", Json.str "10:00")] ∈
        [[("date", Json.str "2030-01-01"), ("time", Json.str "10:00")]] ∧
      (1893492000000 : Int) ≤ 1893491999999) ∧
    ([("date", Json.str "2030-01-01"), ("time", Json.str "10:00")] ∈
        [[("date", Json.str "2030-01-01"), ("time", Json.str "10:00")]] →
      ([("date", Json.str "2030-01-01"), ("time", Json.str "10:00")] ∈
          upcomingEvents sampleParse 1893491999999
            [[("date", Json.str "2030-01-01"), ("time", Json.str "10:00")]] ∧
        [("date", Json.str "2030-01-01"), ("time", Json.str "10:00")] ∉
          completedEvents sampleParse 1893491999999
            [[("date", Json.str "2030-01-01"), ("time", Json.str "10:00")]]) ∨
      ([("date", Json.str "2030-01-01"), ("time", Json.str "10:00")] ∉
          upcomingEvents sampleParse 1893491999999
            [[("date", Json.str "2030-01-01"), ("time", Json.str "10:00")]] ∧
        [("date", Json.str "2030-01-01"), ("time", Json.str "10:00")] ∈
          completedEvents sampleParse 1893491999999
            [[("date", Json.str "2030-01-01"), ("time", Json.str "10:00")]])) :=
  event_in_exactly_one_section sampleParse 1893491999999 1893492000000
    [[("date", .str "2030-01-01"), ("time", .str "10:00")]]
    [("date", .str "2030-01-01"), ("time", .str "10:00")] (by decide)

/-- C8, the code where the date-time text does not parse: the event is listed
neither under Upcoming nor under Completed, at any instant. -/
theorem unparseable_event_in_no_section (parse : String → Option Int) (now : Int)
    (filteredEvents : List Event) (event : Event)
    (hparse : parse (eventDateTimeString event) = none) :
    event ∉ upcomingEvents parse now filteredEvents ∧
    event ∉ completedEvents parse now filteredEvents := by
  constructor
  · simp [upcomingEvents, List.mem_filter, hparse, dateAfter]
  · simp [completedEvents, List.mem_filter, hparse, dateNotAfter]

/-- C8 at the failing input: an event dated `"TBD"` at `"10:00"`, which is in the
filtered list and in neither section. -/
theorem unparseable_event_in_no_section_witness :
    [("title", Json.str "Hackathon"), ("date", Json.str "TBD"), ("time", Json.str "10:00")] ∉
      upcomingEvents sampleParse 0
        [[("title", Json.str "Hackathon"), ("date", Json.str "TBD"),
          ("time", Json.str "10:00")]] ∧
    [("title", Json.str "Hackathon"), ("date", Json.str "TBD"), ("time", Json.str "10:00")] ∉
      completedEvents sampleParse 0
        [[("title", Json.str "Hackathon"), ("date", Json.str "TBD"),
          ("time", Json.str "10:00")]] :=
  unparseable_event_in_no_section sampleParse 0
    [[("title", .str "Hackathon"), ("date", .str "TBD"), ("time", .str "10:00")]]
    [("title", .str "Hackathon"), ("date", .str "TBD"), ("time", .str "10:00")] (by decide)

/-! ## Route gating -/

/-- The guard `roles && user && !roles.includes(user.role)` on a state
`{user: null, isAuthenticated: true, loading: false}`: the role test is skipped.
No operation of `AuthProvider` reaches such a state (`userPresent_run`). -/
theorem protectedRoute_skips_roles_without_user :
    ProtectedRoute ⟨.null, true, false⟩ (some ["ADMIN"]) .AdminDashboard
      = .children .AdminDashboard ∧
    AppContent sampleMatchPath ⟨.null, true, false⟩ "/admin-dashboard"
      = .children .AdminDashboard ∧
    rolesInclude ["ADMIN"] ((Json.null).prop "role") = false := by
  decide

theorem rolesInclude_single (name : String) (v : Option Json) :
    rolesInclude [name] v = true ↔ v = some (.str name) := by
  cases v with
  | none => simp [rolesInclude]
  | some j =>
    cases j <;> simp [rolesInclude]

/-- What `ProtectedRoute` renders in a state that is not loading and has a user
whenever it is authenticated. -/
theorem protectedRoute_of_userPresent (auth : AuthState) (roles : Option (List String))
    (page : Page) (hloading : auth.loading = false) (huser : UserPresent auth) :
    ProtectedRoute auth roles page =
      (if auth.isAuthenticated = false then .navigate "/login"
       else match roles with
        | some allowed =>
          if rolesInclude allowed (auth.user.prop "role") then .children page
          else .navigate "/events"
        | none => .children page) := by
  unfold ProtectedRoute
  cases hi : auth.isAuthenticated with
  | false => simp [hloading]
  | true =>
    have ht := huser hi
    cases roles with
    | none => simp [hloading]
    | some allowed =>
      cases hr : rolesInclude allowed (auth.user.prop "role") <;> simp [hloading, ht, hr]

/-- A route element with a single allowed role renders its children exactly for
an authenticated user of that role. -/
theorem protectedRoute_single_role (auth : AuthState) (name : String) (page : Page)
    (hloading : auth.loading = false) (huser : UserPresent auth) :
    ProtectedRoute auth (some [name]) page = .children page ↔
      auth.isAuthenticated = true ∧ auth.user.prop "role" = some (.str name) := by
  rw [protectedRoute_of_userPresent auth _ page hloading huser]
  cases hi : auth.isAuthenticated with
  | false => simp
  | true =>
    cases hr : rolesInclude [name] (auth.user.prop "role") with
    | false =>
      have : ¬ auth.user.prop "role" = some (.str name) := by
        intro h
        rw [(rolesInclude_single _ _).2 h] at hr
        exact Bool.noConfusion hr
      simp [this, hr]
    | true =>
      have hrole := (rolesInclude_single _ _).1 hr
      simp only [hr, if_true, Bool.true_eq_false, if_false, true_and, true_iff]
      exact hrole

/-- The pages a `ProtectedRoute` or `PublicRoute` element can render are its own
children. -/
theorem protectedRoute_children_eq (auth : AuthState) (roles : Option (List String))
    (page other : Page) (h : ProtectedRoute auth roles page = .children other) :
    other = page := by
  unfold ProtectedRoute at h
  split at h
  · exact absurd h (by simp)
  · split at h
    · exact absurd h (by simp)
    · split at h
      · split at h
        · exact absurd h (by simp)
        · simp only [Rendered.children.injEq] at h
          exact h.symm
      · simp only [Rendered.children.injEq] at h
        exact h.symm

theorem publicRoute_children_eq (auth : AuthState) (page other : Page)
    (h : PublicRoute auth page = .children other) : other = page := by
  unfold PublicRoute at h
  split at h
  · exact absurd h (by simp)
  · split at h
    · exact absurd h (by simp)
    · simp only [Rendered.children.injEq] at h
      exact h.symm

/-- Whatever the router's matcher, `AppContent` renders a page only through the
route element of that page. -/
theorem appContent_children (matchPath : String → String → Bool) (auth : AuthState)
    (pathname : String) (page : Page)
    (h : AppContent matchPath auth pathname = .children page) :
    (page = .AdminDashboard →
      ProtectedRoute auth (some ["ADMIN"]) .AdminDashboard = .children .AdminDashboard) ∧
    (page = .StudentDashboard →
      ProtectedRoute auth (some ["STUDENT"]) .StudentDashboard
        = .children .StudentDashboard) := by
  unfold AppContent at h
  split at h
  · have := publicRoute_children_eq _ _ _ h
    subst this
    exact ⟨fun hp => absurd hp (by decide), fun hp => absurd hp (by decide)⟩
  · split at h
    · have := publicRoute_children_eq _ _ _ h
      subst this
      exact ⟨fun hp => absurd hp (by decide), fun hp => absurd hp (by decide)⟩
    · split at h
      · have := protectedRoute_children_eq _ _ _ _ h
        subst this
        exact ⟨fun hp => absurd hp (by decide), fun hp => absurd hp (by decide)⟩
      · split at h
        · have := protectedRoute_children_eq _ _ _ _ h
          subst this
          exact ⟨fun _ => h, fun hp => absurd hp (by decide)⟩
        · split at h
          · have := protectedRoute_children_eq _ _ _ _ h
            subst this
            exact ⟨fun hp => absurd hp (by decide), fun _ => h⟩
          · split at h
            · have := protectedRoute_children_eq _ _ _ _ h
              subst this
              exact ⟨fun hp => absurd hp (by decide), fun hp => absurd hp (by decide)⟩
            · split at h
              · have := protectedRoute_children_eq _ _ _ _ h
                subst this
                exact ⟨fun hp => absurd hp (by decide), fun hp => absurd hp (by decide)⟩
              · exact absurd h (by simp)

/-! ## Error messages of the services (C10) -/

/-- The part of C10 that holds: an operation whose catch clause tests the response
body (every operation of the three services but `getProfile` and
`getEventManagerDetails`), on a request that the gateway sent and the server
failed, throws the body (converted to a string) when the body is truthy and its
fallback message otherwise. -/
theorem callService_rethrowWithBody_fail (fallback : String) (env : Env)
    (config c : RequestConfig) (response : Option Response)
    (hsent : api.requestInterceptor env.storage config = .ok c) :
    (callService (rethrowWithBody fallback) env config (.fail response)).2 =
      .error (.error (match response with
        | some r => if r.data.truthy then r.data.toJsString else fallback
        | none => fallback)) := by
  unfold callService api.request
  simp only [hsent]
  rw [responseErrorInterceptor_eq]
  cases response with
  | none => rfl
  | some r =>
    simp only [rethrowWithBody, JsError.data, JsError.response, Option.map_some']
    split <;> rfl

/-- C10, the code at the failing input: when the profile request fails with the
body `"Profile service unavailable"`, `getProfile` throws its fixed message and
not the body, and so does `getEventManagerDetails`; `getStudentDetails`, on the
same failure, throws the body. -/
theorem getProfile_ignores_response_body :
    (authService.getProfile ⟨none, "/"⟩
        (.fail (some ⟨500, .str "Profile service unavailable"⟩))).2
      = .error (.error "Failed to fetch user profile") ∧
    (authService.getEventManagerDetails ⟨none, "/"⟩
        (.fail (some ⟨500, .str "Profile service unavailable"⟩))).2
      = .error (.error "Failed to fetch event manager details") ∧
    (authService.getStudentDetails ⟨none, "/"⟩
        (.fail (some ⟨500, .str "Profile service unavailable"⟩))).2
      = .error (.error "Profile service unavailable") :=
  ⟨rfl, rfl, rfl⟩

/-! ## Filtering of the events list (C11) -/

theorem filterE_eq_filter {α : Type} (p : α → Except JsError Bool) (q : α → Bool)
    (l : List α) (h : ∀ x ∈ l, p x = .ok (q x)) : filterE p l = .ok (l.filter q) := by
  induction l with
  | nil => rfl
  | cons x xs ih =>
    have hx := h x (List.mem_cons_self x xs)
    have hxs := ih (fun y hy => h y (List.mem_cons_of_mem x hy))
    simp only [filterE, hx, hxs, List.filter_cons]

theorem filterE_error {α : Type} (p : α → Except JsError Bool) (e : JsError) (l : List α)
    (hsome : ∃ x ∈ l, p x = .error e)
    (hall : ∀ x ∈ l, ∀ e', p x = .error e' → e' = e) : filterE p l = .error e := by
  induction l with
  | nil =>
    obtain ⟨x, hx, _⟩ := hsome
    simp at hx
  | cons x xs ih =>
    cases hp : p x with
    | error e' =>
      have := hall x (List.mem_cons_self x xs) e' hp
      subst this
      simp only [filterE, hp]
    | ok keep =>
      have hsome' : ∃ y ∈ xs, p y = .error e := by
        obtain ⟨y, hy, hpy⟩ := hsome
        rcases List.mem_cons.1 hy with rfl | hy'
        · rw [hp] at hpy
          exact absurd hpy (by simp)
        · exact ⟨y, hy', hpy⟩
      have hrest := ih hsome' (fun y hy => hall y (List.mem_cons_of_mem x hy))
      simp only [filterE, hp, hrest]

/-- Method `includes` is containment as a contiguous run. -/
theorem includes_iff_infix (text term : String) :
    includes text term = true ↔ term.toList <:+: text.toList := by
  unfold includes
  rw [List.any_eq_true, List.infix_iff_prefix_suffix]
  constructor
  · rintro ⟨rest, hrest, hprefix⟩
    exact ⟨rest, List.isPrefixOf_iff_prefix.1 hprefix, (List.mem_tails _ _).1 hrest⟩
  · rintro ⟨rest, hprefix, hsuffix⟩
    exact ⟨rest, (List.mem_tails _ _).2 hsuffix, List.isPrefixOf_iff_prefix.2 hprefix⟩

/-- A text contains a term ignoring case when the lower-cased term is a contiguous
run of the lower-cased text. -/
theorem containsIgnoringCase_iff (toLowerCase : String → String) (text term : String) :
    containsIgnoringCase toLowerCase text term = true ↔
      (toLowerCase term).toList <:+: (toLowerCase text).toList :=
  includes_iff_infix _ _

/-- What the search callback does with an event: it answers when every member it
reads is a string, and throws a `TypeError` otherwise. -/
theorem matchesSearch_eq (toLowerCase : String → String) (searchTerm : String)
    (event : Event) :
    matchesSearch toLowerCase searchTerm event =
      if searchReadsText toLowerCase searchTerm event then
        .ok (memberContains toLowerCase (lookup event "title") searchTerm ||
          memberContains toLowerCase (lookup event "description") searchTerm ||
          memberContains toLowerCase (lookup event "department") searchTerm)
      else .error .typeError := by
  cases h1 : lookup event "title" with
  | none => simp [matchesSearch, fieldIncludes, searchReadsText, h1]
  | some t =>
    cases t <;>
      first
      | (simp [matchesSearch, fieldIncludes, searchReadsText, h1]; done)
      | skip
    rename_i title
    cases hc1 : includes (toLowerCase title) (toLowerCase searchTerm) with
    | true =>
      simp [matchesSearch, fieldIncludes, searchReadsText, memberContains,
        containsIgnoringCase, h1, hc1]
    | false =>
      cases h2 : lookup event "description" with
      | none =>
        simp [matchesSearch, fieldIncludes, searchReadsText, containsIgnoringCase, h1, hc1, h2]
      | some d =>
        cases d <;>
          first
          | (simp [matchesSearch, fieldIncludes, searchReadsText, containsIgnoringCase, h1,
              hc1, h2]; done)
          | skip
        rename_i description
        cases hc2 : includes (toLowerCase description) (toLowerCase searchTerm) with
        | true =>
          simp [matchesSearch, fieldIncludes, searchReadsText, memberContains,
            containsIgnoringCase, h1, hc1, h2, hc2]
        | false =>
          cases h3 : lookup event "department" with
          | none =>
            simp [matchesSearch, fieldIncludes, searchReadsText, containsIgnoringCase, h1, hc1,
              h2, hc2, h3, isText]
          | some p =>
            cases p <;>
              simp [matchesSearch, fieldIncludes, searchReadsText, memberContains,
                containsIgnoringCase, h1, hc1, h2, hc2, h3, isText]

theorem strictEq_department (member : Option Json) (selectedDepartment : String) :
    strictEq member (some (.str selectedDepartment)) = memberIs member selectedDepartment := by
  cases member with
  | none => rfl
  | some j =>
    cases j <;> rfl

theorem searchReadsText_of_hasTextFields (toLowerCase : String → String) (searchTerm : String)
    (event : Event) (h : hasTextFields event = true) :
    searchReadsText toLowerCase searchTerm event = true := by
  unfold hasTextFields at h
  simp only [Bool.and_eq_true] at h
  obtain ⟨⟨ht, hd⟩, hp⟩ := h
  unfold searchReadsText
  cases h1 : lookup event "title" with
  | none => rw [h1] at ht; simp [isText] at ht
  | some t =>
    cases t <;> first | (rw [h1] at ht; simp [isText] at ht; done) | skip
    cases h2 : lookup event "description" with
    | none => rw [h2] at hd; simp [isText] at hd
    | some d =>
      cases d <;> first | (rw [h2] at hd; simp [isText] at hd; done) | skip
      simp [hp]

/-- C11: for every list of events, search term and selected department,
`filterEvents` yields the events whose department is the selected one (every event
under `All Departments`) and, when the search term is non-empty, whose title,
description or department contains the term ignoring case; the result is a
sub-sequence of the list in the original order, and with an empty term and `All
Departments` it is the list itself.  The case mapping is the platform's
`toLowerCase`; a non-empty term needs the members the search reads to be
strings. -/
theorem filterEvents_selects (toLowerCase : String → String) (events : List Event)
    (searchTerm selectedDepartment : String)
    (h : searchTerm ≠ "" →
      ∀ event ∈ events, searchReadsText toLowerCase searchTerm event = true) :
    filterEvents toLowerCase events searchTerm selectedDepartment =
      .ok (events.filter (selectedBy toLowerCase searchTerm selectedDepartment)) ∧
    (events.filter (selectedBy toLowerCase searchTerm selectedDepartment)).Sublist events ∧
    (searchTerm = "" → selectedDepartment = "All Departments" →
      filterEvents toLowerCase events searchTerm selectedDepartment = .ok events) := by
  have main : filterEvents toLowerCase events searchTerm selectedDepartment =
      .ok (events.filter (selectedBy toLowerCase searchTerm selectedDepartment)) := by
    unfold filterEvents
    by_cases hs : searchTerm = ""
    · simp only [hs, ne_eq, not_true_eq_false, if_false]
      by_cases hd : selectedDepartment = "All Departments"
      · simp only [hd, not_true_eq_false, if_false]
        congr 1
        symm
        rw [List.filter_eq_self]
        intro e _
        simp [selectedBy]
      · simp only [hd, not_false_eq_true, if_true]
        congr 1
        apply List.filter_congr
        intro e _
        simp [selectedBy, hd, strictEq_department]
    · have hf := filterE_eq_filter (matchesSearch toLowerCase searchTerm)
        (fun e => memberContains toLowerCase (lookup e "title") searchTerm ||
          memberContains toLowerCase (lookup e "description") searchTerm ||
          memberContains toLowerCase (lookup e "department") searchTerm) events
        (fun e he => by rw [matchesSearch_eq, h hs e he]; rfl)
      simp only [ne_eq, hs, not_false_eq_true, if_true, hf]
      by_cases hd : selectedDepartment = "All Departments"
      · simp only [hd, not_true_eq_false, if_false]
        congr 1
        apply List.filter_congr
        intro e _
        simp [selectedBy, hs]
      · simp only [hd, not_false_eq_true, if_true, List.filter_filter]
        congr 1
        apply List.filter_congr
        intro e _
        simp [selectedBy, hs, hd, strictEq_department]
  refine ⟨main, List.filter_sublist _, ?_⟩
  intro hs hd
  rw [main]
  congr 1
  rw [List.filter_eq_self]
  intro e _
  simp [selectedBy, hs, hd]

/-- C11, the scenario of the specification: departments `CS`, `CS`, `Eng`, filtered
by `CS`; and a search for `école`, which keeps the event titled `École ouverte`
under a case mapping that knows `É`. -/
theorem filterEvents_selects_witness :
    filterEvents sampleLowerCase
        [[("title", .str "Hack night"), ("description", .str "Code"), ("department", .str "CS")],
         [("title", .str "AI talk"), ("description", .str "Talk"), ("department", .str "CS")],
         [("title", .str "Bridge"), ("description", .str "Build"), ("department", .str "Eng")]]
        "" "CS"
      = .ok
        [[("title", .str "Hack night"), ("description", .str "Code"), ("department", .str "CS")],
         [("title", .str "AI talk"), ("description", .str "Talk"), ("department", .str "CS")]] ∧
    filterEvents sampleLowerCase
        [[("title", .str "École ouverte"), ("description", .str "Visite"),
          ("department", .str "CS")],
         [("title", .str "Bridge"), ("description", .str "Build"), ("department", .str "Eng")]]
        "école" "All Departments"
      = .ok
        [[("title", .str "École ouverte"), ("description", .str "Visite"),
          ("department", .str "CS")]] :=
  ⟨(filterEvents_selects sampleLowerCase
      [[("title", .str "Hack night"), ("description", .str "Code"), ("department", .str "CS")],
       [("title", .str "AI talk"), ("description", .str "Talk"), ("department", .str "CS")],
       [("title", .str "Bridge"), ("description", .str "Build"), ("department", .str "Eng")]]
      "" "CS" (fun hne => absurd rfl hne)).1.trans rfl,
   (filterEvents_selects sampleLowerCase
      [[("title", .str "École ouverte"), ("description", .str "Visite"),
        ("department", .str "CS")],
       [("title", .str "Bridge"), ("description", .str "Build"), ("department", .str "Eng")]]
      "école" "All Departments" (fun _ => by decide)).1.trans rfl⟩

/-- Outside the hypothesis of C11: with a non-empty term, an event of which the
search reads a member that is not a string makes `filterEvents` throw a
`TypeError`. -/
theorem filterEvents_throws (toLowerCase : String → String) (events : List Event)
    (searchTerm selectedDepartment : String) (hterm : searchTerm ≠ "")
    (h : ∃ event ∈ events, searchReadsText toLowerCase searchTerm event = false) :
    filterEvents toLowerCase events searchTerm selectedDepartment = .error .typeError := by
  have hf : filterE (matchesSearch toLowerCase searchTerm) events = .error .typeError := by
    apply filterE_error
    · obtain ⟨e, he, hr⟩ := h
      exact ⟨e, he, by rw [matchesSearch_eq, hr]; rfl⟩
    · intro e _ e' he'
      rw [matchesSearch_eq] at he'
      by_cases hr : searchReadsText toLowerCase searchTerm e = true
      · rw [hr] at he'
        simp at he'
      · simp only [hr] at he'
        simp only [Bool.false_eq_true, if_false, Except.error.injEq] at he'
        exact he'.symm
  unfold filterEvents
  simp only [ne_eq, hterm, not_false_eq_true, if_true, hf]

/-! ## Optimistic unregister (C12) -/

theorem lookup_spreadInto_nil (members : List (String × Json)) (k : String) :
    lookup (spreadInto [] members) k = lookup members k := by
  rw [lookup_spreadInto]
  cases lookup members k <;> rfl

theorem setHas_setDelete (s : List (Option Json)) (x : Option Json) :
    setHas (setDelete s x) x = false := by
  unfold setHas setDelete
  induction s with
  | nil => rfl
  | cons y rest ih =>
    cases hy : strictEq y x <;> simp_all [List.filter_cons]

theorem unregisterPatch_map (eventId : Json) (events : List Event) :
    List.Forall₂ (UnregisterPatch eventId) events
      (events.map (fun event =>
        if strictEq (lookup event "id") (some eventId) then
          assignOpt (spreadInto [] event) "currentParticipants"
            (minusOneClamped (lookup event "currentParticipants"))
        else event)) := by
  induction events with
  | nil => exact List.Forall₂.nil
  | cons event rest ih =>
    refine List.Forall₂.cons ?_ ih
    unfold UnregisterPatch
    by_cases hid : strictEq (lookup event "id") (some eventId) = true
    · simp only [hid, if_true]
      refine ⟨fun _ => ⟨?_, ?_⟩, fun h => ?_⟩
      · intro c hc
        simp [lookup_assignOpt, hc, minusOneClamped, toNumber]
      · intro k hk
        simp [lookup_assignOpt, hk, lookup_spreadInto_nil]
      · exact absurd h (by simp)
    · have hf : strictEq (lookup event "id") (some eventId) = false := by simpa using hid
      simp only [hf, Bool.false_eq_true, if_false]
      simp

/-- C12: for every events list and event identifier, after a successful unregister
call the local list has the same length and order; an event with that identifier
has `currentParticipants = max 0 (c - 1)`, `c` being its previous count, and every
other member unchanged; every other event is unchanged; and the identifier is no
longer in the registered set. -/
theorem handleUnregister_success (page : EventsPage) (env env' : Env) (eventId data : Json)
    (reply : Reply)
    (hcall : eventService.unregisterFromEvent env eventId reply = (env', .ok data)) :
    List.Forall₂ (UnregisterPatch eventId) page.events
      (handleUnregister page env eventId reply).page.events ∧
    (handleUnregister page env eventId reply).page.events.length = page.events.length ∧
    setHas (handleUnregister page env eventId reply).page.registeredEvents (some eventId)
      = false := by
  have hevents : (handleUnregister page env eventId reply).page.events =
      page.events.map (fun event =>
        if strictEq (lookup event "id") (some eventId) then
          assignOpt (spreadInto [] event) "currentParticipants"
            (minusOneClamped (lookup event "currentParticipants"))
        else event) := by
    simp only [handleUnregister, hcall]
  have hset : (handleUnregister page env eventId reply).page.registeredEvents =
      setDelete page.registeredEvents (some eventId) := by
    simp only [handleUnregister, hcall]
  rw [hevents, hset]
  exact ⟨unregisterPatch_map eventId page.events, List.length_map _ _,
    setHas_setDelete _ _⟩

/-- C12, the scenario of the specification: counts 5 and 0 under a successful
unregister call for event 7; event 8 is another event. -/
theorem handleUnregister_success_witness :
    List.Forall₂ (UnregisterPatch (.num 7))
      [[("id", .num 7), ("currentParticipants", .num 5)],
       [("id", .num 8), ("currentParticipants", .num 3)]]
      (handleUnregister
        ⟨[[("id", .num 7), ("currentParticipants", .num 5)],
          [("id", .num 8), ("currentParticipants", .num 3)]], [some (.num 7)], []⟩
        ⟨none, "/events"⟩ (.num 7) (.ok (.str "Unregistered"))).page.events ∧
    (handleUnregister
        ⟨[[("id", .num 7), ("currentParticipants", .num 5)],
          [("id", .num 8), ("currentParticipants", .num 3)]], [some (.num 7)], []⟩
        ⟨none, "/events"⟩ (.num 7) (.ok (.str "Unregistered"))).page.events.length = 2 ∧
    setHas (handleUnregister
        ⟨[[("id", .num 7), ("currentParticipants", .num 5)],
          [("id", .num 8), ("currentParticipants", .num 3)]], [some (.num 7)], []⟩
        ⟨none, "/events"⟩ (.num 7) (.ok (.str "Unregistered"))).page.registeredEvents
        (some (.num 7)) = false :=
  handleUnregister_success
    ⟨[[("id", .num 7), ("currentParticipants", .num 5)],
      [("id", .num 8), ("currentParticipants", .num 3)]], [some (.num 7)], []⟩
    ⟨none, "/events"⟩ ⟨none, "/events"⟩ (.num 7) (.str "Unregistered")
    (.ok (.str "Unregistered")) rfl

/-- The counts of the scenario, spelled out: 5 becomes 4, and 0 stays 0. -/
theorem handleUnregister_counts :
    (handleUnregister
        ⟨[[("id", .num 7), ("currentParticipants", .num 5)],
          [("id", .num 8), ("currentParticipants", .num 3)]], [some (.num 7)], []⟩
        ⟨none, "/events"⟩ (.num 7) (.ok (.str "Unregistered"))).page.events
      = [[("id", .num 7), ("currentParticipants", .num 4)],
         [("id", .num 8), ("currentParticipants", .num 3)]] ∧
    (handleUnregister
        ⟨[[("id", .num 7), ("currentParticipants", .num 0)]], [], []⟩
        ⟨none, "/events"⟩ (.num 7) (.ok (.str "Unregistered"))).page.events
      = [[("id", .num 7), ("currentParticipants", .num 0)]] :=
  ⟨rfl, rfl⟩

/-! ## Registered set (C13) -/

theorem strictEq_eq (a b : Option Json) (h : strictEq a b = true) : a = b := by
  cases a with
  | none => cases b with
    | none => rfl
    | some y => cases y <;> simp [strictEq] at h
  | some x =>
    cases b with
    | none => cases x <;> simp [strictEq] at h
    | some y =>
      cases x <;> cases y <;> simp [strictEq] at h <;> simp [h]

theorem setHas_setAdd (s : List (Option Json)) (x y : Option Json) :
    setHas (setAdd s x) y = (setHas s y || strictEq x y) := by
  unfold setAdd
  by_cases hx : setHas s x = true
  · simp only [hx, if_true]
    cases hxy : strictEq x y with
    | false => simp
    | true =>
      have := strictEq_eq x y hxy
      subst this
      simp [hx]
  · simp only [hx, Bool.false_eq_true, if_false]
    simp [setHas, List.any_append]

theorem setHas_foldl_setAdd (values s : List (Option Json)) (y : Option Json) :
    setHas (values.foldl setAdd s) y = (setHas s y || values.any (fun x => strictEq x y)) := by
  induction values generalizing s with
  | nil => simp
  | cons x rest ih =>
    simp only [List.foldl_cons, ih, setHas_setAdd, List.any_cons, Bool.or_assoc]

/-- Membership in a set built with `new Set(values)`. -/
theorem setHas_setOf (values : List (Option Json)) (y : Option Json) :
    setHas (setOf values) y = values.any (fun x => strictEq x y) := by
  unfold setOf
  rw [setHas_foldl_setAdd]
  simp [setHas]

/-- C13, the code at the failing input: the registered-events query answers with
the event of numeric identifier 5; after `fetchRegisteredEvents` the set holds the
string `"5"`, and the lookup for the event with identifier 5 is false.  The set
built by `handleRegister` for the same event holds the number and the lookup is
true. -/
theorem fetched_numeric_id_not_registered :
    (fetchRegisteredEvents ⟨[[("id", .num 5), ("title", .str "Hack night")]], [], []⟩
        ⟨none, "/events"⟩
        (.ok (.arr [.obj [("id", .num 5), ("title", .str "Hack night")]]))).page.registeredEvents
      = [some (.str "5")] ∧
    registeredProp
        (fetchRegisteredEvents ⟨[[("id", .num 5), ("title", .str "Hack night")]], [], []⟩
          ⟨none, "/events"⟩
          (.ok (.arr [.obj [("id", .num 5), ("title", .str "Hack night")]]))).page
        [("id", .num 5), ("title", .str "Hack night")] = false ∧
    registeredProp
        (handleRegister ⟨[[("id", .num 5), ("title", .str "Hack night")]], [], []⟩
          ⟨none, "/events"⟩ (.num 5) (.ok (.str "Registered"))).page
        [("id", .num 5), ("title", .str "Hack night")] = true :=
  ⟨rfl, rfl, rfl⟩

/-- The part of C13 that holds: when the request is sent and every event of the
query result has a string identifier, the lookup for an event with a string
identifier is true exactly when that identifier is one of the result's. -/
theorem fetched_string_ids_registered (page : EventsPage) (env : Env) (ids : List String)
    (event : Event) (id : String) (c : RequestConfig)
    (hid : lookup event "id" = some (.str id))
    (hsent : api.requestInterceptor env.storage
      (api.config "get" API_CONFIG.ROUTES.EVENTS.REGISTERED none) = .ok c) :
    registeredProp
        (fetchRegisteredEvents page env
          (.ok (.arr (ids.map (fun i => Json.obj [("id", .str i)]))))).page event
      = decide (id ∈ ids) := by
  have hmap : ∀ l : List String,
      (l.map (fun i => Json.obj [("id", .str i)])).mapM idString
        = .ok (l.map (fun i => some (Json.str i))) := by
    intro l
    induction l with
    | nil => rfl
    | cons i rest ih =>
      simp only [List.map_cons, List.mapM_cons, ih]
      rfl
  have hs : ∀ i : String, strictEq (some (Json.str i)) (some (.str id)) = decide (i = id) := by
    intro i
    simp only [strictEq]
    by_cases h : i = id <;> simp [h]
  have hany : ∀ l : List String,
      (l.map (fun i => some (Json.str i))).any (fun x => strictEq x (some (.str id)))
        = decide (id ∈ l) := by
    intro l
    induction l with
    | nil => simp
    | cons i rest ih =>
      simp only [List.map_cons, List.any_cons, ih, hs, List.mem_cons]
      by_cases h : i = id
      · simp [h]
      · have h' : ¬ id = i := fun e => h e.symm
        simp [h, h']
  unfold registeredProp fetchRegisteredEvents eventService.getRegisteredEvents callService
    api.request
  simp only [hsent, registeredIdStrings, hmap, hid, setHas_setOf, hany]

/-! ## Rounding to binary64 -/

theorem roundTiesToEven_eq (x : ℚ) (k : Int) (h : |x - k| < 1 / 2) : roundTiesToEven x = k := by
  rw [abs_lt] at h
  obtain ⟨h1, h2⟩ := h
  unfold roundTiesToEven
  by_cases hk : (k : ℚ) ≤ x
  · have hf : ⌊x⌋ = k := by
      rw [Int.floor_eq_iff]
      constructor <;> linarith
    rw [hf, if_pos (by linarith)]
  · have hf : ⌊x⌋ = k - 1 := by
      rw [Int.floor_eq_iff]
      push_cast
      constructor <;> linarith
    rw [hf]
    push_cast
    rw [if_neg (by linarith), if_pos (by linarith)]
    ring

theorem roundTiesToEven_error (x : ℚ) : |(roundTiesToEven x : ℚ) - x| ≤ 1 / 2 := by
  have h1 := Int.floor_le x
  have h2 := Int.lt_floor_add_one x
  unfold roundTiesToEven
  rw [abs_le]
  split_ifs with ha hb hc
  · constructor <;> linarith
  · push_cast
    constructor <;> linarith
  · constructor <;> linarith
  · push_cast
    constructor <;> linarith

theorem log_two_eq (q : ℚ) (e : Int) (hq : 0 < q) (h1 : (2 : ℚ) ^ e ≤ q)
    (h2 : q < (2 : ℚ) ^ (e + 1)) : Int.log 2 q = e := by
  have ha : e ≤ Int.log 2 q := by
    rw [← Int.zpow_le_iff_le_log (by norm_num) hq]
    exact_mod_cast h1
  have hb : Int.log 2 q < e + 1 := by
    rw [← Int.lt_zpow_iff_log_lt (by norm_num) hq]
    exact_mod_cast h2
  omega

theorem nearestBinary64_eq (q : ℚ) (e k : Int) (hq : 0 < q) (h1 : (2 : ℚ) ^ e ≤ q)
    (h2 : q < (2 : ℚ) ^ (e + 1)) (he : -1022 ≤ e)
    (hk : |q / 2 ^ (e - 52) - k| < 1 / 2) :
    nearestBinary64 q = k * 2 ^ (e - 52) := by
  have hlog := log_two_eq q e hq h1 h2
  have hquantum : quantum q = 2 ^ (e - 52) := by
    unfold quantum
    rw [hlog, max_eq_left he]
  unfold nearestBinary64
  rw [hquantum, roundTiesToEven_eq _ k hk]

/-- A certificate for one rounding: the exponent `e` of `q` and the significand `k`
nearest to it. -/
theorem toBinary64_eq (q r : ℚ) (e k : Int) (hq : 0 < q) (h1 : (2 : ℚ) ^ e ≤ q)
    (h2 : q < (2 : ℚ) ^ (e + 1)) (he : -1022 ≤ e)
    (hk : |q / 2 ^ (e - 52) - k| < 1 / 2) (hr : (k : ℚ) * 2 ^ (e - 52) = r)
    (hfin : r < 2 ^ (1024 : ℕ)) :
    toBinary64 q = .finite r := by
  have hn := nearestBinary64_eq q e k hq h1 h2 he hk
  rw [hr] at hn
  unfold toBinary64
  rw [if_neg (ne_of_gt hq), if_pos hq, hn, if_pos hfin]

theorem nearestBinary64_error (q : ℚ) (hq : 0 < q) (h : (2 : ℚ) ^ (-1022 : ℤ) ≤ q) :
    |nearestBinary64 q - q| ≤ q * (1 / 2 ^ (53 : ℕ)) := by
  have hlog : -1022 ≤ Int.log 2 q := by
    rw [← Int.zpow_le_iff_le_log (by norm_num) hq]
    exact_mod_cast h
  have hle : (2 : ℚ) ^ (Int.log 2 q) ≤ q := by
    have := Int.zpow_log_le_self (b := 2) (r := q) (by norm_num) hq
    exact_mod_cast this
  have hquantum : quantum q = 2 ^ (Int.log 2 q - 52) := by
    unfold quantum
    rw [max_eq_left hlog]
  have hpos : (0 : ℚ) < 2 ^ (Int.log 2 q - 52) := by positivity
  unfold nearestBinary64
  rw [hquantum]
  have herr := roundTiesToEven_error (q / 2 ^ (Int.log 2 q - 52))
  have heq : (roundTiesToEven (q / 2 ^ (Int.log 2 q - 52)) : ℚ) * 2 ^ (Int.log 2 q - 52) - q =
      ((roundTiesToEven (q / 2 ^ (Int.log 2 q - 52)) : ℚ) - q / 2 ^ (Int.log 2 q - 52)) *
        2 ^ (Int.log 2 q - 52) := by
    field_simp
  rw [heq, abs_mul, abs_of_pos hpos]
  have hsplit : (2 : ℚ) ^ (Int.log 2 q - 52) = 2 ^ (Int.log 2 q) * (1 / 2 ^ (52 : ℕ)) := by
    rw [zpow_sub₀ (by norm_num : (2 : ℚ) ≠ 0), div_eq_mul_one_div]
    norm_num
  calc |(roundTiesToEven (q / 2 ^ (Int.log 2 q - 52)) : ℚ) - q / 2 ^ (Int.log 2 q - 52)| *
        2 ^ (Int.log 2 q - 52)
      ≤ 1 / 2 * 2 ^ (Int.log 2 q - 52) := by
        exact mul_le_mul_of_nonneg_right herr hpos.le
    _ = 2 ^ (Int.log 2 q) * (1 / 2 ^ (53 : ℕ)) := by
        rw [hsplit]
        ring
    _ ≤ q * (1 / 2 ^ (53 : ℕ)) := by
        exact mul_le_mul_of_nonneg_right hle (by positivity)

/-- Rounding a positive value of the normal range moves it by at most the
fraction `2 ^ (-53)` of itself. -/
theorem toBinary64_near (q : ℚ) (hq : 0 < q) (hlo : (2 : ℚ) ^ (-1022 : ℤ) ≤ q)
    (hhi : q ≤ 2 ^ (1000 : ℕ)) :
    ∃ x, toBinary64 q = .finite x ∧ |x - q| ≤ q * (1 / 2 ^ (53 : ℕ)) := by
  have herr := nearestBinary64_error q hq hlo
  have hfin : nearestBinary64 q < 2 ^ (1024 : ℕ) := by
    have h1 := (abs_le.1 herr).2
    have h2 : q * (1 / 2 ^ (53 : ℕ)) ≤ q := by
      have : (1 : ℚ) / 2 ^ (53 : ℕ) ≤ 1 := by norm_num
      nlinarith
    have h3 : (2 : ℚ) ^ (1000 : ℕ) + 2 ^ (1000 : ℕ) < 2 ^ (1024 : ℕ) := by norm_num
    linarith
  refine ⟨nearestBinary64 q, ?_, herr⟩
  unfold toBinary64
  rw [if_neg (ne_of_gt hq), if_pos hq, if_pos hfin]

/-- The rate of `c` participants of `m`, both positive and at most `2 ^ 40`: a
finite value within the fraction `2 ^ (-51)` of the exact `100 * c / m`. -/
theorem rate_near (c m : Int) (hc : 0 < c) (hm : 0 < m) (hcb : c ≤ 2 ^ (40 : ℕ))
    (hmb : m ≤ 2 ^ (40 : ℕ)) :
    ∃ y, (divide c m).times 100 = .finite y ∧
      |y - 100 * (c : ℚ) / (m : ℚ)| ≤ 100 * (c : ℚ) / (m : ℚ) * (1 / 2 ^ (51 : ℕ)) := by
  have hcq : (0 : ℚ) < (c : ℚ) := by exact_mod_cast hc
  have hmq : (0 : ℚ) < (m : ℚ) := by exact_mod_cast hm
  have hc1 : (1 : ℚ) ≤ (c : ℚ) := by exact_mod_cast hc
  have hm1 : (1 : ℚ) ≤ (m : ℚ) := by exact_mod_cast hm
  have hcb' : (c : ℚ) ≤ 2 ^ (40 : ℕ) := by exact_mod_cast hcb
  have hmb' : (m : ℚ) ≤ 2 ^ (40 : ℕ) := by exact_mod_cast hmb
  have hq : (0 : ℚ) < (c : ℚ) / (m : ℚ) := div_pos hcq hmq
  have hqlo : (1 : ℚ) / 2 ^ (40 : ℕ) ≤ (c : ℚ) / (m : ℚ) := by
    rw [div_le_div_iff₀ (by positivity) hmq]
    nlinarith
  have hqhi : (c : ℚ) / (m : ℚ) ≤ 2 ^ (40 : ℕ) := by
    rw [div_le_iff₀ hmq]
    nlinarith
  have hsmall : (2 : ℚ) ^ (-1022 : ℤ) ≤ 1 / 2 ^ (41 : ℕ) := by
    have h41 : (1 : ℚ) / 2 ^ (41 : ℕ) = 2 ^ (-41 : ℤ) := by
      rw [zpow_neg, one_div, ← zpow_natCast]
      rfl
    rw [h41]
    exact zpow_le_zpow_right₀ (by norm_num) (by norm_num)
  obtain ⟨x, hx, hxe⟩ := toBinary64_near ((c : ℚ) / (m : ℚ)) hq
    (by
      have h1 : (1 : ℚ) / 2 ^ (41 : ℕ) ≤ 1 / 2 ^ (40 : ℕ) := by norm_num
      exact le_trans hsmall (le_trans h1 hqlo))
    (by
      have : (2 : ℚ) ^ (40 : ℕ) ≤ 2 ^ (1000 : ℕ) := by norm_num
      linarith)
  have hx1 := (abs_le.1 hxe).1
  have hx2 := (abs_le.1 hxe).2
  have heps : (1 : ℚ) / 2 ^ (53 : ℕ) ≤ 1 / 2 := by norm_num
  have hxlo : (c : ℚ) / (m : ℚ) * (1 / 2) ≤ x := by nlinarith
  have hxhi : x ≤ (c : ℚ) / (m : ℚ) * 2 := by nlinarith
  have hxpos : 0 < x := by nlinarith
  obtain ⟨y, hy, hye⟩ := toBinary64_near (x * 100) (by positivity)
    (by
      have h1 : (1 : ℚ) / 2 ^ (41 : ℕ) ≤ (1 / 2 ^ (40 : ℕ)) * (1 / 2) * 100 := by norm_num
      have h2 : (1 / 2 ^ (40 : ℕ)) * (1 / 2) * 100 ≤ (c : ℚ) / (m : ℚ) * (1 / 2) * 100 := by
        linarith
      have h3 : (1 : ℚ) / 2 ^ (41 : ℕ) ≤ x * 100 := by linarith
      exact le_trans hsmall h3)
    (by
      have h1 : (2 : ℚ) ^ (40 : ℕ) * 2 * 100 ≤ 2 ^ (1000 : ℕ) := by norm_num
      have h2 : (c : ℚ) / (m : ℚ) * 2 * 100 ≤ 2 ^ (40 : ℕ) * 2 * 100 := by linarith
      linarith)
  refine ⟨y, ?_, ?_⟩
  · simp only [divide, if_neg (ne_of_gt hm), hx, JsNumber.times, hy]
  · have hy1 := (abs_le.1 hye).1
    have hy2 := (abs_le.1 hye).2
    have hR : 100 * (c : ℚ) / (m : ℚ) = (c : ℚ) / (m : ℚ) * 100 := by ring
    rw [hR, abs_le]
    have e53 : (1 : ℚ) / 2 ^ (53 : ℕ) * 4 = 1 / 2 ^ (51 : ℕ) := by norm_num
    constructor <;> nlinarith

/-- For counts from 0 to `2 ^ 40` the comparison of the rate with an integer
threshold `T` agrees with the comparison of the exact quotient, given that the
rate computed at the quotient `T / 100` itself does not exceed `T`. -/
theorem rate_gt_iff (c m T : Int) (hc : 0 ≤ c) (hm : 0 < m) (hcb : c ≤ 2 ^ (40 : ℕ))
    (hmb : m ≤ 2 ^ (40 : ℕ)) (hT0 : 0 < T) (hT : T ≤ 128)
    (hexact : ((toBinary64 ((T : ℚ) / 100)).times 100).gt T = false) :
    ((divide c m).times 100).gt T = true ↔ (c : ℚ) / (m : ℚ) * 100 > T := by
  have hmq : (0 : ℚ) < (m : ℚ) := by exact_mod_cast hm
  have hTq : (0 : ℚ) < (T : ℚ) := by exact_mod_cast hT0
  have hTb : (T : ℚ) ≤ 128 := by exact_mod_cast hT
  have hmb' : (m : ℚ) ≤ 2 ^ (40 : ℕ) := by exact_mod_cast hmb
  have hrhs : (c : ℚ) / (m : ℚ) * 100 > T ↔ 100 * c > T * m := by
    rw [gt_iff_lt, div_mul_eq_mul_div, lt_div_iff₀ hmq]
    constructor
    · intro h
      have : ((T * m : ℤ) : ℚ) < ((100 * c : ℤ) : ℚ) := by
        push_cast
        linarith
      exact_mod_cast this
    · intro h
      have : ((T * m : ℤ) : ℚ) < ((100 * c : ℤ) : ℚ) := by exact_mod_cast h
      push_cast at this
      linarith
  rw [hrhs]
  rcases eq_or_lt_of_le hc with h0 | hpos
  · subst h0
    have hz : (divide 0 m).times 100 = .finite 0 := by
      simp [divide, ne_of_gt hm, toBinary64, JsNumber.times]
    rw [hz]
    simp only [JsNumber.gt, decide_eq_true_eq]
    constructor
    · intro h
      exact absurd h (not_lt.mpr hTq.le)
    · intro h
      have : T * m > 0 := mul_pos hT0 hm
      omega
  · obtain ⟨y, hy, hye⟩ := rate_near c m hpos hm hcb hmb
    have hy1 := (abs_le.1 hye).1
    have hy2 := (abs_le.1 hye).2
    have hcq : (0 : ℚ) < (c : ℚ) := by exact_mod_cast hpos
    have hR : 100 * (c : ℚ) / (m : ℚ) * m = 100 * c := by field_simp
    have hTm : (T : ℚ) * m ≤ 128 * 2 ^ (40 : ℕ) := by nlinarith
    have hdelta : (1 : ℚ) / 2 ^ (51 : ℕ) * (128 * 2 ^ (40 : ℕ) + 1) < 1 := by norm_num
    rcases lt_trichotomy (100 * c) (T * m) with hlt | heq | hgt
    · have hle : (100 * c : ℤ) + 1 ≤ T * m := hlt
      have hleq : 100 * (c : ℚ) + 1 ≤ T * m := by exact_mod_cast hle
      have hylt : y < T := by
        have hym : y * m < T * m := by
          have h1 : y * m ≤ 100 * (c : ℚ) / (m : ℚ) * m +
              100 * (c : ℚ) / (m : ℚ) * m * (1 / 2 ^ (51 : ℕ)) := by nlinarith
          rw [hR] at h1
          nlinarith
        exact lt_of_mul_lt_mul_right hym hmq.le
      rw [hy]
      simp only [JsNumber.gt, decide_eq_true_eq]
      constructor
      · intro h
        exact absurd h (not_lt.mpr hylt.le)
      · intro h
        omega
    · have hq : (c : ℚ) / (m : ℚ) = (T : ℚ) / 100 := by
        rw [div_eq_div_iff (ne_of_gt hmq) (by norm_num)]
        have : ((100 * c : ℤ) : ℚ) = ((T * m : ℤ) : ℚ) := by exact_mod_cast heq
        push_cast at this
        linarith
      have hd : divide c m = toBinary64 ((T : ℚ) / 100) := by
        simp only [divide, if_neg (ne_of_gt hm), hq]
      rw [hd, hexact]
      constructor
      · intro h
        exact absurd h (by simp)
      · intro h
        omega
    · have hge : T * m + 1 ≤ 100 * c := hgt
      have hgeq : (T : ℚ) * m + 1 ≤ 100 * c := by exact_mod_cast hge
      have hygt : (T : ℚ) < y := by
        have hym : (T : ℚ) * m < y * m := by
          have h1 : 100 * (c : ℚ) / (m : ℚ) * m -
              100 * (c : ℚ) / (m : ℚ) * m * (1 / 2 ^ (51 : ℕ)) ≤ y * m := by nlinarith
          rw [hR] at h1
          nlinarith
        exact lt_of_mul_lt_mul_right hym hmq.le
      rw [hy]
      simp only [JsNumber.gt, decide_eq_true_eq]
      constructor
      · intro _
        omega
      · intro _
        exact hygt

/-- The two operations of the rate, each with its rounded result. -/
theorem divide_times_eq (c m : Int) (r1 r2 : ℚ) (hm : m ≠ 0)
    (h1 : toBinary64 ((c : ℚ) / (m : ℚ)) = .finite r1)
    (h2 : toBinary64 (r1 * 100) = .finite r2) :
    (divide c m).times 100 = .finite r2 := by
  simp only [divide, if_neg hm, h1, JsNumber.times, h2]

theorem rate_at_sixty : (toBinary64 (((60 : ℤ) : ℚ) / 100)).times 100 = .finite 60 := by
  have h1 : toBinary64 (((60 : ℤ) : ℚ) / 100) = .finite (5404319552844595 / 9007199254740992) :=
    toBinary64_eq _ _ (-1) 5404319552844595 (by norm_num) (by norm_num) (by norm_num)
      (by norm_num) (by rw [abs_lt]; constructor <;> norm_num) (by norm_num) (by norm_num)
  rw [h1]
  exact toBinary64_eq _ _ 5 8444249301319680 (by norm_num) (by norm_num) (by norm_num)
      (by norm_num) (by rw [abs_lt]; constructor <;> norm_num) (by norm_num) (by norm_num)

theorem rate_at_eighty : (toBinary64 (((80 : ℤ) : ℚ) / 100)).times 100 = .finite 80 := by
  have h1 : toBinary64 (((80 : ℤ) : ℚ) / 100) = .finite (3602879701896397 / 4503599627370496) :=
    toBinary64_eq _ _ (-1) 7205759403792794 (by norm_num) (by norm_num) (by norm_num)
      (by norm_num) (by rw [abs_lt]; constructor <;> norm_num) (by norm_num) (by norm_num)
  rw [h1]
  exact toBinary64_eq _ _ 6 5629499534213120 (by norm_num) (by norm_num) (by norm_num)
      (by norm_num) (by rw [abs_lt]; constructor <;> norm_num) (by norm_num) (by norm_num)

theorem rate_at_hundred : (toBinary64 (((100 : ℤ) : ℚ) / 100)).times 100 = .finite 100 := by
  have h1 : toBinary64 (((100 : ℤ) : ℚ) / 100) = .finite 1 :=
    toBinary64_eq _ _ 0 4503599627370496 (by norm_num) (by norm_num) (by norm_num)
      (by norm_num) (by rw [abs_lt]; constructor <;> norm_num) (by norm_num) (by norm_num)
  rw [h1]
  exact toBinary64_eq _ _ 6 7036874417766400 (by norm_num) (by norm_num) (by norm_num)
      (by norm_num) (by rw [abs_lt]; constructor <;> norm_num) (by norm_num) (by norm_num)

theorem jsNumber_gt_of_le (x : JsNumber) (a b : ℚ) (hab : a ≤ b) (h : x.gt b = true) :
    x.gt a = true := by
  cases x with
  | nan => exact h
  | negInf => exact h
  | posInf => rfl
  | finite q =>
    simp only [JsNumber.gt, decide_eq_true_eq] at h ⊢
    linarith

theorem toBinary64_ne_nan (q : ℚ) : toBinary64 q ≠ .nan := by
  unfold toBinary64
  split_ifs <;> simp

theorem divide_times_ne_nan (c m : Int) (hm : m ≠ 0) : (divide c m).times 100 ≠ .nan := by
  simp only [divide, if_neg hm]
  cases h : toBinary64 ((c : ℚ) / (m : ℚ)) with
  | nan => exact absurd h (toBinary64_ne_nan _)
  | negInf => simp [JsNumber.times]
  | posInf => simp [JsNumber.times]
  | finite q => exact toBinary64_ne_nan _

theorem participationRate_of_counts (event : Event) (c m : Int)
    (hc : lookup event "currentParticipants" = some (.num c))
    (hm : lookup event "maxParticipants" = some (.num m)) :
    participationRate event = (divide c m).times 100 := by
  simp [participationRate, toNumber, hc, hm]

/-! ## Rendering of the card -/

/-- A card whose event is renderable renders, with the parts below. -/
theorem eventCard_renders (props : EventCardProps) (h : renderable props.event = true) :
    ∃ view, EventCard props = .ok view ∧
      view.participants =
        (lookup props.event "currentParticipants", lookup props.event "maxParticipants") ∧
      view.percent = (participationRate props.event).round ∧
      view.barColor =
        (if (participationRate props.event).gt 80 then "bg-red-500"
         else if (participationRate props.event).gt 60 then "bg-amber-500"
         else "bg-green-500") ∧
      view.barWidth = participationRate props.event ∧
      view.actions =
        (if props.adminMode then
          (if isEventCreator props then [.editButton props.loading] else []) ++
          [.viewButton props.loading] ++
          (if isEventCreator props then [.deleteButton props.loading] else [])
        else if props.canRegister then
          if props.registered then
            [.cancelButton props.loading
              (if props.loading then "Cancelling..." else "Cancel Registration")]
          else if truthyOpt (lookup props.event "registrationClosed") then
            [.registrationOpensSoon]
          else
            [.registerButton (props.loading || isEventFull props.event)
              (if props.loading then "Registering..."
               else if isEventFull props.event then "Event Full" else "Register Now")]
        else [.viewEventDetails]) := by
  unfold renderable at h
  simp only [Bool.and_eq_true] at h
  obtain ⟨⟨⟨⟨⟨⟨ht, h1⟩, h2⟩, h3⟩, h4⟩, h5⟩, h6⟩ := h
  cases htime : lookup props.event "time" with
  | none => rw [htime] at ht; simp [isText] at ht
  | some t =>
    cases t <;> first | (rw [htime] at ht; simp [isText] at ht; done) | skip
    simp only [EventCard, htime, formatTime, h1, h2, h3, h4, h5, h6, Bool.and_self, if_true]
    exact ⟨_, rfl, rfl, rfl, rfl, rfl, rfl⟩

/-- A card whose event is not renderable renders nothing: the render ends with an
error. -/
theorem eventCard_throws (props : EventCardProps) (h : renderable props.event = false) :
    ∃ e, EventCard props = .error e := by
  unfold EventCard
  cases htime : lookup props.event "time" with
  | none => exact ⟨_, rfl⟩
  | some t =>
    cases t <;> first | exact ⟨_, rfl⟩ | skip
    simp only [formatTime]
    split
    · rename_i hchildren
      simp only [renderable, htime, isText, Bool.true_and] at h
      rw [h] at hchildren
      exact absurd hchildren (by simp)
    · exact ⟨_, rfl⟩

/-! ## Fullness and the register control (C14) -/

theorem isEventFull_of_counts (event : Event) (c m : Int)
    (hc : lookup event "currentParticipants" = some (.num c))
    (hm : lookup event "maxParticipants" = some (.num m)) :
    isEventFull event = decide (c ≥ m) := by
  simp [isEventFull, jsGe, toPrimitive, toNumber, hc, hm]

/-- C14: for every event the card renders (its time is a string), with numeric
counts, the card treats the event as full if and only if
`currentParticipants ≥ maxParticipants`; for a student who is not registered, with
registration open, the card renders and its action area is the register control,
which is disabled if and only if the card is loading or the event is full, and
which reads `Event Full` when the event is full and the card is not loading. -/
theorem eventCard_register_control (event : Event) (c m : Int) (user : Json) (loading : Bool)
    (hc : lookup event "currentParticipants" = some (.num c))
    (hm : lookup event "maxParticipants" = some (.num m))
    (hrender : renderable event = true)
    (hopen : truthyOpt (lookup event "registrationClosed") = false) :
    (isEventFull event = true ↔ c ≥ m) ∧
    (∃ view label,
      EventCard { event := event, registered := false, adminMode := false,
                  canRegister := true, currentUser := user, loading := loading }
        = .ok view ∧
      view.actions = [.registerButton (loading || isEventFull event) label] ∧
      (label = "Event Full" ↔ loading = false ∧ c ≥ m)) ∧
    ((loading || isEventFull event) = true ↔ loading = true ∨ c ≥ m) := by
  have hfull := isEventFull_of_counts event c m hc hm
  refine ⟨by simp [hfull], ?_, by simp [hfull]⟩
  obtain ⟨view, hview, _, _, _, _, hactions⟩ := eventCard_renders
    { event := event, registered := false, adminMode := false, canRegister := true,
      currentUser := user, loading := loading } hrender
  refine ⟨view, _, hview, by rw [hactions]; simp only [hopen]; rfl, ?_⟩
  cases loading with
  | true => simp
  | false =>
    by_cases h : c ≥ m
    · simp [hfull, h]
    · simp [hfull, h]

/-- C14, the scenario of the specification: 100 participants of 100 render as
`Event Full` with the control disabled. -/
theorem eventCard_register_control_witness :
    ∃ view,
      EventCard { event := [("title", .str "Hack night"), ("date", .str "2030-01-01"),
                            ("time", .str "10:00"), ("currentParticipants", .num 100),
                            ("maxParticipants", .num 100)],
                  registered := false, adminMode := false, canRegister := true,
                  currentUser := .obj [("role", .str "STUDENT")], loading := false }
        = .ok view ∧
      view.actions = [.registerButton true "Event Full"] := by
  obtain ⟨_, ⟨view, label, hview, hactions, hlabel⟩, _⟩ := eventCard_register_control
    [("title", .str "Hack night"), ("date", .str "2030-01-01"), ("time", .str "10:00"),
     ("currentParticipants", .num 100), ("maxParticipants", .num 100)] 100 100
    (.obj [("role", .str "STUDENT")]) false rfl rfl rfl rfl
  refine ⟨view, hview, ?_⟩
  rw [hactions, hlabel.2 ⟨rfl, le_refl _⟩]
  rfl

/-- Outside the hypothesis of C14: for an event without a time the card renders no
control, `formatTime` throws a `TypeError`. -/
theorem eventCard_without_time :
    EventCard { event := [("currentParticipants", .num 100), ("maxParticipants", .num 100)],
                registered := false, adminMode := false, canRegister := true,
                currentUser := .obj [("role", .str "STUDENT")], loading := false }
      = .error .typeError := rfl

/-- The creator test on records without the members it compares: for a user
without `email` and an event without `createdBy`, `undefined === undefined` makes
`isEventCreator` true, and the admin card shows the edit and delete buttons. -/
theorem eventCard_creator_without_email :
    isEventCreator { event := [("title", .str "Hack night"), ("time", .str "10:00")],
                     adminMode := true,
                     currentUser := .obj [("role", .str "EVENT_MANAGER")] } = true ∧
    (∃ view,
      EventCard { event := [("title", .str "Hack night"), ("time", .str "10:00")],
                  adminMode := true,
                  currentUser := .obj [("role", .str "EVENT_MANAGER")] } = .ok view ∧
      view.actions = [.editButton false, .viewButton false, .deleteButton false]) :=
  ⟨rfl, _, rfl, rfl⟩

/-! ## Participation rate and the colour of the bar (C15) -/

/-- C15, counterexample: with 29 participants of 200 the rate of the card is the
binary64 value `14.499999999999998` (`8162774324609023 / 2 ^ 49`), not the exact
`29 / 200 × 100 = 14.5`; the card renders it as the width of the bar, and the
percentage `Math.round` makes of it is 14 where the exact rate gives 15. -/
theorem participationRate_rounded :
    participationRate [("time", .str "10:00"), ("currentParticipants", .num 29),
                       ("maxParticipants", .num 200)]
      = .finite (8162774324609023 / 562949953421312) ∧
    (8162774324609023 / 562949953421312 : ℚ) ≠ (29 : ℚ) / 200 * 100 ∧
    (∃ view,
      EventCard { event := [("time", .str "10:00"), ("currentParticipants", .num 29),
                            ("maxParticipants", .num 200)] } = .ok view ∧
      view.barWidth = .finite (8162774324609023 / 562949953421312) ∧
      view.percent = .finite 14) ∧
    (JsNumber.finite ((29 : ℚ) / 200 * 100)).round = .finite 15 := by
  have hrate : participationRate [("time", .str "10:00"), ("currentParticipants", .num 29),
      ("maxParticipants", .num 200)] = .finite (8162774324609023 / 562949953421312) := by
    rw [participationRate_of_counts [("time", .str "10:00"), ("currentParticipants", .num 29),
      ("maxParticipants", .num 200)] 29 200 rfl rfl]
    exact divide_times_eq 29 200 (5224175567749775 / 36028797018963968) _ (by decide)
      (toBinary64_eq _ _ (-3) 5224175567749775 (by norm_num) (by norm_num) (by norm_num)
        (by norm_num) (by rw [abs_lt]; constructor <;> norm_num) (by norm_num) (by norm_num))
      (toBinary64_eq _ _ 3 8162774324609023 (by norm_num) (by norm_num) (by norm_num)
        (by norm_num) (by rw [abs_lt]; constructor <;> norm_num) (by norm_num) (by norm_num))
  refine ⟨hrate, by norm_num, ?_, ?_⟩
  · obtain ⟨view, hview, _, hpercent, _, hwidth, _⟩ := eventCard_renders
      { event := [("time", .str "10:00"), ("currentParticipants", .num 29),
                  ("maxParticipants", .num 200)] } rfl
    have hround : (JsNumber.finite (8162774324609023 / 562949953421312)).round
        = .finite 14 := by
      simp only [JsNumber.round, JsNumber.finite.injEq]
      have : ⌊(8162774324609023 / 562949953421312 : ℚ) + 1 / 2⌋ = 14 := by
        rw [Int.floor_eq_iff]
        constructor <;> norm_num
      rw [this]
      norm_num
    exact ⟨view, hview, hwidth.trans hrate,
      hpercent.trans ((congrArg JsNumber.round hrate).trans hround)⟩
  · simp only [JsNumber.round, JsNumber.finite.injEq]
    have : ⌊(29 : ℚ) / 200 * 100 + 1 / 2⌋ = 15 := by
      rw [Int.floor_eq_iff]
      constructor <;> norm_num
    rw [this]
    norm_num

/-- C15, amended: for every event the card renders, with numeric counts and
`maxParticipants > 0`, the participation rate is
`currentParticipants / maxParticipants × 100` in binary64 arithmetic (the quotient
rounded to the nearest binary64 value, its product with 100 rounded again); the bar
is red if and only if that rate is above 80, amber if and only if it is above 60
and not above 80, and green otherwise; and for counts from 0 to `2 ^ 40` the rate is
above 80, or above 60, exactly when the exact rational is, so the three colours
are those of the exact rate. -/
theorem participationRate_tiers (props : EventCardProps) (c m : Int)
    (hc : lookup props.event "currentParticipants" = some (.num c))
    (hm : lookup props.event "maxParticipants" = some (.num m))
    (hpos : 0 < m) (hrender : renderable props.event = true) :
    participationRate props.event = (toBinary64 ((c : ℚ) / (m : ℚ))).times 100 ∧
    (∃ view, EventCard props = .ok view ∧
      view.barWidth = participationRate props.event ∧
      (view.barColor = "bg-red-500" ↔ (participationRate props.event).gt 80 = true) ∧
      (view.barColor = "bg-amber-500" ↔
        (participationRate props.event).gt 60 = true ∧
        (participationRate props.event).gt 80 = false) ∧
      (view.barColor = "bg-green-500" ↔ (participationRate props.event).gt 60 = false)) ∧
    (0 ≤ c → c ≤ 2 ^ (40 : ℕ) → m ≤ 2 ^ (40 : ℕ) →
      ((participationRate props.event).gt 80 = true ↔ (c : ℚ) / (m : ℚ) * 100 > 80) ∧
      ((participationRate props.event).gt 60 = true ↔ (c : ℚ) / (m : ℚ) * 100 > 60)) := by
  have hm0 : m ≠ 0 := ne_of_gt hpos
  have hrate := participationRate_of_counts props.event c m hc hm
  have hra : "bg-red-500" ≠ "bg-amber-500" := by decide
  have hrg : "bg-red-500" ≠ "bg-green-500" := by decide
  have hag : "bg-amber-500" ≠ "bg-green-500" := by decide
  refine ⟨by rw [hrate]; simp only [divide, if_neg hm0], ?_, ?_⟩
  · obtain ⟨view, hview, _, _, hcolor, hwidth, _⟩ := eventCard_renders props hrender
    have hmono : (participationRate props.event).gt 80 = true →
        (participationRate props.event).gt 60 = true :=
      jsNumber_gt_of_le _ 60 80 (by norm_num)
    refine ⟨view, hview, hwidth, ?_, ?_, ?_⟩
    all_goals
      rw [hcolor]
      cases h80 : (participationRate props.event).gt 80 <;>
        cases h60 : (participationRate props.event).gt 60 <;>
        first
        | (have h := hmono h80
           rw [h60] at h
           exact Bool.noConfusion h)
        | simp [hra, hrg, hag, hra.symm, hrg.symm, hag.symm]
  · intro hc0 hcb hmb
    rw [hrate]
    exact ⟨by
        have h := rate_gt_iff c m 80 hc0 hpos hcb hmb (by norm_num) (by norm_num)
          (by rw [rate_at_eighty]; simp [JsNumber.gt])
        exact_mod_cast h,
      by
        have h := rate_gt_iff c m 60 hc0 hpos hcb hmb (by norm_num) (by norm_num)
          (by rw [rate_at_sixty]; simp [JsNumber.gt])
        exact_mod_cast h⟩

/-- C15 at 85 participants of 100: the bar is red, as the exact rate 85 has it. -/
theorem participationRate_tiers_witness :
    ∃ view,
      EventCard { event := [("title", .str "Hack night"), ("time", .str "10:00"),
                            ("currentParticipants", .num 85), ("maxParticipants", .num 100)] }
        = .ok view ∧
      view.barColor = "bg-red-500" := by
  have h := participationRate_tiers
    { event := [("title", .str "Hack night"), ("time", .str "10:00"),
                ("currentParticipants", .num 85), ("maxParticipants", .num 100)] }
    85 100 rfl rfl (by decide) rfl
  obtain ⟨_, ⟨view, hview, _, hred, _, _⟩, hexact⟩ := h
  exact ⟨view, hview, hred.2 ((hexact (by norm_num) (by norm_num) (by norm_num)).1.2
    (by norm_num))⟩

/-! ## Display of the rate (C16) -/

/-- C16, the code at the failing input: for an event with 150 participants of 100
(and a time, so that the card renders) the card renders the width `150%` and the
percentage `150%`, above 100; the counts it displays are the stored 150 and
100. -/
theorem eventCard_rate_not_clamped :
    ∃ view,
      EventCard { event := [("title", .str "Hack night"), ("time", .str "10:00"),
                            ("currentParticipants", .num 150),
                            ("maxParticipants", .num 100)] } = .ok view ∧
      view.barWidth = .finite 150 ∧ view.percent = .finite 150 ∧
      view.barWidth.gt 100 = true ∧ view.percent.gt 100 = true ∧
      view.participants = (some (.num 150), some (.num 100)) := by
  have hrate : participationRate [("title", .str "Hack night"), ("time", .str "10:00"),
      ("currentParticipants", .num 150), ("maxParticipants", .num 100)] = .finite 150 := by
    rw [participationRate_of_counts [("title", .str "Hack night"), ("time", .str "10:00"),
      ("currentParticipants", .num 150), ("maxParticipants", .num 100)] 150 100 rfl rfl]
    exact divide_times_eq 150 100 (3 / 2) _ (by decide)
      (toBinary64_eq _ _ 0 6755399441055744 (by norm_num) (by norm_num) (by norm_num)
        (by norm_num) (by rw [abs_lt]; constructor <;> norm_num) (by norm_num) (by norm_num))
      (toBinary64_eq _ _ 7 5277655813324800 (by norm_num) (by norm_num) (by norm_num)
        (by norm_num) (by rw [abs_lt]; constructor <;> norm_num) (by norm_num) (by norm_num))
  obtain ⟨view, hview, hparts, hpercent, _, hwidth, _⟩ := eventCard_renders
    { event := [("title", .str "Hack night"), ("time", .str "10:00"),
                ("currentParticipants", .num 150), ("maxParticipants", .num 100)] } rfl
  have hround : (JsNumber.finite 150).round = .finite 150 := by
    simp only [JsNumber.round, JsNumber.finite.injEq]
    have : ⌊(150 : ℚ) + 1 / 2⌋ = 150 := by
      rw [Int.floor_eq_iff]
      constructor <;> norm_num
    rw [this]
    norm_num
  have hw : view.barWidth = .finite 150 := hwidth.trans hrate
  have hp : view.percent = .finite 150 :=
    hpercent.trans ((congrArg JsNumber.round hrate).trans hround)
  refine ⟨view, hview, hw, hp, ?_, ?_, hparts⟩
  · rw [hw]
    simp only [JsNumber.gt, decide_eq_true_eq]
    norm_num
  · rw [hp]
    simp only [JsNumber.gt, decide_eq_true_eq]
    norm_num

/-- The part of C16 that holds: the values in the participants line are the stored
members, and for counts from 0 to `2 ^ 40` with `0 < maxParticipants` the width
stays at or below 100 exactly when `currentParticipants ≤ maxParticipants`. -/
theorem barWidth_le_hundred_iff (props : EventCardProps) (c m : Int)
    (hc : lookup props.event "currentParticipants" = some (.num c))
    (hm : lookup props.event "maxParticipants" = some (.num m))
    (hpos : 0 < m) (hrender : renderable props.event = true)
    (hc0 : 0 ≤ c) (hcb : c ≤ 2 ^ (40 : ℕ)) (hmb : m ≤ 2 ^ (40 : ℕ)) :
    ∃ view, EventCard props = .ok view ∧
      view.participants = (some (.num c), some (.num m)) ∧
      (view.barWidth.gt 100 = false ↔ c ≤ m) := by
  have hmq : (0 : ℚ) < (m : ℚ) := by exact_mod_cast hpos
  obtain ⟨view, hview, hparts, _, _, hwidth, _⟩ := eventCard_renders props hrender
  refine ⟨view, hview, by rw [hparts, hc, hm], ?_⟩
  have h := rate_gt_iff c m 100 hc0 hpos hcb hmb (by norm_num) (by norm_num)
    (by rw [rate_at_hundred]; simp [JsNumber.gt])
  rw [hwidth, participationRate_of_counts props.event c m hc hm]
  have hiff : ((c : ℚ) / (m : ℚ) * 100 > ((100 : ℤ) : ℚ)) ↔ m < c := by
    rw [gt_iff_lt, div_mul_eq_mul_div, lt_div_iff₀ hmq]
    push_cast
    constructor
    · intro h1
      have h2 : (m : ℚ) < (c : ℚ) := by linarith
      exact_mod_cast h2
    · intro h1
      have h2 : (m : ℚ) < (c : ℚ) := by exact_mod_cast h1
      linarith
  rw [hiff] at h
  cases hgt : ((divide c m).times 100).gt 100 with
  | true =>
    have := h.1 (by exact_mod_cast hgt)
    simp only [Bool.true_eq_false, false_iff, not_le]
    exact this
  | false =>
    simp only [true_iff]
    by_contra hlt
    have := h.2 (not_le.mp hlt)
    have hgt' : ((divide c m).times 100).gt ((100 : ℤ) : ℚ) = false := by exact_mod_cast hgt
    rw [hgt'] at this
    exact Bool.noConfusion this

/-! ## Failed login and registration (C17) -/

theorem callService_env (handler : JsError → JsError) (env env' : Env) (config : RequestConfig)
    (reply : Reply) (result : Except JsError Json)
    (h : callService handler env config reply = (env', result)) :
    env' = env ∨
      ∃ response, reply = .fail (some response) ∧ response.status = 401 ∧
        env' = ⟨none, "/login"⟩ := by
  unfold callService api.request at h
  cases hi : api.requestInterceptor env.storage config with
  | error e =>
    rw [hi] at h
    have he : e.status = none := by
      unfold api.requestInterceptor at hi
      split at hi <;> try (simp at hi)
      · rw [← hi]; rfl
      · rw [← hi]; rfl
      · split at hi
        · split at hi <;> simp at hi
        · simp at hi
    simp only [api.responseErrorInterceptor, he] at h
    simp at h
    exact Or.inl h.1.symm
  | ok c =>
    rw [hi] at h
    cases reply with
    | ok data =>
      simp at h
      exact Or.inl h.1.symm
    | fail response =>
      simp only [api.responseErrorInterceptor, JsError.status, JsError.response] at h
      cases response with
      | none =>
        simp at h
        exact Or.inl h.1.symm
      | some r =>
        by_cases h401 : r.status = 401
        · simp [h401] at h
          exact Or.inr ⟨r, rfl, h401, h.1.symm⟩
        · simp [h401] at h
          exact Or.inl h.1.symm

/-- C17, counterexample: with a stored record and an anonymous in-memory state, a
login answered `401` ends with the error of the auth service rethrown and
`loading = false`, but the persisted session is gone (and the location is
`/login`): the gateway removed it. -/
theorem failed_login_clears_storage :
    authService.getStoredUser (some (.json (.obj [("name", .str "S")])))
      = .obj [("name", .str "S")] ∧
    (AuthProvider.login asciiUpperCase
        ⟨⟨some (.json (.obj [("name", .str "S")])), "/"⟩, ⟨.null, false, false⟩⟩
        "student@example.com" "wrong-password" (some "student")
        (.fail (some ⟨401, .str "Invalid credentials"⟩)))
      = (⟨⟨none, "/login"⟩, ⟨.null, false, false⟩⟩, .error (.error "Invalid credentials")) ∧
    authService.getStoredUser (AuthProvider.login asciiUpperCase
        ⟨⟨some (.json (.obj [("name", .str "S")])), "/"⟩, ⟨.null, false, false⟩⟩
        "student@example.com" "wrong-password" (some "student")
        (.fail (some ⟨401, .str "Invalid credentials"⟩))).1.env.storage = .null :=
  ⟨rfl, rfl, rfl⟩

/-- C17, amended: for every prior state and every error `e` raised by the auth
service during `login` (likewise `register`), the operation rethrows `e` itself,
ends with `loading = false` and leaves `user` and `isAuthenticated` as they were; the
persisted session and the location are as they were before the call unless the
server answered `401`, in which case the gateway has removed the session and set
the location to `/login`. -/
theorem failed_login_keeps_state (toUpperCase : String → String)
    (app : App) (email password : String) (role : Option String)
    (userData : Json) (reply : Reply) :
    (∀ env' e, authService.login toUpperCase app.env email password role reply = (env', .error e) →
      AuthProvider.login toUpperCase app email password role reply =
        (⟨env', ⟨app.auth.user, app.auth.isAuthenticated, false⟩⟩, .error e) ∧
      (env' = app.env ∨
        ∃ response, reply = .fail (some response) ∧ response.status = 401 ∧
          env' = ⟨none, "/login"⟩)) ∧
    (∀ env' e, authService.register toUpperCase app.env userData reply = (env', .error e) →
      AuthProvider.register toUpperCase app userData reply =
        (⟨env', ⟨app.auth.user, app.auth.isAuthenticated, false⟩⟩, .error e) ∧
      (env' = app.env ∨
        ∃ response, reply = .fail (some response) ∧ response.status = 401 ∧
          env' = ⟨none, "/login"⟩)) := by
  constructor
  · intro env' e h
    refine ⟨?_, callService_env _ _ _ _ _ _ h⟩
    simp only [AuthProvider.login, h, AuthProvider.finishLogin, authReducer]
  · intro env' e h
    refine ⟨?_, ?_⟩
    · simp only [AuthProvider.register, h, AuthProvider.finishLogin, authReducer]
    · unfold authService.register at h
      cases hb : authService.registerBody toUpperCase userData with
      | error err =>
        rw [hb] at h
        simp only [Prod.mk.injEq] at h
        exact Or.inl h.1.symm
      | ok body =>
        rw [hb] at h
        exact callService_env _ _ _ _ _ _ h

/-! ## Logout (C18) -/

/-- C18: from every auth state and storage content, after `logout` the persisted
session is gone (`getStoredUser()` is `null` and `isAuthenticated()` is false) and
the in-memory state is anonymous (`user = null`, `isAuthenticated = false`,
`loading = false`); a second `logout` changes nothing further. -/
theorem logout_clears_session (app : App) :
    authService.getStoredUser (AuthProvider.logout app).env.storage = .null ∧
    authService.isAuthenticated (AuthProvider.logout app).env.storage = false ∧
    (AuthProvider.logout app).auth = ⟨.null, false, false⟩ ∧
    (AuthProvider.logout app).env.href = app.env.href ∧
    AuthProvider.logout (AuthProvider.logout app) = AuthProvider.logout app :=
  ⟨rfl, rfl, rfl, rfl, rfl⟩

/-! ## Removal of toasts (C19) -/

/-- C19: for every toast list and identifier, `removeToast(id)` applied twice yields
the list it yields applied once; one application removes exactly the toasts with
that identifier and keeps every other toast, as often as it occurred and in
insertion order; removing an identifier that is not present leaves the list
unchanged. -/
theorem removeToast_idempotent (toasts : List Toast) (id : String) :
    removeToast (removeToast toasts id) id = removeToast toasts id ∧
    (∀ toast, toast ∈ removeToast toasts id ↔ toast ∈ toasts ∧ toast.id ≠ id) ∧
    (removeToast toasts id).Sublist toasts ∧
    (∀ toast : Toast, toast.id ≠ id →
      (removeToast toasts id).count toast = toasts.count toast) ∧
    ((∀ toast ∈ toasts, toast.id ≠ id) → removeToast toasts id = toasts) := by
  refine ⟨?_, ?_, List.filter_sublist _, ?_, ?_⟩
  · simp [removeToast, List.filter_filter]
  · intro toast
    simp [removeToast, List.mem_filter]
  · intro toast hne
    unfold removeToast
    rw [List.count_filter]
    simpa using hne
  · intro h
    unfold removeToast
    rw [List.filter_eq_self]
    intro toast hmem
    simpa using h toast hmem

/-! ## Validation gate of the Login form (C20) -/

/-- The results `validateLoginForm` can give: at most one entry for the email,
then at most one for the password. -/
theorem validateLoginForm_shape (email password : String) :
    ∃ emailErrors passwordErrors : List String,
      emailErrors.length ≤ 1 ∧ passwordErrors.length ≤ 1 ∧
      validateLoginForm email password =
        fieldErrors "email" emailErrors ++ fieldErrors "password" passwordErrors := by
  unfold validateLoginForm
  by_cases h1 : jsTrim email = ""
  · by_cases h2 : jsTrim password = ""
    · exact ⟨["Email is required"], ["Password is required"], by simp, by simp,
        by simp [h1, h2, fieldErrors]⟩
    · by_cases h3 : validatePassword password = true
      · exact ⟨["Email is required"], [], by simp, by simp, by simp [h1, h2, h3, fieldErrors]⟩
      · exact ⟨["Email is required"], ["Password must be at least 6 characters long"],
          by simp, by simp, by simp [h1, h2, h3, fieldErrors]⟩
  · by_cases h4 : validateEmail email = true
    · by_cases h2 : jsTrim password = ""
      · exact ⟨[], ["Password is required"], by simp, by simp,
          by simp [h1, h2, h4, fieldErrors]⟩
      · by_cases h3 : validatePassword password = true
        · exact ⟨[], [], by simp, by simp, by simp [h1, h2, h3, h4, fieldErrors]⟩
        · exact ⟨[], ["Password must be at least 6 characters long"],
            by simp, by simp, by simp [h1, h2, h3, h4, fieldErrors]⟩
    · by_cases h2 : jsTrim password = ""
      · exact ⟨["Please enter a valid email address"], ["Password is required"],
          by simp, by simp, by simp [h1, h2, h4, fieldErrors]⟩
      · by_cases h3 : validatePassword password = true
        · exact ⟨["Please enter a valid email address"], [], by simp, by simp,
            by simp [h1, h2, h3, h4, fieldErrors]⟩
        · exact ⟨["Please enter a valid email address"],
            ["Password must be at least 6 characters long"],
            by simp, by simp, by simp [h1, h2, h3, h4, fieldErrors]⟩

/-- The error map built by `handleSubmit` from a result of that shape has one
entry per error, with the error's message. -/
theorem errorMap_of_shape (emailErrors passwordErrors : List String)
    (he : emailErrors.length ≤ 1) (hp : passwordErrors.length ≤ 1) :
    ((fieldErrors "email" emailErrors ++ fieldErrors "password" passwordErrors).foldl
          (fun m e => assign m e.field e.message) []).length
      = (fieldErrors "email" emailErrors ++ fieldErrors "password" passwordErrors).length ∧
    ∀ field message,
      lookup ((fieldErrors "email" emailErrors ++ fieldErrors "password" passwordErrors).foldl
          (fun m e => assign m e.field e.message) []) field = some message ↔
      (⟨field, message⟩ : FieldError) ∈
        fieldErrors "email" emailErrors ++ fieldErrors "password" passwordErrors := by
  have hne : ¬ ("email" = "password") := by decide
  have hne' : ¬ ("password" = "email") := by decide
  match emailErrors, passwordErrors, he, hp with
  | [], [], _, _ => simp [lookup, fieldErrors]
  | [a], [], _, _ =>
    refine ⟨by simp [assign, hasKey, fieldErrors], ?_⟩
    intro field message
    simp only [fieldErrors, List.map_cons, List.map_nil, List.append_nil, List.foldl_cons,
      List.foldl_nil, lookup_assign, lookup_nil, List.mem_singleton, FieldError.mk.injEq]
    by_cases hf : field = "email"
    · simp [hf, eq_comm]
    · simp [hf]
  | [], [b], _, _ =>
    refine ⟨by simp [assign, hasKey, fieldErrors], ?_⟩
    intro field message
    simp only [fieldErrors, List.map_cons, List.map_nil, List.nil_append, List.foldl_cons,
      List.foldl_nil, lookup_assign, lookup_nil, List.mem_singleton, FieldError.mk.injEq]
    by_cases hf : field = "password"
    · simp [hf, eq_comm]
    · simp [hf]
  | [a], [b], _, _ =>
    refine ⟨by simp [assign, hasKey, hne, fieldErrors], ?_⟩
    intro field message
    simp only [fieldErrors, List.map_cons, List.map_nil, List.singleton_append,
      List.foldl_cons, List.foldl_nil, lookup_assign, lookup_nil, List.mem_cons,
      List.mem_singleton, FieldError.mk.injEq, List.not_mem_nil, or_false]
    by_cases hf : field = "password"
    · simp [hf, hne', eq_comm]
    · by_cases hf2 : field = "email"
      · simp [hf2, hne, eq_comm]
      · simp [hf, hf2]
  | _ :: _ :: _, _, h, _ => simp at h
  | _, _ :: _ :: _, _, h => simp at h

/-- C20: for every email and password for which `validateLoginForm` returns a
non-empty list, `handleSubmit` makes no `login` call (the provider and the browser
are as before, whatever the server would answer), and the error map holds exactly
one message per offending field: the entries of the map are the errors of the list;
`login` is called, once and with the form's values, only when the list is empty. -/
theorem handleSubmit_validation_gate (toUpperCase : String → String)
    (page : LoginPage) (app : App) (reply : Reply) :
    (validateLoginForm page.email page.password ≠ [] →
      (Login.handleSubmit toUpperCase page app reply).loginCalls = [] ∧
      (Login.handleSubmit toUpperCase page app reply).app = app ∧
      (∀ reply', Login.handleSubmit toUpperCase page app reply'
        = Login.handleSubmit toUpperCase page app reply) ∧
      (Login.handleSubmit toUpperCase page app reply).page.errors.length
        = (validateLoginForm page.email page.password).length ∧
      (∀ field message,
        lookup (Login.handleSubmit toUpperCase page app reply).page.errors field = some message ↔
          (⟨field, message⟩ : FieldError) ∈ validateLoginForm page.email page.password)) ∧
    ((Login.handleSubmit toUpperCase page app reply).loginCalls ≠ [] →
      validateLoginForm page.email page.password = []) ∧
    (validateLoginForm page.email page.password = [] →
      (Login.handleSubmit toUpperCase page app reply).loginCalls
        = [(page.email, page.password, page.role)]) := by
  obtain ⟨ee, pe, he, hp, hshape⟩ := validateLoginForm_shape page.email page.password
  have hmap := errorMap_of_shape ee pe he hp
  have hinvalid : validateLoginForm page.email page.password ≠ [] →
      ∀ r, Login.handleSubmit toUpperCase page app r =
        { page := { page with
            errors := (validateLoginForm page.email page.password).foldl
              (fun m e => assign m e.field e.message) [] },
          app := app, loginCalls := [], toasts := [], navigated := none } := by
    intro hne r
    have hlen : (validateLoginForm page.email page.password).length > 0 :=
      List.length_pos.mpr hne
    simp only [Login.handleSubmit, hlen, if_true]
  refine ⟨?_, ?_, ?_⟩
  · intro hne
    refine ⟨by rw [hinvalid hne], by rw [hinvalid hne], ?_, ?_, ?_⟩
    · intro r
      rw [hinvalid hne, hinvalid hne]
    · rw [hinvalid hne]
      simp only
      rw [hshape]
      exact hmap.1
    · intro field message
      rw [hinvalid hne]
      simp only
      rw [hshape]
      exact hmap.2 field message
  · intro hcalls
    by_contra hne
    rw [hinvalid hne] at hcalls
    exact hcalls rfl
  · intro hvalid
    simp only [Login.handleSubmit, hvalid, List.length_nil, gt_iff_lt, lt_self_iff_false,
      if_false]
    cases AuthProvider.login toUpperCase app page.email page.password (some page.role) reply with
    | mk app' result =>
      cases result <;> rfl

/-- C20 on a blank email and a three-letter password: no call, and the two messages
in the map. -/
theorem handleSubmit_rejects_invalid_form :
    (Login.handleSubmit asciiUpperCase ⟨"", "abc", "student", [], false⟩
        ⟨⟨none, "/login"⟩, ⟨.null, false, false⟩⟩ (.ok .null)).loginCalls = [] ∧
    (Login.handleSubmit asciiUpperCase ⟨"", "abc", "student", [], false⟩
        ⟨⟨none, "/login"⟩, ⟨.null, false, false⟩⟩ (.ok .null)).page.errors
      = [("email", "Email is required"),
         ("password", "Password must be at least 6 characters long")] := by
  decide


/-! ## Base URL of the gateway (C21) -/

/-- C21, counterexample: in development mode with `VITE_API_BASE_URL` set to
`https://api.example.edu/api`, `getApiBaseUrl()` returns the local origin, not the
variable; and in production mode with the variable not set it returns the
production placeholder, not the local origin. -/
theorem getApiBaseUrl_ignores_variable :
    getApiBaseUrl ⟨some "https://api.example.edu/api", some "development"⟩
      = "http://localhost:8080/api" ∧
    getApiBaseUrl ⟨some "https://api.example.edu/api", some "test"⟩
      = "http://localhost:8080/api" ∧
    getApiBaseUrl ⟨none, some "production"⟩ = "https://your-production-api.com/api" := by
  decide

/-- C21, amended: in development mode (also when `MODE` is not set) and in test
mode `getApiBaseUrl()` returns `http://localhost:8080/api` whatever the variable;
in every other mode it returns `VITE_API_BASE_URL` when that is set to a non-empty
value; when the variable is not set (or empty) the default is
`https://your-production-api.com/api` in production mode and
`http://localhost:8080/api` in any other. -/
theorem getApiBaseUrl_by_mode (build : BuildEnv) :
    (getCurrentEnv build = "development" ∨ getCurrentEnv build = "test" →
      getApiBaseUrl build = "http://localhost:8080/api") ∧
    (∀ value, build.VITE_API_BASE_URL = some value → value ≠ "" →
      getCurrentEnv build ≠ "development" → getCurrentEnv build ≠ "test" →
      getApiBaseUrl build = value) ∧
    (build.VITE_API_BASE_URL = none ∨ build.VITE_API_BASE_URL = some "" →
      getApiBaseUrl build =
        if getCurrentEnv build = "production" then "https://your-production-api.com/api"
        else "http://localhost:8080/api") ∧
    (build.MODE = none ∨ build.MODE = some "" → getCurrentEnv build = "development") := by
  have hp : ¬ ("production" = "development") := by decide
  have ht : ¬ ("test" = "development") := by decide
  have htp : ¬ ("test" = "production") := by decide
  refine ⟨?_, ?_, ?_, ?_⟩
  · rintro (h | h)
    · simp [getApiBaseUrl, ENV_CONFIG, h, orString]
    · simp [getApiBaseUrl, ENV_CONFIG, h, orString, ht, htp]
  · intro value hv hne hd ht'
    by_cases hprod : getCurrentEnv build = "production"
    · simp [getApiBaseUrl, ENV_CONFIG, hprod, hp, orString, hv, hne]
    · simp [getApiBaseUrl, ENV_CONFIG, hprod, hd, ht', orString, hv, hne, API_CONFIG.BASE_URL]
  · intro hv
    by_cases hd : getCurrentEnv build = "development"
    · simp [getApiBaseUrl, ENV_CONFIG, hd, orString, Ne.symm hp]
    · by_cases hprod : getCurrentEnv build = "production"
      · rcases hv with hv | hv <;> simp [getApiBaseUrl, ENV_CONFIG, hprod, hp, orString, hv]
      · by_cases ht' : getCurrentEnv build = "test"
        · simp [getApiBaseUrl, ENV_CONFIG, ht', ht, htp, orString]
        · rcases hv with hv | hv <;>
            simp [getApiBaseUrl, ENV_CONFIG, hprod, hd, ht', orString, hv, API_CONFIG.BASE_URL]
  · rintro (h | h) <;> simp [getCurrentEnv, orString, h]

/-! ## Stored user of an unauthenticated storage (C22) -/

/-- C22, the code at the failing input: with the stored record `{name: "S"}`, which
has no token, `isAuthenticated()` is false and `getStoredUser()` returns the
record, not `null`. -/
theorem getStoredUser_of_unauthenticated :
    authService.isAuthenticated (some (.json (.obj [("name", .str "S")]))) = false ∧
    authService.getStoredUser (some (.json (.obj [("name", .str "S")])))
      = .obj [("name", .str "S")] ∧
    (authService.getStoredUser (some (.json (.obj [("name", .str "S")])))).truthy = true :=
  ⟨rfl, rfl, rfl⟩

/-! ## Role sent by login and registration (C23) -/

theorem registerBody_obj (toUpperCase : String → String) (members : List (String × Json)) :
    authService.registerBody toUpperCase (.obj members) =
      match authService.registerRole toUpperCase (lookup members "role") with
      | .ok role => .ok (.obj (assign (registerFields members) "role" role))
      | .error e => .error e := by
  simp only [authService.registerBody, Json.propE, Json.prop, registerFields]
  cases authService.registerRole toUpperCase (lookup members "role") <;> rfl

/-- C23: for every registration payload `authService.register` sends the caller's
role converted to upper case when a role is supplied and `STUDENT` when none is;
`authService.login` sends the upper-cased role, or `null` when none is supplied; and
for each role selectable in the forms (`student`, `admin`, `EVENT_MANAGER`) the role
sent is one of `STUDENT`, `EVENT_MANAGER`, `ADMIN`.  The case mapping is the
platform's `toUpperCase`, of which the last part uses what it does on ASCII
text. -/
theorem role_sent_upper_case (toUpperCase : String → String)
    (members : List (String × Json)) (email password role : String) (env : Env) (reply : Reply)
    (hascii : ∀ s : String, (∀ c ∈ s.toList, c.val < 128) →
      toUpperCase s = asciiUpperCase s) :
    (role ≠ "" → lookup members "role" = some (.str role) →
      authService.registerBody toUpperCase (.obj members) =
        .ok (.obj (assign (registerFields members) "role" (.str (toUpperCase role)))) ∧
      lookup (assign (registerFields members) "role" (.str (toUpperCase role))) "role"
        = some (.str (toUpperCase role)) ∧
      authService.register toUpperCase env (.obj members) reply =
        callService (rethrowWithBody "Registration failed. Please try again.") env
          (api.config "post" API_CONFIG.ROUTES.AUTH.REGISTER
            (some (.obj (assign (registerFields members) "role" (.str (toUpperCase role))))))
          reply) ∧
    (lookup members "role" = none ∨ lookup members "role" = some (.str "") →
      authService.registerBody toUpperCase (.obj members) =
        .ok (.obj (assign (registerFields members) "role" (.str "STUDENT"))) ∧
      lookup (assign (registerFields members) "role" (.str "STUDENT")) "role"
        = some (.str "STUDENT")) ∧
    (role ≠ "" →
      (authService.loginBody toUpperCase email password (some role)).prop "role"
        = some (.str (toUpperCase role))) ∧
    (authService.loginBody toUpperCase email password none).prop "role" = some .null ∧
    (∀ r, authService.login toUpperCase env email password r reply =
      callService (rethrowWithBody "Login failed. Please try again.") env
        (api.config "post" API_CONFIG.ROUTES.AUTH.LOGIN
          (some (authService.loginBody toUpperCase email password r))) reply) ∧
    (∀ selected ∈ ["student", "admin", "EVENT_MANAGER"],
      ∃ sent ∈ ["STUDENT", "EVENT_MANAGER", "ADMIN"],
        (authService.loginBody toUpperCase email password (some selected)).prop "role"
          = some (.str sent) ∧
        authService.registerRole toUpperCase (some (.str selected)) = .ok (.str sent)) ∧
    toUpperCase "student" = "STUDENT" ∧ toUpperCase "admin" = "ADMIN" ∧
    toUpperCase "EVENT_MANAGER" = "EVENT_MANAGER" := by
  have hstudent : toUpperCase "student" = "STUDENT" :=
    (hascii "student" (by decide)).trans (by decide)
  have hadmin : toUpperCase "admin" = "ADMIN" :=
    (hascii "admin" (by decide)).trans (by decide)
  have hmanager : toUpperCase "EVENT_MANAGER" = "EVENT_MANAGER" :=
    (hascii "EVENT_MANAGER" (by decide)).trans (by decide)
  have hloginRole : ∀ r : String, r ≠ "" →
      (authService.loginBody toUpperCase email password (some r)).prop "role"
        = some (.str (toUpperCase r)) := by
    intro r hr
    simp [authService.loginBody, Json.prop, lookup, hr]
  have hregisterRole : ∀ r : String, r ≠ "" →
      authService.registerRole toUpperCase (some (.str r)) = .ok (.str (toUpperCase r)) := by
    intro r hr
    simp [authService.registerRole, hr]
  refine ⟨?_, ?_, hloginRole role, ?_, ?_, ?_, hstudent, hadmin, hmanager⟩
  · intro hne hrole
    have hbody : authService.registerBody toUpperCase (.obj members) =
        .ok (.obj (assign (registerFields members) "role" (.str (toUpperCase role)))) := by
      rw [registerBody_obj, hrole]
      simp [authService.registerRole, hne]
    refine ⟨hbody, by simp [lookup_assign], ?_⟩
    simp only [authService.register, hbody]
  · intro hrole
    have hbody : authService.registerBody toUpperCase (.obj members) =
        .ok (.obj (assign (registerFields members) "role" (.str "STUDENT"))) := by
      rw [registerBody_obj]
      rcases hrole with hrole | hrole <;> simp [hrole, authService.registerRole]
    exact ⟨hbody, by simp [lookup_assign]⟩
  · simp [authService.loginBody, Json.prop, lookup]
  · intro r
    rfl
  · intro selected hsel
    simp only [List.mem_cons, List.mem_singleton, List.not_mem_nil, or_false] at hsel
    rcases hsel with rfl | rfl | rfl
    · exact ⟨"STUDENT", by decide,
        by rw [hloginRole _ (by decide), hstudent],
        by rw [hregisterRole _ (by decide), hstudent]⟩
    · exact ⟨"ADMIN", by decide,
        by rw [hloginRole _ (by decide), hadmin],
        by rw [hregisterRole _ (by decide), hadmin]⟩
    · exact ⟨"EVENT_MANAGER", by decide,
        by rw [hloginRole _ (by decide), hmanager],
        by rw [hregisterRole _ (by decide), hmanager]⟩

/-- C23 on a registration as a student: with the ASCII case mapping the body holds
the role `STUDENT`, and a login as `admin` sends `ADMIN`. -/
theorem role_sent_upper_case_witness :
    authService.registerBody asciiUpperCase
        (.obj [("name", .str "S"), ("email", .str "s@example.com"),
               ("password", .str "secret1"), ("role", .str "student")])
      = .ok (.obj (assign (registerFields
          [("name", .str "S"), ("email", .str "s@example.com"),
           ("password", .str "secret1"), ("role", .str "student")]) "role"
          (.str (asciiUpperCase "student")))) ∧
    asciiUpperCase "student" = "STUDENT" ∧
    (authService.loginBody asciiUpperCase "s@example.com" "secret1" (some "admin")).prop "role"
      = some (.str (asciiUpperCase "admin")) ∧
    asciiUpperCase "admin" = "ADMIN" :=
  have h := role_sent_upper_case asciiUpperCase
    [("name", .str "S"), ("email", .str "s@example.com"), ("password", .str "secret1"),
     ("role", .str "student")] "s@example.com" "secret1" "student" ⟨none, "/register"⟩
    (.ok .null) (fun _ _ => rfl)
  have h2 := role_sent_upper_case asciiUpperCase
    [("name", .str "S"), ("email", .str "s@example.com"), ("password", .str "secret1"),
     ("role", .str "student")] "s@example.com" "secret1" "admin" ⟨none, "/login"⟩
    (.ok .null) (fun _ _ => rfl)
  ⟨(h.1 (by decide) rfl).1, h.2.2.2.2.2.2.1, h2.2.2.1 (by decide), h2.2.2.2.2.2.2.2.1⟩


/-! ## Status on the admin dashboard (C24) -/

/-- C24, the code at the failing input: for an event without a date (`undefined`)
`getEventStatus` returns no status: `toISOString` throws a `RangeError`, at any
instant and for any time.  The card's `hasEventStarted`, which builds the same
date-time, answers `false` for such an event. -/
theorem getEventStatus_throws_without_date (parse : String → Option Int)
    (isoDate : Int → String) (now : Int) (timeString : Option Json) :
    AdminDashboard.getEventStatus parse isoDate now none timeString = .error .rangeError ∧
    hasEventStarted parse isoDate now [("title", .str "Hack night"), ("time", .str "10:00")]
      = false :=
  ⟨rfl, rfl⟩

/-- The part of C24 that holds: for a date that is a string, `getEventStatus`
returns a status, `Upcoming` exactly when the constructed date-time
(`date + 'T' + time`, the time being `00:00` when it is absent, empty or not a
string) fails to parse or lies after `now`, and `Completed` otherwise. -/
theorem getEventStatus_of_text (parse : String → Option Int) (isoDate : Int → String)
    (now : Int) (date : String) (timeString : Option Json) :
    ∃ badge, AdminDashboard.getEventStatus parse isoDate now (some (.str date)) timeString
        = .ok badge ∧
      (badge.status = "Upcoming" ↔
        (parse (date ++ "T" ++ timePartOf timeString) = none ∨
          ∃ t, parse (date ++ "T" ++ timePartOf timeString) = some t ∧ now < t)) ∧
      (badge.status = "Completed" ↔
        ∃ t, parse (date ++ "T" ++ timePartOf timeString) = some t ∧ t ≤ now) := by
  have huc : ¬ ("Upcoming" = "Completed") := by decide
  have hcu : ¬ ("Completed" = "Upcoming") := by decide
  simp only [AdminDashboard.getEventStatus, datePartOf]
  cases hp : parse (date ++ "T" ++ timePartOf timeString) with
  | none => exact ⟨_, rfl, by simp [huc], by simp [huc]⟩
  | some t =>
    by_cases hgt : t > now
    · simp only [hgt, if_true]
      refine ⟨_, rfl, ?_, ?_⟩
      · simp only [true_iff]
        exact Or.inr ⟨t, rfl, hgt⟩
      · simp only [huc, false_iff]
        rintro ⟨t', ht', hle⟩
        simp only [Option.some.injEq] at ht'
        subst ht'
        exact absurd hgt (not_lt.mpr hle)
    · simp only [hgt, if_false]
      refine ⟨_, rfl, ?_, ?_⟩
      · simp only [hcu, false_iff]
        rintro (h | ⟨t', ht', hlt⟩)
        · simp at h
        · simp only [Option.some.injEq] at ht'
          subst ht'
          exact hgt hlt
      · simp only [true_iff]
        exact ⟨t, rfl, not_lt.mp hgt⟩

/-! ## Status on the student dashboard (C25) -/

/-- C25, the code where date and date-time differ: for a registered event whose
date parses to `t0` and whose date with time parses to `t1`, at an instant `now`
with `t0 ≤ now < t1`, the student dashboard classifies the event as Completed (it
reads the date alone), while the Events page lists the same event under
Upcoming. -/
theorem studentDashboard_ignores_time (parse : String → Option Int) (now t0 t1 : Int)
    (date time : String) (event : Event) (events : List Event)
    (hdate : lookup event "date" = some (.str date))
    (htime : lookup event "time" = some (.str time)) (hne : time ≠ "")
    (h0 : parse date = some t0) (h1 : parse (date ++ "T" ++ time) = some t1)
    (hle : t0 ≤ now) (hlt : now < t1) (hmem : event ∈ events) :
    (StudentDashboard.getEventStatus parse now (lookup event "date")).status = "Completed" ∧
    event ∈ StudentDashboard.completedEvents parse now events ∧
    event ∉ StudentDashboard.upcomingEvents parse now events ∧
    event ∈ upcomingEvents parse now events ∧
    event ∉ completedEvents parse now events := by
  have hnew : newDate parse (lookup event "date") = some t0 := by
    rw [hdate]
    simp [newDate, h0]
  have hstr : eventDateTimeString event = date ++ "T" ++ time := by
    simp [eventDateTimeString, hdate, htime, toJsStringOpt, Json.toJsString, truthyOpt,
      Json.truthy, hne]
  refine ⟨?_, ?_, ?_, ?_, ?_⟩
  · simp [StudentDashboard.getEventStatus, hnew, dateAfter, not_lt.mpr hle]
  · simp [StudentDashboard.completedEvents, List.mem_filter, hmem, hnew, dateNotAfter, hle]
  · simp [StudentDashboard.upcomingEvents, List.mem_filter, hnew, dateAfter, not_lt.mpr hle]
  · simp [upcomingEvents, List.mem_filter, hmem, hstr, h1, dateAfter, hlt]
  · simp [completedEvents, List.mem_filter, hstr, h1, dateNotAfter, hlt]

/-- C25 at the failing input: an event on 1 January 2030 at 18:00, seen at 10:00 of
that day (UTC). -/
theorem studentDashboard_ignores_time_witness :
    (StudentDashboard.getEventStatus sampleClock 1893492000000
        (lookup [("date", Json.str "2030-01-01"), ("time", Json.str "18:00")] "date")).status
      = "Completed" ∧
    [("date", Json.str "2030-01-01"), ("time", Json.str "18:00")] ∈
      StudentDashboard.completedEvents sampleClock 1893492000000
        [[("date", Json.str "2030-01-01"), ("time", Json.str "18:00")]] ∧
    [("date", Json.str "2030-01-01"), ("time", Json.str "18:00")] ∉
      StudentDashboard.upcomingEvents sampleClock 1893492000000
        [[("date", Json.str "2030-01-01"), ("time", Json.str "18:00")]] ∧
    [("date", Json.str "2030-01-01"), ("time", Json.str "18:00")] ∈
      upcomingEvents sampleClock 1893492000000
        [[("date", Json.str "2030-01-01"), ("time", Json.str "18:00")]] ∧
    [("date", Json.str "2030-01-01"), ("time", Json.str "18:00")] ∉
      completedEvents sampleClock 1893492000000
        [[("date", Json.str "2030-01-01"), ("time", Json.str "18:00")]] :=
  studentDashboard_ignores_time sampleClock 1893492000000 1893456000000 1893520800000
    "2030-01-01" "18:00" [("date", .str "2030-01-01"), ("time", .str "18:00")]
    [[("date", .str "2030-01-01"), ("time", .str "18:00")]]
    rfl rfl (by decide) (by decide) (by decide) (by decide) (by decide)
    (List.mem_singleton.mpr rfl)

/-! ## Failed register and unregister calls, loading flags (C26) -/

theorem lookup_assign_assign {β : Type} (ms : List (String × β)) (k : String) (a b : β)
    (k' : String) :
    lookup (assign (assign ms k a) k b) k' = if k' = k then some b else lookup ms k' := by
  rw [lookup_assign, lookup_assign]
  by_cases h : k' = k <;> simp [h]

/-- C26: for every events list, registered set, loading-flag map and event
identifier, when the register (or unregister) call fails the handler leaves the
events list and the registered set unchanged; and after either handler, whether the
call succeeded or failed, the loading flag of that identifier is false and the flag
of every other identifier (every other key of the map) is as before. -/
theorem handlers_restore_loading_flag (page : EventsPage) (env : Env) (eventId : Json)
    (reply : Reply) :
    (∀ env' e, eventService.registerForEvent env eventId reply = (env', .error e) →
      (handleRegister page env eventId reply).page.events = page.events ∧
      (handleRegister page env eventId reply).page.registeredEvents = page.registeredEvents) ∧
    (∀ env' e, eventService.unregisterFromEvent env eventId reply = (env', .error e) →
      (handleUnregister page env eventId reply).page.events = page.events ∧
      (handleUnregister page env eventId reply).page.registeredEvents
        = page.registeredEvents) ∧
    (∀ key, lookup (handleRegister page env eventId reply).page.actionLoading key =
      if key = eventId.toJsString then some false else lookup page.actionLoading key) ∧
    (∀ key, lookup (handleUnregister page env eventId reply).page.actionLoading key =
      if key = eventId.toJsString then some false else lookup page.actionLoading key) ∧
    (∀ event, lookup event "id" = some eventId →
      loadingProp (handleRegister page env eventId reply).page event = false ∧
      loadingProp (handleUnregister page env eventId reply).page event = false) := by
  have hreg : ∀ key, lookup (handleRegister page env eventId reply).page.actionLoading key =
      if key = eventId.toJsString then some false else lookup page.actionLoading key := by
    intro key
    unfold handleRegister
    cases hcall : eventService.registerForEvent env eventId reply with
    | mk env' result =>
      cases result <;> simp only [lookup_assign_assign]
  have hunreg : ∀ key,
      lookup (handleUnregister page env eventId reply).page.actionLoading key =
        if key = eventId.toJsString then some false else lookup page.actionLoading key := by
    intro key
    unfold handleUnregister
    cases hcall : eventService.unregisterFromEvent env eventId reply with
    | mk env' result =>
      cases result <;> simp only [lookup_assign_assign]
  refine ⟨?_, ?_, hreg, hunreg, ?_⟩
  · intro env' e h
    simp only [handleRegister, h, and_self]
  · intro env' e h
    simp only [handleUnregister, h, and_self]
  · intro event hid
    simp only [loadingProp, hid, toJsStringOpt, hreg, hunreg, if_true, and_self]


/-! ## An authenticated state has a user (C27) -/

theorem userPresent_authReducer (auth : AuthState) (action : Action) (h : UserPresent auth)
    (hlogin : ∀ payload, action = .LOGIN_SUCCESS payload → payload.truthy = true) :
    UserPresent (authReducer auth action) := by
  cases action with
  | SET_LOADING payload => exact h
  | LOGIN_SUCCESS payload => exact fun _ => hlogin payload rfl
  | LOGOUT => exact fun hi => absurd hi (by simp [authReducer])
  | SET_USER payload => exact fun hi => hi
  | UPDATE_USER payload => exact fun _ => rfl
  | OTHER => exact h

theorem userPresent_dispatchAll (actions : List Action) (auth : AuthState)
    (h : UserPresent auth) (hact : ∀ a ∈ actions, a.fromProvider = true) :
    UserPresent (dispatchAll auth actions) := by
  induction actions generalizing auth with
  | nil => exact h
  | cons a rest ih =>
    simp only [dispatchAll, List.foldl_cons]
    refine ih (authReducer auth a) (userPresent_authReducer auth a h ?_)
      (fun b hb => hact b (List.mem_cons_of_mem a hb))
    intro payload ha
    have hp := hact a (List.mem_cons_self a rest)
    subst ha
    cases payload <;> first | rfl | simp [Action.fromProvider] at hp

theorem protectedRoute_children_role (auth : AuthState) (h : UserPresent auth)
    (allowed : List String) (page : Page)
    (hr : ProtectedRoute auth (some allowed) page = .children page) :
    rolesInclude allowed (auth.user.prop "role") = true := by
  unfold ProtectedRoute at hr
  cases hl : auth.loading with
  | true => simp [hl] at hr
  | false =>
    cases hi : auth.isAuthenticated with
    | false => simp [hl, hi] at hr
    | true =>
      have ht := h hi
      cases hinc : rolesInclude allowed (auth.user.prop "role") with
      | true => rfl
      | false => simp [hl, hi, ht, hinc] at hr

/-- C27: in every auth state reached from `initialState` through the actions
`AuthProvider` dispatches (`SET_USER`, `LOGIN_SUCCESS` and `UPDATE_USER` with a
record, `SET_LOADING`, `LOGOUT`), `isAuthenticated = true` implies that `user` is
not `null`; so for every such state and every role allow-list, `ProtectedRoute`
renders its children only if `user.role` is in the list. -/
theorem authenticated_user_present (actions : List Action)
    (hact : ∀ a ∈ actions, a.fromProvider = true) :
    ((dispatchAll initialState actions).isAuthenticated = true →
      (dispatchAll initialState actions).user ≠ .null ∧
      (dispatchAll initialState actions).user.truthy = true) ∧
    (∀ allowed page,
      ProtectedRoute (dispatchAll initialState actions) (some allowed) page = .children page →
      rolesInclude allowed ((dispatchAll initialState actions).user.prop "role") = true) := by
  have hinv : UserPresent (dispatchAll initialState actions) :=
    userPresent_dispatchAll actions initialState (fun hi => by simp [initialState] at hi) hact
  refine ⟨fun hi => ⟨?_, hinv hi⟩, fun allowed page hr =>
    protectedRoute_children_role _ hinv allowed page hr⟩
  intro hnull
  have := hinv hi
  rw [hnull] at this
  simp [Json.truthy] at this

/-- C27 on the actions of a start-up without a stored session followed by the
login of an administrator and a profile update. -/
theorem authenticated_user_present_witness :
    ((dispatchAll initialState
        [.SET_LOADING false, .SET_LOADING true,
         .LOGIN_SUCCESS (.obj [("role", .str "ADMIN"), ("token", .str "t1")]),
         .UPDATE_USER (.obj [("name", .str "A")])]).isAuthenticated = true →
      (dispatchAll initialState
        [.SET_LOADING false, .SET_LOADING true,
         .LOGIN_SUCCESS (.obj [("role", .str "ADMIN"), ("token", .str "t1")]),
         .UPDATE_USER (.obj [("name", .str "A")])]).user ≠ .null ∧
      (dispatchAll initialState
        [.SET_LOADING false, .SET_LOADING true,
         .LOGIN_SUCCESS (.obj [("role", .str "ADMIN"), ("token", .str "t1")]),
         .UPDATE_USER (.obj [("name", .str "A")])]).user.truthy = true) ∧
    (∀ allowed page,
      ProtectedRoute (dispatchAll initialState
        [.SET_LOADING false, .SET_LOADING true,
         .LOGIN_SUCCESS (.obj [("role", .str "ADMIN"), ("token", .str "t1")]),
         .UPDATE_USER (.obj [("name", .str "A")])]) (some allowed) page = .children page →
      rolesInclude allowed ((dispatchAll initialState
        [.SET_LOADING false, .SET_LOADING true,
         .LOGIN_SUCCESS (.obj [("role", .str "ADMIN"), ("token", .str "t1")]),
         .UPDATE_USER (.obj [("name", .str "A")])]).user.prop "role") = true) :=
  authenticated_user_present _ (by decide)

/-- The operations of `AuthProvider` keep the same invariant, whatever the server
replies: every `LOGIN_SUCCESS` they dispatch carries an object literal. -/
theorem userPresent_run (toUpperCase : String → String)
    (app : App) (op : Op) (h : UserPresent app.auth) :
    UserPresent (op.run toUpperCase app).auth := by
  have hfinishLogin : ∀ (auth : AuthState) (result : Env × Except JsError Json),
      UserPresent auth →
      UserPresent (AuthProvider.finishLogin (authReducer auth (.SET_LOADING true)) result).1.auth := by
    intro auth result ha
    obtain ⟨env, r⟩ := result
    cases r with
    | error e => exact ha
    | ok d =>
      simp only [AuthProvider.finishLogin]
      cases hs : AuthProvider.sessionOf d with
      | error e => exact ha
      | ok userData =>
        have hobj : ∃ ms, userData = .obj ms := by
          by_cases hd : d = .null
          · rw [hd, sessionOf_null] at hs
            exact absurd hs (by simp)
          · rw [sessionOf_of_ne_null d hd] at hs
            simp only [Except.ok.injEq] at hs
            exact ⟨_, hs.symm⟩
        obtain ⟨ms, rfl⟩ := hobj
        exact fun _ => rfl
  have hfinishUpdate : ∀ (auth : AuthState) (result : Env × Except JsError Json),
      UserPresent auth → UserPresent (AuthProvider.finishUpdate auth result).1.auth := by
    intro auth result ha
    obtain ⟨env, r⟩ := result
    cases r with
    | error e => exact ha
    | ok d => exact fun _ => rfl
  cases op with
  | mount =>
    simp only [Op.run, AuthProvider.mountEffect]
    split
    · exact fun hi => hi
    · exact h
  | login email password role reply => exact hfinishLogin app.auth _ h
  | register userData reply => exact hfinishLogin app.auth _ h
  | logout => exact fun hi => absurd hi (by simp [Op.run, AuthProvider.logout, authReducer])
  | updateProfile d reply => exact hfinishUpdate app.auth _ h
  | updateStudentDetails d reply => exact hfinishUpdate app.auth _ h
  | updateEventManagerDetails d reply => exact hfinishUpdate app.auth _ h
  | refreshUser reply =>
    simp only [Op.run, AuthProvider.refreshUser]
    cases authService.getProfile app.env reply with
    | mk env r =>
      cases r with
      | error e => exact h
      | ok d =>
        simp only
        split
        · exact fun _ => rfl
        · exact h
  | external env => exact h


/-! ## The login form validation (C28) -/

theorem jsTrim_of_all_whitespace (s : String)
    (h : ∀ c ∈ s.toList, isJsWhitespace c = true) : jsTrim s = "" := by
  have hdrop : s.toList.dropWhile isJsWhitespace = [] := by
    rw [List.dropWhile_eq_nil_iff]
    exact h
  have hdata : s.data.dropWhile isJsWhitespace = [] := hdrop
  unfold jsTrim
  show String.mk ((s.data.dropWhile isJsWhitespace).reverse.dropWhile isJsWhitespace).reverse
    = ""
  rw [hdata]
  rfl

/-- C28: for every pair of strings, `validateLoginForm` returns at most one error
per field, an email error before a password error; it returns the empty list if and
only if the email is non-blank after trimming and passes `validateEmail` and the
password is non-blank after trimming and has length at least 6; and a password made
of white space only (six or more characters of it included) is rejected with
`Password is required`. -/
theorem validateLoginForm_spec (email password : String) :
    (∃ emailErrors passwordErrors : List String,
      emailErrors.length ≤ 1 ∧ passwordErrors.length ≤ 1 ∧
      validateLoginForm email password =
        fieldErrors "email" emailErrors ++ fieldErrors "password" passwordErrors) ∧
    (validateLoginForm email password = [] ↔
      jsTrim email ≠ "" ∧ validateEmail email = true ∧
      jsTrim password ≠ "" ∧ utf16Length password ≥ 6) ∧
    ((∀ c ∈ password.toList, isJsWhitespace c = true) →
      (⟨"password", "Password is required"⟩ : FieldError) ∈
        validateLoginForm email password) := by
  refine ⟨validateLoginForm_shape email password, ?_, ?_⟩
  · unfold validateLoginForm validatePassword
    by_cases h1 : jsTrim email = "" <;> by_cases h2 : validateEmail email = true <;>
      by_cases h3 : jsTrim password = "" <;> by_cases h4 : utf16Length password ≥ 6 <;>
      simp [h1, h2, h3, h4]
  · intro hws
    have h3 := jsTrim_of_all_whitespace password hws
    unfold validateLoginForm
    simp [h3]

/-- C28 on a password of six blanks: the form is rejected with
`Password is required`. -/
theorem validateLoginForm_blank_password :
    validateLoginForm "student@example.com" "      "
      = [⟨"password", "Password is required"⟩] := by
  decide


/-! ## The email pattern (C29) -/

theorem split_at_index (cs : List Char) (i : Nat) (x : Char) (h : cs[i]? = some x) :
    cs = cs.take i ++ x :: cs.drop (i + 1) := by
  obtain ⟨hlt, hx⟩ := List.getElem?_eq_some.1 h
  rw [← hx, ← List.drop_eq_getElem_cons hlt, List.take_append_drop]

/-- The pattern `^[^\s@]+@[^\s@]+\.[^\s@]+$` as a decomposition of the text. -/
theorem validateEmail_iff_split (email : String) :
    validateEmail email = true ↔
      ∃ a b c, email.toList = a ++ '@' :: (b ++ '.' :: c) ∧
        emailRun a = true ∧ emailRun b = true ∧ emailRun c = true := by
  unfold validateEmail
  simp only [List.any_eq_true, List.mem_range, Bool.and_eq_true, decide_eq_true_eq,
    beq_iff_eq, List.get?_eq_getElem?]
  constructor
  · rintro ⟨i, hi, j, hj, ⟨⟨⟨⟨⟨hij, hat⟩, hdot⟩, ha⟩, hb⟩, hc⟩⟩
    refine ⟨email.toList.take i, (email.toList.take j).drop (i + 1),
      email.toList.drop (j + 1), ?_, ha, hb, hc⟩
    have h1 := split_at_index email.toList i '@' hat
    have hdot' : (email.toList.drop (i + 1))[j - (i + 1)]? = some '.' := by
      rw [List.getElem?_drop]
      have : i + 1 + (j - (i + 1)) = j := by omega
      rw [this]
      exact hdot
    have h2 := split_at_index (email.toList.drop (i + 1)) (j - (i + 1)) '.' hdot'
    have h3 : (email.toList.drop (i + 1)).take (j - (i + 1))
        = (email.toList.take j).drop (i + 1) := by
      rw [List.take_drop]
      have : i + 1 + (j - (i + 1)) = j := by omega
      rw [this]
    have h4 : (email.toList.drop (i + 1)).drop (j - (i + 1) + 1)
        = email.toList.drop (j + 1) := by
      rw [List.drop_drop]
      have : i + 1 + (j - (i + 1) + 1) = j + 1 := by omega
      rw [this]
    rw [h3, h4] at h2
    rw [← h2]
    exact h1
  · rintro ⟨a, b, c, hcs, ha, hb, hc⟩
    have hlen : email.toList.length = a.length + 1 + b.length + 1 + c.length := by
      rw [hcs]
      simp only [List.length_append, List.length_cons]
      omega
    have hgroup1 : email.toList = (a ++ '@' :: b) ++ '.' :: c := by
      rw [hcs]
      simp
    have hgroup2 : a ++ '@' :: b = (a ++ ['@']) ++ b := by simp
    have hgroup3 : email.toList = ((a ++ '@' :: b) ++ ['.']) ++ c := by
      rw [hcs]
      simp
    have hlen1 : (a ++ '@' :: b).length = a.length + 1 + b.length := by
      simp only [List.length_append, List.length_cons]
      omega
    refine ⟨a.length, by omega, a.length + 1 + b.length, by omega, ?_⟩
    refine ⟨⟨⟨⟨⟨by omega, ?_⟩, ?_⟩, ?_⟩, ?_⟩, ?_⟩
    · rw [hcs, List.getElem?_append_right (Nat.le_refl _)]
      simp
    · rw [hgroup1, List.getElem?_append_right (by rw [hlen1])]
      simp [hlen1]
    · rw [hcs, List.take_left' rfl]
      exact ha
    · rw [hgroup1, List.take_left' hlen1, hgroup2,
        List.drop_left' (by simp)]
      exact hb
    · rw [hgroup3, List.drop_left' (by
        simp only [List.length_append, List.length_cons, List.length_nil]
        omega)]
      exact hc

theorem emailRun_iff (cs : List Char) :
    emailRun cs = true ↔
      cs ≠ [] ∧ (∀ c ∈ cs, isJsWhitespace c = false) ∧ cs.count '@' = 0 := by
  unfold emailRun emailChar
  simp only [Bool.and_eq_true, Bool.not_eq_true', List.isEmpty_eq_false, List.all_eq_true,
    bne_iff_ne, ne_eq, List.count_eq_zero]
  constructor
  · rintro ⟨hne, hall⟩
    exact ⟨hne, fun c hc => (hall c hc).1, fun hmem => (hall '@' hmem).2 rfl⟩
  · rintro ⟨hne, hws, hat⟩
    exact ⟨hne, fun c hc => ⟨hws c hc, fun h => hat (h ▸ hc)⟩⟩

/-- C29: for every string `s`, `validateEmail(s)` is true if and only if `s`
contains no white space, contains exactly one `@`, has at least one character
before the `@`, and the part after the `@` contains a `.` with at least one
character before it and at least one after it. -/
theorem validateEmail_iff_shape (s : String) :
    validateEmail s = true ↔ EmailShape s.toList := by
  have hat : isJsWhitespace '@' = false := by decide
  have hdot : isJsWhitespace '.' = false := by decide
  have hne : ¬ ('.' = '@') := by decide
  rw [validateEmail_iff_split]
  constructor
  · rintro ⟨a, b, c, hcs, ha, hb, hc⟩
    obtain ⟨ha1, ha2, ha3⟩ := (emailRun_iff a).1 ha
    obtain ⟨hb1, hb2, hb3⟩ := (emailRun_iff b).1 hb
    obtain ⟨hc1, hc2, hc3⟩ := (emailRun_iff c).1 hc
    refine ⟨?_, ?_, a, b ++ '.' :: c, hcs, ha1, b, c, rfl, hb1, hc1⟩
    · intro x hx
      rw [hcs] at hx
      simp only [List.mem_append, List.mem_cons] at hx
      rcases hx with hx | hx | hx | hx | hx
      · exact ha2 x hx
      · rw [hx]; exact hat
      · exact hb2 x hx
      · rw [hx]; exact hdot
      · exact hc2 x hx
    · rw [hcs]
      simp [List.count_append, List.count_cons, ha3, hb3, hc3, hne]
  · rintro ⟨hws, hcount, a, r, hcs, ha1, b, c, hr, hb1, hc1⟩
    subst hr
    refine ⟨a, b, c, hcs, ?_, ?_, ?_⟩
    all_goals
      rw [emailRun_iff]
      rw [hcs] at hcount hws
      simp only [List.count_append, List.count_cons, beq_self_eq_true, if_true] at hcount
      simp only [List.mem_append, List.mem_cons] at hws
    · exact ⟨ha1, fun x hx => hws x (Or.inl hx), by omega⟩
    · exact ⟨hb1, fun x hx => hws x (Or.inr (Or.inr (Or.inl hx))), by omega⟩
    · exact ⟨hc1, fun x hx => hws x (Or.inr (Or.inr (Or.inr (Or.inr hx)))), by omega⟩


/-! ## The event form validation (C30) -/

theorem blankField_typed (v : Option Json) (h : textOrMissing v = true) :
    blankField v = .ok (!nonBlank v) := by
  cases v with
  | none => rfl
  | some j =>
    cases j <;> first | rfl | simp [textOrMissing] at h
    simp [blankField, nonBlank]

theorem maxParticipants_check_typed (v : Option Json) (h : numberOrMissing v = true) :
    (!truthyOpt v || lessThanOne v) = !atLeastOne v := by
  cases v with
  | none => rfl
  | some j =>
    cases j <;> first | rfl | simp [numberOrMissing] at h
    rename_i n
    simp only [truthyOpt, Json.truthy, lessThanOne, toPrimitive, toNumber, atLeastOne]
    by_cases h0 : n = 0
    · simp [h0]
    · by_cases h1 : n < 1
      · simp [h0, h1, not_le.mpr h1]
      · simp [h0, h1, not_lt.mp h1]

theorem validateEventForm_typed (eventData : List (String × Json))
    (htyped : formTyped eventData = true) :
    validateEventForm eventData = .ok (
      (if !nonBlank (lookup eventData "title") then
         [{ field := "title", message := "Event title is required" }] else []) ++
      (if !nonBlank (lookup eventData "description") then
         [{ field := "description", message := "Event description is required" }] else []) ++
      (if !truthyOpt (lookup eventData "date") then
         [{ field := "date", message := "Event date is required" }] else []) ++
      (if !truthyOpt (lookup eventData "time") then
         [{ field := "time", message := "Event time is required" }] else []) ++
      (if !nonBlank (lookup eventData "department") then
         [{ field := "department", message := "Department is required" }] else []) ++
      (if !nonBlank (lookup eventData "location") then
         [{ field := "location", message := "Event location is required" }] else []) ++
      (if !atLeastOne (lookup eventData "maxParticipants") then
         [{ field := "maxParticipants",
            message := "Maximum participants must be at least 1" }] else [])) := by
  unfold formTyped at htyped
  simp only [Bool.and_eq_true] at htyped
  obtain ⟨⟨⟨⟨h1, h2⟩, h3⟩, h4⟩, h5⟩ := htyped
  simp only [validateEventForm, blankField_typed _ h1, blankField_typed _ h2,
    blankField_typed _ h3, blankField_typed _ h4, maxParticipants_check_typed _ h5]

theorem singleton_if_sublist (c : Bool) (x : FieldError) :
    (if c then [x] else []).Sublist [x] := by
  cases c <;> simp

/-- C30: for every event form record (text members strings or missing,
`maxParticipants` a number or missing), `validateEventForm` returns the empty list
if and only if title, description, department and location are non-blank after
trimming, date and time are non-empty and `maxParticipants` is a number at least 1;
its result is a sub-sequence of the seven possible errors in the order title,
description, date, time, department, location, maxParticipants (so at most one per
field); and every record `handleFormSubmit` hands to the event service has
`maxParticipants ≥ 1`, a non-zero divisor for the participation rate of the
card. -/
theorem validateEventForm_spec (eventData : List (String × Json))
    (htyped : formTyped eventData = true) :
    (∃ errors, validateEventForm eventData = .ok errors ∧
      (errors = [] ↔
        nonBlank (lookup eventData "title") = true ∧
        nonBlank (lookup eventData "description") = true ∧
        nonBlank (lookup eventData "department") = true ∧
        nonBlank (lookup eventData "location") = true ∧
        truthyOpt (lookup eventData "date") = true ∧
        truthyOpt (lookup eventData "time") = true ∧
        ∃ m : Int, lookup eventData "maxParticipants" = some (.num m) ∧ m ≥ 1) ∧
      errors.Sublist eventFormErrors) ∧
    (∀ (editingEvent : Option Event) (formErrors : List (String × String)) (show_ : Bool)
        (events : List Event) (env : Env) (reply : Reply) (result : FormSubmitted),
      handleFormSubmit ⟨eventData, editingEvent, formErrors, show_, events⟩ env reply
        = .ok result →
      ∀ data ∈ result.submitted,
        ∃ m : Int, lookup data "maxParticipants" = some (.num m) ∧ m ≥ 1 ∧
          ∀ c : Int,
            participationRate [("currentParticipants", .num c), ("maxParticipants", .num m)]
              = (toBinary64 ((c : ℚ) / (m : ℚ))).times 100 ∧
            participationRate [("currentParticipants", .num c), ("maxParticipants", .num m)]
              ≠ .nan) := by
  have hval := validateEventForm_typed eventData htyped
  have hmax : atLeastOne (lookup eventData "maxParticipants") = true ↔
      ∃ m : Int, lookup eventData "maxParticipants" = some (.num m) ∧ m ≥ 1 := by
    cases hl : lookup eventData "maxParticipants" with
    | none => simp [atLeastOne]
    | some j => cases j <;> simp [atLeastOne]
  have hempty : (validateEventForm eventData = .ok []) ↔
      (nonBlank (lookup eventData "title") = true ∧
        nonBlank (lookup eventData "description") = true ∧
        nonBlank (lookup eventData "department") = true ∧
        nonBlank (lookup eventData "location") = true ∧
        truthyOpt (lookup eventData "date") = true ∧
        truthyOpt (lookup eventData "time") = true ∧
        ∃ m : Int, lookup eventData "maxParticipants" = some (.num m) ∧ m ≥ 1) := by
    rw [hval, ← hmax]
    cases nonBlank (lookup eventData "title") <;>
      cases nonBlank (lookup eventData "description") <;>
      cases nonBlank (lookup eventData "department") <;>
      cases nonBlank (lookup eventData "location") <;>
      cases truthyOpt (lookup eventData "date") <;>
      cases truthyOpt (lookup eventData "time") <;>
      cases atLeastOne (lookup eventData "maxParticipants") <;> simp
  refine ⟨⟨_, hval, ?_, ?_⟩, ?_⟩
  · rw [← hempty, hval]
    simp only [Except.ok.injEq]
  · unfold eventFormErrors
    exact (((((((singleton_if_sublist _ _).append (singleton_if_sublist _ _)).append
      (singleton_if_sublist _ _)).append (singleton_if_sublist _ _)).append
      (singleton_if_sublist _ _)).append (singleton_if_sublist _ _)).append
      (singleton_if_sublist _ _))
  · intro editingEvent formErrors show_ events env reply result hres data hdata
    have hvalid : validateEventForm eventData = .ok [] ∧ data = eventData := by
      unfold handleFormSubmit at hres
      cases hv : validateEventForm eventData with
      | error e => rw [hv] at hres; simp at hres
      | ok errs =>
        rw [hv] at hres
        simp only at hres
        by_cases hlen : errs.length > 0
        · simp only [hlen, if_true, Except.ok.injEq] at hres
          rw [← hres] at hdata
          simp at hdata
        · have herrs : errs = [] := by
            cases errs with
            | nil => rfl
            | cons x xs => simp at hlen
          refine ⟨by rw [herrs], ?_⟩
          simp only [hlen, if_false] at hres
          cases editingEvent with
          | none =>
            simp only at hres
            cases hc : eventService.createEvent env (.obj eventData) reply with
            | mk env' r =>
              rw [hc] at hres
              cases r <;>
                (simp only [Except.ok.injEq] at hres
                 rw [← hres] at hdata
                 simpa using hdata)
          | some ev =>
            simp only at hres
            cases hc : eventService.updateEvent env (routeId (lookup ev "id"))
                (.obj eventData) reply with
            | mk env' r =>
              rw [hc] at hres
              cases r <;>
                (simp only [Except.ok.injEq] at hres
                 rw [← hres] at hdata
                 simpa using hdata)
    obtain ⟨hok, rfl⟩ := hvalid
    obtain ⟨_, _, _, _, _, _, m, hm, hge⟩ := hempty.1 hok
    refine ⟨m, hm, hge, ?_⟩
    intro c
    have hm0 : m ≠ 0 := by omega
    have hrate := participationRate_of_counts
      [("currentParticipants", .num c), ("maxParticipants", .num m)] c m rfl rfl
    rw [hrate]
    exact ⟨by simp only [divide, if_neg hm0], divide_times_ne_nan c m hm0⟩

/-- C30 on a filled-in form: no error, and the record submitted for creation has
`maxParticipants = 100`. -/
theorem validateEventForm_spec_witness :
    ∃ errors,
      validateEventForm
        [("title", .str "Hack night"), ("description", .str "Code together"),
         ("date", .str "2030-01-01"), ("time", .str "18:00"),
         ("department", .str "Computer Science"), ("location", .str "Lab 2"),
         ("maxParticipants", .num 100)] = .ok errors ∧
      (errors = [] ↔
        nonBlank (lookup
          [("title", Json.str "Hack night"), ("description", .str "Code together"),
           ("date", .str "2030-01-01"), ("time", .str "18:00"),
           ("department", .str "Computer Science"), ("location", .str "Lab 2"),
           ("maxParticipants", .num 100)] "title") = true ∧
        nonBlank (lookup
          [("title", Json.str "Hack night"), ("description", .str "Code together"),
           ("date", .str "2030-01-01"), ("time", .str "18:00"),
           ("department", .str "Computer Science"), ("location", .str "Lab 2"),
           ("maxParticipants", .num 100)] "description") = true ∧
        nonBlank (lookup
          [("title", Json.str "Hack night"), ("description", .str "Code together"),
           ("date", .str "2030-01-01"), ("time", .str "18:00"),
           ("department", .str "Computer Science"), ("location", .str "Lab 2"),
           ("maxParticipants", .num 100)] "department") = true ∧
        nonBlank (lookup
          [("title", Json.str "Hack night"), ("description", .str "Code together"),
           ("date", .str "2030-01-01"), ("time", .str "18:00"),
           ("department", .str "Computer Science"), ("location", .str "Lab 2"),
           ("maxParticipants", .num 100)] "location") = true ∧
        truthyOpt (lookup
          [("title", Json.str "Hack night"), ("description", .str "Code together"),
           ("date", .str "2030-01-01"), ("time", .str "18:00"),
           ("department", .str "Computer Science"), ("location", .str "Lab 2"),
           ("maxParticipants", .num 100)] "date") = true ∧
        truthyOpt (lookup
          [("title", Json.str "Hack night"), ("description", .str "Code together"),
           ("date", .str "2030-01-01"), ("time", .str "18:00"),
           ("department", .str "Computer Science"), ("location", .str "Lab 2"),
           ("maxParticipants", .num 100)] "time") = true ∧
        ∃ m : Int, lookup
          [("title", Json.str "Hack night"), ("description", .str "Code together"),
           ("date", .str "2030-01-01"), ("time", .str "18:00"),
           ("department", .str "Computer Science"), ("location", .str "Lab 2"),
           ("maxParticipants", .num 100)] "maxParticipants" = some (.num m) ∧ m ≥ 1) ∧
      errors.Sublist eventFormErrors :=
  (validateEventForm_spec
    [("title", .str "Hack night"), ("description", .str "Code together"),
     ("date", .str "2030-01-01"), ("time", .str "18:00"),
     ("department", .str "Computer Science"), ("location", .str "Lab 2"),
     ("maxParticipants", .num 100)] (by decide)).1

/-- The validation on concrete forms: a filled-in form passes, and a form with a
blank title and `maxParticipants = 0` gets the two errors, title first. -/
theorem validateEventForm_examples :
    validateEventForm
        [("title", .str "Hack night"), ("description", .str "Code together"),
         ("date", .str "2030-01-01"), ("time", .str "18:00"),
         ("department", .str "Computer Science"), ("location", .str "Lab 2"),
         ("maxParticipants", .num 100)] = .ok [] ∧
    validateEventForm
        [("title", .str "  "), ("description", .str "Code together"),
         ("date", .str "2030-01-01"), ("time", .str "18:00"),
         ("department", .str "Computer Science"), ("location", .str "Lab 2"),
         ("maxParticipants", .num 0)]
      = .ok [⟨"title", "Event title is required"⟩,
             ⟨"maxParticipants", "Maximum participants must be at least 1"⟩] := by
  constructor <;> rfl


/-! ## Route gating in the states the provider reaches (C9) -/

theorem userPresent_runAll (toUpperCase : String → String) (ops : List Op) (app : App)
    (h : UserPresent app.auth) : UserPresent (runAll toUpperCase app ops).auth := by
  induction ops generalizing app with
  | nil => exact h
  | cons op rest ih =>
    simp only [runAll, List.foldl_cons]
    exact ih (op.run toUpperCase app) (userPresent_run toUpperCase app op h)

/-- C9: for every auth state with `loading = false` that the provider reaches from
its initial state (by any operations, whatever the server replies) and every
optional allow-list of roles, `ProtectedRoute` redirects to `/login` when
`isAuthenticated` is false, redirects to `/events` when the user is authenticated
and the allow-list is given and does not contain `user.role`, and renders its
children otherwise; so the route `/admin-dashboard` renders exactly for an
authenticated user of role `ADMIN` and `/student-dashboard` exactly for one of
role `STUDENT`, and at no location does `AppContent` render one of the two
dashboards for a user of another role. -/
theorem protectedRoute_gates (toUpperCase : String → String)
    (matchPath : String → String → Bool) (env : Env) (ops : List Op)
    (roles : Option (List String)) (page : Page) (pathname : String)
    (hloading : (runAll toUpperCase ⟨env, initialState⟩ ops).auth.loading = false) :
    ProtectedRoute (runAll toUpperCase ⟨env, initialState⟩ ops).auth roles page =
      (if (runAll toUpperCase ⟨env, initialState⟩ ops).auth.isAuthenticated = false then
         .navigate "/login"
       else match roles with
        | some allowed =>
          if rolesInclude allowed
              ((runAll toUpperCase ⟨env, initialState⟩ ops).auth.user.prop "role") then
            .children page
          else .navigate "/events"
        | none => .children page) ∧
    (ProtectedRoute (runAll toUpperCase ⟨env, initialState⟩ ops).auth (some ["ADMIN"])
        .AdminDashboard = .children .AdminDashboard ↔
      (runAll toUpperCase ⟨env, initialState⟩ ops).auth.isAuthenticated = true ∧
      (runAll toUpperCase ⟨env, initialState⟩ ops).auth.user.prop "role"
        = some (.str "ADMIN")) ∧
    (ProtectedRoute (runAll toUpperCase ⟨env, initialState⟩ ops).auth (some ["STUDENT"])
        .StudentDashboard = .children .StudentDashboard ↔
      (runAll toUpperCase ⟨env, initialState⟩ ops).auth.isAuthenticated = true ∧
      (runAll toUpperCase ⟨env, initialState⟩ ops).auth.user.prop "role"
        = some (.str "STUDENT")) ∧
    (AppContent matchPath (runAll toUpperCase ⟨env, initialState⟩ ops).auth pathname
        = .children .AdminDashboard →
      (runAll toUpperCase ⟨env, initialState⟩ ops).auth.isAuthenticated = true ∧
      (runAll toUpperCase ⟨env, initialState⟩ ops).auth.user.prop "role"
        = some (.str "ADMIN")) ∧
    (AppContent matchPath (runAll toUpperCase ⟨env, initialState⟩ ops).auth pathname
        = .children .StudentDashboard →
      (runAll toUpperCase ⟨env, initialState⟩ ops).auth.isAuthenticated = true ∧
      (runAll toUpperCase ⟨env, initialState⟩ ops).auth.user.prop "role"
        = some (.str "STUDENT")) := by
  have huser : UserPresent (runAll toUpperCase ⟨env, initialState⟩ ops).auth :=
    userPresent_runAll toUpperCase ops ⟨env, initialState⟩
      (fun hi => by simp [initialState] at hi)
  refine ⟨protectedRoute_of_userPresent _ roles page hloading huser,
    protectedRoute_single_role _ "ADMIN" _ hloading huser,
    protectedRoute_single_role _ "STUDENT" _ hloading huser, ?_, ?_⟩
  · intro h
    exact (protectedRoute_single_role _ "ADMIN" _ hloading huser).1
      ((appContent_children matchPath _ pathname _ h).1 rfl)
  · intro h
    exact (protectedRoute_single_role _ "STUDENT" _ hloading huser).1
      ((appContent_children matchPath _ pathname _ h).2 rfl)

/-- C9 after a start-up without a stored session and the login of a student: the
admin dashboard redirects to `/events`, and the student dashboard renders. -/
theorem protectedRoute_gates_witness :
    ProtectedRoute (runAll asciiUpperCase ⟨⟨none, "/login"⟩, initialState⟩
        [.mount,
         .login "student@example.com" "password" (some "student")
           (.ok (.obj [("user", .obj [("name", .str "S"), ("role", .str "STUDENT")]),
                       ("token", .str "t1")]))]).auth
        (some ["ADMIN"]) .AdminDashboard = .navigate "/events" ∧
    AppContent sampleMatchPath (runAll asciiUpperCase ⟨⟨none, "/login"⟩, initialState⟩
        [.mount,
         .login "student@example.com" "password" (some "student")
           (.ok (.obj [("user", .obj [("name", .str "S"), ("role", .str "STUDENT")]),
                       ("token", .str "t1")]))]).auth
        "/Student-Dashboard/" = .children .StudentDashboard :=
  ⟨(protectedRoute_gates asciiUpperCase sampleMatchPath ⟨none, "/login"⟩
      [.mount,
       .login "student@example.com" "password" (some "student")
         (.ok (.obj [("user", .obj [("name", .str "S"), ("role", .str "STUDENT")]),
                     ("token", .str "t1")]))]
      (some ["ADMIN"]) .AdminDashboard "/admin-dashboard" rfl).1.trans (by decide),
   by decide⟩

end CollegeEvent
